import Mathlib

set_option maxRecDepth 100000

/-!
Verification of the Veridian Urban Index evidence research & scoring pipeline
(`app/services/common/veridian_ai_research_service.py` and
`app/services/score_analyzer_service.py`).

The Python code is shallowly embedded: JSON payloads are an explicit AST
(`JVal`), `json.loads` is an executable recursive-descent parser over
`List Char`, the response cleaning/repair functions are character-level
scans translated statement by statement, the validators and orchestrators
are total Lean functions returning `Except PyErr`, and the batch runner is
a fold that records every store call it makes.
-/

namespace VeridianAI

/-- Python exception classes that the pipeline distinguishes.
`jsonDecodeError` models `json.JSONDecodeError` (a subclass of
`ValueError`), `valueError` models `ValueError` raised by the cleaning
and validation code, `typeError` models `TypeError` (e.g. comparing a
non-number with `<=`), `keyError` models `KeyError` from indexing a
dict, `attributeError` models `AttributeError` from calling a missing
method, and `engineError` models any transport/LLM failure raised by
`chain.ainvoke`. -/
inductive PyErr where
  | jsonDecodeError (msg : String)
  | valueError (msg : String)
  | typeError (msg : String)
  | keyError (msg : String)
  | attributeError (msg : String)
  | engineError (msg : String)
deriving DecidableEq, Repr

/-- The classes caught by `except (json.JSONDecodeError, ValueError)`:
`json.JSONDecodeError` is itself a subclass of `ValueError`, so exactly
the first two constructors are caught and retried. -/
def PyErr.retryable : PyErr → Bool
  | .jsonDecodeError _ => true
  | .valueError _ => true
  | _ => false

/-- The message carried by the exception, as `str(e)` would render it. -/
def PyErr.msg : PyErr → String
  | .jsonDecodeError m => m
  | .valueError m => m
  | .typeError m => m
  | .keyError m => m
  | .attributeError m => m
  | .engineError m => m

/-- A JSON number kept in decimal syntax: sign, integer-part digits and
fractional-part digits (each digit `< 10`).  `json.loads` returns a
Python `int` when `fracDigits = []` and a `float` otherwise; keeping the
digits lets the embedding stay exact.  Exponent notation is not modelled:
no payload of this pipeline uses it. -/
structure JNum where
  neg : Bool
  intDigits : List Nat
  fracDigits : List Nat
deriving DecidableEq, Repr

/-- Numeric value of a digit list read most-significant first. -/
def digitsVal (ds : List Nat) : Nat :=
  ds.foldl (fun acc d => 10 * acc + d) 0

/-! Arithmetic on the exact rationals of the embedding.  The `Rat`
operations shipped by the library are `@[irreducible]`, which would make
the concrete scenario runs impossible to evaluate inside the kernel, so
the embedding computes with `mkRat` over numerator/denominator directly;
the `q*_eq` bridge lemmas below identify these with the ordinary field
operations of `ℚ`. -/

/-- Subtraction. -/
def qsub (a b : ℚ) : ℚ := mkRat (a.num * b.den - b.num * a.den) (a.den * b.den)

/-- Addition. -/
def qadd (a b : ℚ) : ℚ := mkRat (a.num * b.den + b.num * a.den) (a.den * b.den)

/-- Multiplication. -/
def qmul (a b : ℚ) : ℚ := mkRat (a.num * b.num) (a.den * b.den)

/-- Division (zero when the divisor is zero, as in `ℚ`). -/
def qdiv (a b : ℚ) : ℚ :=
  mkRat (a.num * b.den * (if b.num < 0 then -1 else 1)) (a.den * b.num.natAbs)

/-- Negation. -/
def qneg (a : ℚ) : ℚ := mkRat (-a.num) a.den

/-- Integer to rational. -/
def qofInt (i : ℤ) : ℚ := mkRat i 1

/-- Python `abs()`. -/
def qabs (a : ℚ) : ℚ := if a < 0 then qneg a else a

/-- Floor (the denominator is positive, so Euclidean division of the
numerator is the floor). -/
def qfloor (a : ℚ) : ℤ := a.num / (a.den : ℤ)

/-- Rational value of a `JNum` (built with `mkRat` so that closed
instances reduce definitionally). -/
def JNum.toRat (n : JNum) : ℚ :=
  let mag : ℚ := mkRat
    ((digitsVal n.intDigits * 10 ^ n.fracDigits.length + digitsVal n.fracDigits : ℕ) : ℤ)
    (10 ^ n.fracDigits.length)
  if n.neg then qneg mag else mag

mutual
/-- Values produced by `json.loads`: `None`, `bool`, numbers, `str`,
`list` and `dict`.  Arrays and objects are separate mutual inductives so
that mutual induction is available; object member lists keep their
source order (the concrete payloads of this pipeline have no duplicate
keys, so the distinction between this list and a Python dict is
immaterial). -/
inductive JVal where
  | jnull : JVal
  | jbool (b : Bool) : JVal
  | jnum (n : JNum) : JVal
  | jstr (s : List Char) : JVal
  | jarr (xs : JArr) : JVal
  | jobj (ms : JObj) : JVal

inductive JArr where
  | anil : JArr
  | acons (hd : JVal) (tl : JArr) : JArr

inductive JObj where
  | onil : JObj
  | ocons (k : List Char) (v : JVal) (tl : JObj) : JObj
end

/-- List view of a `JArr`. -/
def JArr.toList : JArr → List JVal
  | .anil => []
  | .acons h t => h :: JArr.toList t

/-- Member-list view of a `JObj`. -/
def JObj.toList : JObj → List (List Char × JVal)
  | .onil => []
  | .ocons k v t => (k, v) :: JObj.toList t

/-! ### `json.loads`: a recursive-descent JSON parser

Faithful to CPython's strict-mode decoder on the fragment the pipeline
exercises: whitespace is `space/tab/newline/carriage-return`; raw control
characters below `0x20` inside string literals are rejected ("Invalid
control character"); the short escapes and `\uXXXX` are decoded; numbers
follow `-?(0|[1-9][0-9]*)(\.[0-9]+)?` (exponent notation and the
non-standard `NaN`/`Infinity` literals are not modelled — no payload of
this service uses them); trailing non-whitespace is "Extra data". -/

/-- JSON whitespace accepted by `json.loads`. -/
def isJsonWs (c : Char) : Bool :=
  c = ' ' || c = '\t' || c = '\n' || c = '\r'

/-- Skip leading JSON whitespace. -/
def skipWs (cs : List Char) : List Char :=
  cs.dropWhile isJsonWs

/-- Value of a hexadecimal digit. -/
def hexVal (c : Char) : Option Nat :=
  if '0' ≤ c ∧ c ≤ '9' then some (c.toNat - '0'.toNat)
  else if 'a' ≤ c ∧ c ≤ 'f' then some (c.toNat - 'a'.toNat + 10)
  else if 'A' ≤ c ∧ c ≤ 'F' then some (c.toNat - 'A'.toNat + 10)
  else none

/-- The two-character escapes of JSON strings. -/
def escChar (c : Char) : Option Char :=
  if c = '"' then some '"'
  else if c = '\\' then some '\\'
  else if c = '/' then some '/'
  else if c = 'b' then some '\x08'
  else if c = 'f' then some '\x0c'
  else if c = 'n' then some '\n'
  else if c = 'r' then some '\r'
  else if c = 't' then some '\t'
  else none

/-- Parse the body of a string literal (the opening quote already
consumed), returning the decoded characters and the input after the
closing quote. -/
def parseStr : List Char → Option (List Char × List Char)
  | [] => none
  | '"' :: rest => some ([], rest)
  | '\\' :: 'u' :: h1 :: h2 :: h3 :: h4 :: rest3 =>
    match hexVal h1, hexVal h2, hexVal h3, hexVal h4 with
    | some a, some b, some c', some d =>
      (parseStr rest3).map
        (fun p => (Char.ofNat (4096 * a + 256 * b + 16 * c' + d) :: p.1, p.2))
    | _, _, _, _ => none
  | '\\' :: e :: rest2 =>
    match escChar e with
    | some ec => (parseStr rest2).map (fun p => (ec :: p.1, p.2))
    | none => none
  | '\\' :: [] => none
  | c :: rest =>
    if c.toNat < 0x20 then none
    else (parseStr rest).map (fun p => (c :: p.1, p.2))

/-- Is `c` an ASCII digit? -/
def isDig (c : Char) : Bool := '0' ≤ c && c ≤ '9'

/-- Digit value of an ASCII digit. -/
def digVal (c : Char) : Nat := c.toNat - '0'.toNat

/-- Take a maximal run of digits. -/
def spanDigits : List Char → List Nat × List Char
  | [] => ([], [])
  | c :: rest =>
    if isDig c then
      let p := spanDigits rest
      (digVal c :: p.1, p.2)
    else ([], c :: rest)

/-- Parse the integer part of a number: `0` stops immediately (JSON
forbids leading zeros), otherwise a maximal digit run. -/
def parseIntDigits : List Char → Option (List Nat × List Char)
  | [] => none
  | c :: rest =>
    if c = '0' then some ([0], rest)
    else if isDig c then
      let p := spanDigits rest
      some (digVal c :: p.1, p.2)
    else none

/-- Parse an unsigned number body (integer part, optional fraction). -/
def parseNumBody (cs : List Char) : Option (JNum × List Char) := do
  let (ids, r) ← parseIntDigits cs
  match r with
  | '.' :: r2 =>
    match spanDigits r2 with
    | ([], _) => none
    | (fds, r3) => some (⟨false, ids, fds⟩, r3)
  | _ => some (⟨false, ids, []⟩, r)

/-- Parse a JSON number with optional leading minus. -/
def parseNumber : List Char → Option (JNum × List Char)
  | '-' :: rest => (parseNumBody rest).map (fun p => (⟨true, p.1.intDigits, p.1.fracDigits⟩, p.2))
  | cs => parseNumBody cs

mutual
/-- Parse one JSON value (leading whitespace allowed), returning it and
the remaining input.  `fuel` bounds the recursion depth; `jsonLoads`
supplies `length + 1`, which is always sufficient because every nested
call consumes at least one character first. -/
def parseVal : Nat → List Char → Option (JVal × List Char)
  | 0, _ => none
  | fuel + 1, cs =>
    match skipWs cs with
    | [] => none
    | c :: rest =>
      if c = '{' then
        match skipWs rest with
        | '}' :: r => some (.jobj .onil, r)
        | '"' :: r => do
          let (k, r1) ← parseStr r
          match skipWs r1 with
          | ':' :: r3 => do
            let (v, r4) ← parseVal fuel r3
            let (ms, r5) ← parseObjRest fuel r4
            some (.jobj (.ocons k v ms), r5)
          | _ => none
        | _ => none
      else if c = '[' then
        match skipWs rest with
        | ']' :: r => some (.jarr .anil, r)
        | other => do
          let (v, r1) ← parseVal fuel other
          let (xs, r2) ← parseArrRest fuel r1
          some (.jarr (.acons v xs), r2)
      else if c = '"' then
        (parseStr rest).map (fun p => (.jstr p.1, p.2))
      else if c = 't' then
        match rest with
        | 'r' :: 'u' :: 'e' :: r => some (.jbool true, r)
        | _ => none
      else if c = 'f' then
        match rest with
        | 'a' :: 'l' :: 's' :: 'e' :: r => some (.jbool false, r)
        | _ => none
      else if c = 'n' then
        match rest with
        | 'u' :: 'l' :: 'l' :: r => some (.jnull, r)
        | _ => none
      else
        (parseNumber (c :: rest)).map (fun p => (.jnum p.1, p.2))

/-- Parse the continuation of an object after one `key : value` pair:
either `}` or `, key : value …`. -/
def parseObjRest : Nat → List Char → Option (JObj × List Char)
  | 0, _ => none
  | fuel + 1, cs =>
    match skipWs cs with
    | '}' :: r => some (.onil, r)
    | ',' :: r =>
      match skipWs r with
      | '"' :: r1 => do
        let (k, r2) ← parseStr r1
        match skipWs r2 with
        | ':' :: r3 => do
          let (v, r4) ← parseVal fuel r3
          let (ms, r5) ← parseObjRest fuel r4
          some (.ocons k v ms, r5)
        | _ => none
      | _ => none
    | _ => none

/-- Parse the continuation of an array after one element. -/
def parseArrRest : Nat → List Char → Option (JArr × List Char)
  | 0, _ => none
  | fuel + 1, cs =>
    match skipWs cs with
    | ']' :: r => some (.anil, r)
    | ',' :: r => do
      let (v, r1) ← parseVal fuel r
      let (xs, r2) ← parseArrRest fuel r1
      some (.acons v xs, r2)
    | _ => none
end

/-- `json.loads`: parse a complete document, allowing only trailing
whitespace; `none` models a raised `json.JSONDecodeError`. -/
def jsonLoads (cs : List Char) : Option JVal :=
  match parseVal (cs.length + 1) cs with
  | some (v, rest) => if skipWs rest = [] then some v else none
  | none => none

/-! ### Serializers

`serVal true` produces a canonically escaped compact JSON document;
`serVal false` produces the same document except that raw newline, tab
and carriage-return characters inside string literals are left
unescaped — the defect class `_fix_json_escaping` exists to repair. -/

/-- ASCII digit character for a digit value. -/
def digitChar (d : Nat) : Char := Char.ofNat (48 + d)

/-- Escape one string-content character.  When `ec` is false the three
control characters newline/tab/carriage-return are emitted raw. -/
def escapeChar (ec : Bool) (c : Char) : List Char :=
  if c = '"' then ['\\', '"']
  else if c = '\\' then ['\\', '\\']
  else if c = '\n' then if ec then ['\\', 'n'] else [c]
  else if c = '\t' then if ec then ['\\', 't'] else [c]
  else if c = '\r' then if ec then ['\\', 'r'] else [c]
  else if c = '\x08' then ['\\', 'b']
  else if c = '\x0c' then ['\\', 'f']
  else [c]

/-- Serialize string content. -/
def serStrBody (ec : Bool) (s : List Char) : List Char :=
  s.flatMap (escapeChar ec)

/-- Serialize a string literal with its quotes. -/
def serStr (ec : Bool) (s : List Char) : List Char :=
  '"' :: serStrBody ec s ++ ['"']

/-- Serialize a number. -/
def serNum (n : JNum) : List Char :=
  (if n.neg then ['-'] else []) ++ n.intDigits.map digitChar ++
    (if n.fracDigits.isEmpty then [] else '.' :: n.fracDigits.map digitChar)

mutual
/-- Serialize a JSON value (compact, no inter-token whitespace). -/
def serVal (ec : Bool) : JVal → List Char
  | .jnull => ['n', 'u', 'l', 'l']
  | .jbool true => ['t', 'r', 'u', 'e']
  | .jbool false => ['f', 'a', 'l', 's', 'e']
  | .jnum n => serNum n
  | .jstr s => serStr ec s
  | .jarr xs => '[' :: serArrBody ec xs ++ [']']
  | .jobj ms => '{' :: serObjBody ec ms ++ ['}']

/-- Serialize array elements, comma separated. -/
def serArrBody (ec : Bool) : JArr → List Char
  | .anil => []
  | .acons h .anil => serVal ec h
  | .acons h (.acons h' t) => serVal ec h ++ ',' :: serArrBody ec (.acons h' t)

/-- Serialize object members, comma separated. -/
def serObjBody (ec : Bool) : JObj → List Char
  | .onil => []
  | .ocons k v .onil => serStr ec k ++ ':' :: serVal ec v
  | .ocons k v (.ocons k' v' t) =>
    serStr ec k ++ ':' :: serVal ec v ++ ',' :: serObjBody ec (.ocons k' v' t)
end

/-- Well-formedness of a number: nonempty digit lists, digits below ten,
no leading zero (unless the integer part is exactly `0`). -/
def wfNum (n : JNum) : Bool :=
  (match n.intDigits with
   | [] => false
   | d :: ds => d < 10 && (d ≠ 0 || ds.isEmpty) && ds.all (· < 10)) &&
  n.fracDigits.all (· < 10)

/-- Well-formedness of string content for the round-trip theorems: every
character is either printable (`≥ 0x20`) or one of the five control
characters that have short escapes, and the content does not end with a
backslash (a string value ending in a backslash derails the
quote-boundary heuristic of `_fix_json_escaping`, see `C8`). -/
def wfStr (s : List Char) : Bool :=
  s.all (fun c => decide (0x20 ≤ c.toNat) ||
    c = '\n' || c = '\t' || c = '\r' || c = '\x08' || c = '\x0c') &&
  s.getLast? ≠ some '\\'

mutual
/-- Well-formed documents: all numbers and strings well formed. -/
def wfVal : JVal → Bool
  | .jnull => true
  | .jbool _ => true
  | .jnum n => wfNum n
  | .jstr s => wfStr s
  | .jarr xs => wfArr xs
  | .jobj ms => wfObj ms

def wfArr : JArr → Bool
  | .anil => true
  | .acons h t => wfVal h && wfArr t

def wfObj : JObj → Bool
  | .onil => true
  | .ocons k v t => wfStr k && wfVal v && wfObj t
end

/-! ### `_clean_json_response` (veridian_ai_research_service.py lines 477-537)

The method strips whitespace, removes a leading markdown fence with an
optional `json` language tag, slices from the first `{` to the last `}`,
applies the literal `.replace` chain of lines 507-510, removes a class
of control characters, and finally checks parseability, falling back to
`_fix_json_escaping` once before giving up with a `ValueError`.

Two quirks of the source are preserved exactly:
* line 507 is `replace('"', '"')` twice with plain ASCII quotes — an
  identity, so it is omitted here;
* line 508 is `replace(''', "'").replace(''', "'")`, in which `'''`
  opens a triple-quoted string: Python parses the line as a single call
  replacing the 14-character text `, "').replace(` by `'`
  (embedded as `strayReplace`). -/

/-- Characters removed by Python `str.strip()` (the practically
occurring whitespace set). -/
def isPySpace (c : Char) : Bool :=
  c = ' ' || c = '\t' || c = '\n' || c = '\r' || c = '\x0b' || c = '\x0c'

/-- Python `str.strip()`. -/
def pyStrip (cs : List Char) : List Char :=
  ((cs.dropWhile isPySpace).reverse.dropWhile isPySpace).reverse

/-- Does the text begin with a triple-backtick fence marker? -/
def startsFence : List Char → Bool
  | '`' :: '`' :: '`' :: _ => true
  | _ => false

/-- Characters before the first triple-backtick occurrence (everything
if there is none). -/
def takeToFence : List Char → List Char
  | [] => []
  | c :: rest => if startsFence (c :: rest) then [] else c :: takeToFence rest

/-- Models `response.split('```', 2)[1]`, the `json`-tag strip and the
inner `strip()` of the fence branch (guarded by `startswith('```')`, so
the first marker is at index 0). -/
def fenceStrip (cs : List Char) : List Char :=
  let inner := takeToFence (cs.drop 3)
  let inner :=
    match inner with
    | 'j' :: 's' :: 'o' :: 'n' :: r => r
    | other => other
  pyStrip inner

/-- Python `str.find`: index of the first occurrence (`None` models
`-1`). -/
def pyFind (c : Char) : List Char → Option Nat
  | [] => none
  | x :: rest => if x = c then some 0 else (pyFind c rest).map (· + 1)

/-- Python `str.rfind`: index of the last occurrence. -/
def pyRFind (c : Char) (cs : List Char) : Option Nat :=
  (pyFind c cs.reverse).map (fun i => cs.length - 1 - i)

/-- Line 508 as Python actually parses it: `str.replace` of the
accidental 14-character pattern `, "').replace(` (the text standing
between the two `'''` tokens) by a single quote, non-overlapping and
left to right. -/
def strayReplace : List Char → List Char
  | [] => []
  | ',' :: ' ' :: '"' :: '\'' :: ')' :: '.' :: 'r' :: 'e' :: 'p' :: 'l' :: 'a' :: 'c' :: 'e' :: '(' :: rest =>
    '\'' :: strayReplace rest
  | c :: rest => c :: strayReplace rest

/-- Lines 509-510: en dash and em dash to `-`, horizontal ellipsis to
`...` (single-character patterns, so a character map suffices). -/
def normChar (c : Char) : List Char :=
  if c = '–' then ['-']
  else if c = '—' then ['-']
  else if c = '…' then ['.', '.', '.']
  else [c]

/-- The control characters removed by
`re.sub(r'[\x00-\x08\x0b-\x0c\x0e-\x1f\x7f]', '', ...)` (tab, newline
and carriage return survive). -/
def isStrippedCtl (c : Char) : Bool :=
  c.toNat ≤ 0x08 || c = '\x0b' || c = '\x0c' ||
  (0x0e ≤ c.toNat && c.toNat ≤ 0x1f) || c.toNat = 0x7f

/-- The character scan of `_fix_json_escaping` (lines 539-604).  `prev`
is `json_str[i-1]` (`none` at the start); `inStr` is the `in_string`
flag.  String boundaries toggle on a quote not preceded by a backslash;
inside strings, valid escapes pass through, `\'` loses its backslash,
raw newline/tab/carriage-return are escaped, and any other backslash is
doubled while only advancing one position. -/
def fixGo (prev : Option Char) (inStr : Bool) : List Char → List Char
  | [] => []
  | c :: rest =>
    if c = '"' ∧ prev ≠ some '\\' then
      c :: fixGo (some c) (!inStr) rest
    else if inStr then
      if c = '\\' then
        match rest with
        | [] => c :: fixGo (some c) inStr []
        | n :: rest2 =>
          if n = '"' || n = '\\' || n = '/' || n = 'b' || n = 'f' ||
             n = 'n' || n = 'r' || n = 't' || n = 'u' then
            c :: n :: fixGo (some n) inStr rest2
          else if n = '\'' then
            '\'' :: fixGo (some n) inStr rest2
          else
            -- the invalid-escape branch emits `\\` and advances one
            -- position only; the next iteration therefore examines `n`
            -- with `prev = '\\'`.  That iteration is inlined here so the
            -- recursion stays structural: `n` cannot be `"` or `\`
            -- (both are valid escapes, excluded above), so only the
            -- newline/tab/carriage-return and default branches remain.
            if n = '\n' then '\\' :: '\\' :: '\\' :: 'n' :: fixGo (some n) inStr rest2
            else if n = '\r' then '\\' :: '\\' :: '\\' :: 'r' :: fixGo (some n) inStr rest2
            else if n = '\t' then '\\' :: '\\' :: '\\' :: 't' :: fixGo (some n) inStr rest2
            else '\\' :: '\\' :: n :: fixGo (some n) inStr rest2
      else if c = '\n' then '\\' :: 'n' :: fixGo (some c) inStr rest
      else if c = '\r' then '\\' :: 'r' :: fixGo (some c) inStr rest
      else if c = '\t' then '\\' :: 't' :: fixGo (some c) inStr rest
      else c :: fixGo (some c) inStr rest
    else c :: fixGo (some c) inStr rest

/-- `_fix_json_escaping`: a pure, total scan. -/
def fix_json_escaping (cs : List Char) : List Char :=
  fixGo none false cs

/-- `_clean_json_response`.  Error values model the raised
`ValueError`s (the final message abstracts the interpolated decoder
position). -/
def clean_json_response (response : List Char) : Except PyErr (List Char) :=
  let r := pyStrip response
  let r := if startsFence r then fenceStrip r else r
  match pyFind '{' r, pyRFind '}' r with
  | some s, some e =>
    let js := (r.drop s).take (e + 1 - s)
    let js := strayReplace js
    let js := js.flatMap normChar
    let js := js.filter (fun c => !isStrippedCtl c)
    match jsonLoads js with
    | some _ => .ok js
    | none =>
      let fixed := fix_json_escaping js
      match jsonLoads fixed with
      | some _ => .ok fixed
      | none => .error (.valueError "Could not parse JSON")
  | _, _ => .error (.valueError "No valid JSON object found in response")

/-! ### Tier validators (lines 384-462) -/

/-- Python dict lookup for the dict produced by `json.loads`: the last
occurrence of a duplicated key wins (the payloads in this development
have no duplicate keys). -/
def olookup (k : List Char) : JObj → Option JVal
  | .onil => none
  | .ocons k' v t =>
    match olookup k t with
    | some r => some r
    | none => if k' = k then some v else none

/-- `key in data`. -/
def hasKey (k : List Char) (ms : JObj) : Bool :=
  (olookup k ms).isSome

/-- `data[key] = value` for a key already present: replaces the stored
value in place. -/
def oupdate (k : List Char) (nv : JVal) : JObj → JObj
  | .onil => .onil
  | .ocons k' v t => .ocons k' (if k' = k then nv else v) (oupdate k nv t)

/-- `data[name]` for a field the validator guarantees present. -/
def getf (name : String) (data : JObj) : JVal :=
  (olookup name.data data).getD .jnull

/-- Numeric view of a decoded value, mirroring which Python values the
comparison `0 <= v <= 4` accepts: `int`/`float` and — because `bool` is
a subclass of `int` — booleans (as 0/1).  `none` means the comparison
raises `TypeError`. -/
def pyNumVal : JVal → Option ℚ
  | .jnum n => some n.toRat
  | .jbool b => some (if b then 1 else 0)
  | _ => none

/-- Rendering used in the f-string error messages.  Python's `str()` of
a decoded number normalizes the float representation; containers are
abstracted (no claim depends on their rendering). -/
def pyShow : JVal → String
  | .jnull => "None"
  | .jbool true => "True"
  | .jbool false => "False"
  | .jnum n => String.mk (serNum n)
  | .jstr s => String.mk s
  | .jarr _ => "<list>"
  | .jobj _ => "<dict>"

/-- The chained comparison `lo <= data[f] <= hi` followed by the raise:
non-numbers raise `TypeError`, out-of-range numbers raise the
`ValueError` of the source. -/
def rangeCheck (fieldName : String) (lo hi : ℚ) (rangeStr : String) (v : JVal) :
    Except PyErr Unit :=
  match pyNumVal v with
  | none => .error (.typeError "'<=' not supported between instances")
  | some q =>
    if lo ≤ q ∧ q ≤ hi then .ok ()
    else .error (.valueError (fieldName ++ " must be " ++ rangeStr ++ ", got " ++ pyShow v))

/-- First required field absent from the payload, in source order. -/
def firstMissing (fields : List String) (data : JObj) : Option String :=
  fields.find? (fun f => !hasKey f.data data)

/-- Required fields of `_validate_question_response`. -/
def questionRequired : List String :=
  ["ai_score", "ai_progress", "confidence_level", "evidence_summary",
   "data_sources_count", "source_type", "source_name", "source_url",
   "source_data_year", "source_trust_level", "source_data_extract"]

/-- Is the value one of the accepted confidence strings? -/
def confidenceOk (v : JVal) : Bool :=
  match v with
  | .jstr s => s = "High".data || s = "Medium".data || s = "Low".data
  | _ => false

/-- `_validate_question_response` (lines 384-411): presence of all
required fields, ranges for `ai_score`/`ai_progress`/`source_trust_level`,
then coercion of an unrecognized `confidence_level` to `"Medium"`. -/
def validate_question_response (data : JObj) : Except PyErr JObj := do
  match firstMissing questionRequired data with
  | some f => .error (.valueError ("Missing required field: " ++ f))
  | none =>
    rangeCheck "ai_score" 0 4 "0-4" (getf "ai_score" data)
    rangeCheck "ai_progress" 0 100 "0-100" (getf "ai_progress" data)
    rangeCheck "source_trust_level" 1 7 "1-7" (getf "source_trust_level" data)
    if confidenceOk (getf "confidence_level" data) then
      .ok data
    else
      .ok (oupdate "confidence_level".data (.jstr "Medium".data) data)

/-- Required fields of `_validate_pillar_response`. -/
def pillarRequired : List String :=
  ["ai_score", "ai_progress", "confidence_level", "evidence_summary", "sources"]

/-- The placeholder substituted for a missing/empty/non-list `sources`
array (lines 434-441); `nowYear` is `datetime.now().year`, passed
explicitly because the embedding is pure. -/
def placeholderSources (nowYear : JNum) : JVal :=
  .jarr (.acons (.jobj
    (.ocons "source_type".data (.jstr "Unknown".data)
    (.ocons "source_name".data (.jstr "Data not available".data)
    (.ocons "source_url".data (.jstr "Not available".data)
    (.ocons "data_year".data (.jnum nowYear)
    (.ocons "trust_level".data (.jnum ⟨false, [1], []⟩)
    (.ocons "data_extract".data (.jstr "Insufficient data available".data)
      .onil))))))) .anil)

/-- Is the value a Python list with at least one element?  (The
`isinstance(..., list) and len(...) >= 1` test of line 432.) -/
def nonEmptyList (v : JVal) : Bool :=
  match v with
  | .jarr (.acons _ _) => true
  | _ => false

/-- `_validate_pillar_response` (lines 413-443): presence, ranges for
`ai_score`/`ai_progress` only, and the `sources` placeholder.  Note: the
entries inside `sources` are not validated — in particular their
`trust_level` values are not range-checked — and `confidence_level` is
not coerced at this tier. -/
def validate_pillar_response (nowYear : JNum) (data : JObj) : Except PyErr JObj := do
  match firstMissing pillarRequired data with
  | some f => .error (.valueError ("Missing required field: " ++ f))
  | none =>
    rangeCheck "ai_score" 0 4 "0-4" (getf "ai_score" data)
    rangeCheck "ai_progress" 0 100 "0-100" (getf "ai_progress" data)
    if nonEmptyList (getf "sources" data) then
      .ok data
    else
      .ok (oupdate "sources".data (placeholderSources nowYear) data)

/-- Required fields of `_validate_city_response`. -/
def cityRequired : List String :=
  ["ai_score", "ai_progress", "confidence_level", "evidence_summary"]

/-- `_validate_city_response` (lines 445-462): presence and the two
range checks; no confidence coercion and no trust-level check exist at
this tier. -/
def validate_city_response (data : JObj) : Except PyErr JObj := do
  match firstMissing cityRequired data with
  | some f => .error (.valueError ("Missing required field: " ++ f))
  | none =>
    rangeCheck "ai_score" 0 4 "0-4" (getf "ai_score" data)
    rangeCheck "ai_progress" 0 100 "0-100" (getf "ai_progress" data)
    .ok data

/-- `_calculate_discrepancy` (lines 466-475). -/
def calculate_discrepancy (ai_progress : ℚ) (evaluator_score : Option ℚ) : ℚ :=
  match evaluator_score with
  | some s => qabs (qsub ai_progress s)
  | none => ai_progress

/-! ### The retry controller

All three `research_and_score_*` methods contain the identical loop
(lines 97-152, 230-277 and 332-377):

    for attempt in range(self.max_retries):
        try:
            ... invoke engine, clean, json.loads, validate, return ...
        except (json.JSONDecodeError, ValueError) as e:
            if attempt < self.max_retries - 1:
                await asyncio.sleep(self.retry_delay)
                continue
            else:
                raise

with `max_retries = 3` and `retry_delay = 1`.  `step n` is the body of
one iteration (engine invocation plus extraction/parsing/validation);
exceptions other than `json.JSONDecodeError`/`ValueError` are not
caught by the `except` clause and abort the loop at once. -/

/-- Observable outcome of the loop: the result (or the propagated
exception), how many times the engine was invoked, and how many
one-second `asyncio.sleep(self.retry_delay)` delays happened. -/
structure RetryTrace (α : Type) where
  result : Except PyErr α
  invocations : Nat
  delays : Nat
deriving Repr

/-- The loop from iteration `attempt` with `remaining` iterations still
available (`remaining = max_retries - attempt`); `attempt < max_retries - 1`
is exactly `remaining > 1`.  The zero case is unreachable for
`max_retries = 3` (Python would fall off the loop returning `None`). -/
def runRetryLoop (step : Nat → Except PyErr α) : Nat → Nat → RetryTrace α
  | _, 0 => ⟨.error (.valueError "retry loop made no attempts"), 0, 0⟩
  | attempt, remaining + 1 =>
    match step attempt with
    | .ok a => ⟨.ok a, 1, 0⟩
    | .error e =>
      if e.retryable ∧ remaining > 0 then
        let t := runRetryLoop step (attempt + 1) remaining
        ⟨t.result, t.invocations + 1, t.delays + 1⟩
      else ⟨.error e, 1, 0⟩

/-- `runWithRetries`: the loop with `self.max_retries = 3`. -/
def runWithRetries (step : Nat → Except PyErr α) : RetryTrace α :=
  runRetryLoop step 0 3

/-- One Question-tier attempt: invoke the chain, clean, `json.loads`,
validate.  `engine n` is the raw text returned by `chain.ainvoke` on
the `n`-th invocation (or the transport exception it raises).  The two
fall-through parse cases are unreachable because `clean_json_response`
only returns text it has parsed, and that text starts with `{`. -/
def questionAttempt (engine : Nat → Except PyErr (List Char)) (n : Nat) :
    Except PyErr JObj := do
  let raw ← engine n
  let cleaned ← clean_json_response raw
  match jsonLoads cleaned with
  | some (.jobj ms) => validate_question_response ms
  | some _ => .error (.typeError "decoded value is not an object")
  | none => .error (.jsonDecodeError "Expecting value")

/-- One Pillar-tier attempt. -/
def pillarAttempt (nowYear : JNum) (engine : Nat → Except PyErr (List Char)) (n : Nat) :
    Except PyErr JObj := do
  let raw ← engine n
  let cleaned ← clean_json_response raw
  match jsonLoads cleaned with
  | some (.jobj ms) => validate_pillar_response nowYear ms
  | some _ => .error (.typeError "decoded value is not an object")
  | none => .error (.jsonDecodeError "Expecting value")

/-- One City-tier attempt. -/
def cityAttempt (engine : Nat → Except PyErr (List Char)) (n : Nat) :
    Except PyErr JObj := do
  let raw ← engine n
  let cleaned ← clean_json_response raw
  match jsonLoads cleaned with
  | some (.jobj ms) => validate_city_response ms
  | some _ => .error (.typeError "decoded value is not an object")
  | none => .error (.jsonDecodeError "Expecting value")

/-! ### Prompt orchestrators (lines 52-380)

Each orchestrator runs the retry loop and either shapes the validated
analysis into a success record or — because the whole body sits in
`try: ... except Exception as e: return {"success": False, ...}` —
converts any exception into a failure value.  Python dictionaries with
`"success": True/False` become the inductives below.  Numeric values
computed by the orchestrator itself (discrepancies) are rationals;
values copied verbatim from the payload stay `JVal`. -/

/-- The success dictionary of `research_and_score_question`
(lines 126-144). -/
structure QuestionSuccess where
  question : String
  year : Int
  ai_score : JVal
  ai_progress : JVal
  discrepancy : ℚ
  confidence_level : JVal
  data_sources_count : JVal
  evidence_summary : JVal
  red_flag : JVal
  geographic_equity_note : JVal
  source_type : JVal
  source_name : JVal
  source_url : JVal
  source_data_year : JVal
  source_data_extract : JVal
  source_trust_level : JVal

/-- Return value of `research_and_score_question`: `{"success": True, ...}`
or `{"success": False, "error": str(e)}`. -/
inductive QuestionRun where
  | success (r : QuestionSuccess)
  | failure (error : String)

/-- `research_and_score_question` (lines 52-159).  `year` is the
resolved assessment year (the `datetime.now().year` default applied
when the caller passes `None`). -/
def research_and_score_question (engine : Nat → Except PyErr (List Char))
    (question_text : String) (scoreProgress evaluator_score : Option ℚ)
    (year : Int) : QuestionRun :=
  match (runWithRetries (questionAttempt engine)).result with
  | .error e => .failure e.msg
  | .ok analysis =>
    match pyNumVal (getf "ai_progress" analysis) with
    | none => .failure "bad operand type for abs()"
    | some ap =>
      let discrepancy : ℚ :=
        match evaluator_score with
        | some es => qabs (qsub ap (qmul (qdiv es 4) 100))
        | none => ap
      .success {
        question := question_text
        year := year
        ai_score := getf "ai_score" analysis
        ai_progress := getf "ai_progress" analysis
        discrepancy := discrepancy
        confidence_level := getf "confidence_level" analysis
        data_sources_count := getf "data_sources_count" analysis
        evidence_summary := getf "evidence_summary" analysis
        red_flag := (olookup "red_flag".data analysis).getD (.jstr [])
        geographic_equity_note := (olookup "geographic_equity_note".data analysis).getD (.jstr [])
        source_type := getf "source_type" analysis
        source_name := getf "source_name" analysis
        source_url := getf "source_url" analysis
        source_data_year := getf "source_data_year" analysis
        source_data_extract := getf "source_data_extract" analysis
        source_trust_level := getf "source_trust_level" analysis }

/-- The success dictionary of `research_and_score_pillar`
(lines 253-269); the `timestamp` field is omitted (wall-clock string,
never persisted). -/
structure PillarSuccess where
  pillar : String
  pillar_id : Int
  ai_score : JVal
  ai_progress : JVal
  discrepancy : ℚ
  confidence_level : JVal
  evidence_summary : JVal
  sources : JVal
  red_flag : JVal
  geographic_equity_note : JVal
  institutional_assessment : JVal
  data_gap_analysis : JVal
  year : Int

/-- Return value of `research_and_score_pillar`. -/
inductive PillarRun where
  | success (r : PillarSuccess)
  | failure (error : String) (pillar : String)

/-- `research_and_score_pillar` (lines 161-284). -/
def research_and_score_pillar (engine : Nat → Except PyErr (List Char))
    (nowYear : JNum) (pillarId : Int) (pillar_name : String)
    (evaluator_score : Option ℚ) (year : Int) : PillarRun :=
  match (runWithRetries (pillarAttempt nowYear engine)).result with
  | .error e => .failure e.msg pillar_name
  | .ok analysis =>
    match pyNumVal (getf "ai_progress" analysis) with
    | none => .failure "bad operand type for abs()" pillar_name
    | some ap =>
      .success {
        pillar := pillar_name
        pillar_id := pillarId
        ai_score := getf "ai_score" analysis
        ai_progress := getf "ai_progress" analysis
        discrepancy := calculate_discrepancy ap evaluator_score
        confidence_level := getf "confidence_level" analysis
        evidence_summary := getf "evidence_summary" analysis
        sources := (olookup "sources".data analysis).getD (.jarr .anil)
        red_flag := (olookup "red_flag".data analysis).getD (.jstr [])
        geographic_equity_note := (olookup "geographic_equity_note".data analysis).getD (.jstr [])
        institutional_assessment := (olookup "institutional_assessment".data analysis).getD (.jstr [])
        data_gap_analysis := (olookup "data_gap_analysis".data analysis).getD (.jstr [])
        year := year }

/-- The success dictionary of `research_and_score_city`
(lines 354-370). -/
structure CitySuccess where
  city : String
  ai_score : JVal
  ai_progress : JVal
  discrepancy : ℚ
  confidence_level : JVal
  evidence_summary : JVal
  source : JVal
  cross_pillar_patterns : JVal
  institutional_capacity : JVal
  equity_assessment : JVal
  sustainability_outlook : JVal
  strategic_recommendation : JVal
  data_transparency_note : JVal
  year : Int

/-- Return value of `research_and_score_city`. -/
inductive CityRun where
  | success (r : CitySuccess)
  | failure (error : String)

/-- `research_and_score_city` (lines 286-380).  `analysis['source']` is
indexed directly although the City validator does not require it, so a
payload without it makes the shaping raise `KeyError`, which the outer
handler converts into a failure. -/
def research_and_score_city (engine : Nat → Except PyErr (List Char))
    (city_name : String) (evaluator_score : Option ℚ) (year : Int) : CityRun :=
  match (runWithRetries (cityAttempt engine)).result with
  | .error e => .failure e.msg
  | .ok analysis =>
    match pyNumVal (getf "ai_progress" analysis) with
    | none => .failure "bad operand type for abs()"
    | some ap =>
      match olookup "source".data analysis with
      | none => .failure "'source'"
      | some src =>
        .success {
          city := city_name
          ai_score := getf "ai_score" analysis
          ai_progress := getf "ai_progress" analysis
          discrepancy := calculate_discrepancy ap evaluator_score
          confidence_level := getf "confidence_level" analysis
          evidence_summary := getf "evidence_summary" analysis
          source := src
          cross_pillar_patterns := (olookup "cross_pillar_patterns".data analysis).getD (.jstr [])
          institutional_capacity := (olookup "institutional_capacity".data analysis).getD (.jstr [])
          equity_assessment := (olookup "equity_assessment".data analysis).getD (.jstr [])
          sustainability_outlook := (olookup "sustainability_outlook".data analysis).getD (.jstr [])
          strategic_recommendation := (olookup "strategic_recommendation".data analysis).getD (.jstr [])
          data_transparency_note := (olookup "data_transparency_note".data analysis).getD (.jstr [])
          year := year }

/-! ### Numeric sanitizers of `ScoreAnalyzerService` (lines 21-80) -/

/-- Python `round` to the nearest integer, ties to even. -/
def roundHalfEven (q : ℚ) : ℤ :=
  let f := qfloor q
  let r := qsub q (qofInt f)
  if r < mkRat 1 2 then f
  else if mkRat 1 2 < r then f + 1
  else if f % 2 = 0 then f else f + 1

/-- Python `round(x, 2)` on the exact rational carried by the embedding
(the binary-float artifacts of CPython's rounding are not modelled; the
values in this development are exact at two decimals). -/
def pyRound2 (q : ℚ) : ℚ :=
  mkRat (roundHalfEven (qmul q 100)) 100

/-- Python `int(float)` truncation toward zero. -/
def truncToInt (q : ℚ) : ℤ :=
  if 0 ≤ q then qfloor q else -(qfloor (qneg q))

/-- The null-like strings recognized by both sanitizers (after
`strip().lower()`). -/
def nullLike : List String :=
  ["", "null", "none", "nan", "inf", "-inf", "infinity", "-infinity"]

/-- Python `float(s)` on a plain decimal string (optional sign, digits,
optional fraction); exponent forms are not modelled — the pipeline never
produces them.  `none` models the raised `ValueError`. -/
def parseFloatStr (cs : List Char) : Option ℚ :=
  let body := fun (ds : List Char) =>
    let p := spanDigits ds
    match p.2 with
    | '.' :: r2 =>
      let p2 := spanDigits r2
      if p2.2 = [] ∧ (p.1 ≠ [] ∨ p2.1 ≠ []) then
        some (mkRat ((digitsVal p.1 * 10 ^ p2.1.length + digitsVal p2.1 : ℕ) : ℤ)
          (10 ^ p2.1.length))
      else none
    | [] => if p.1 ≠ [] then some ((digitsVal p.1 : ℕ) : ℚ) else none
    | _ => none
  match cs with
  | '-' :: rest => (body rest).map (fun q => qneg q)
  | '+' :: rest => body rest
  | _ => body cs

/-- String branch shared by the two sanitizers: strip, lower-case,
null-like check, comma removal, parse. -/
def sanitizeStr (s : List Char) : Option ℚ :=
  let t := (pyStrip s).map Char.toLower
  if nullLike.any (fun n => n.data = t) then some 0
  else parseFloatStr (t.filter (· ≠ ','))

/-- `to_float_safe` (lines 21-52).  A decoded `int` passes through
`float(value)` unrounded; a decoded `float` is rounded to two places;
`bool` is an `int` in Python; `NaN`/`inf` cannot arise from the decimal
numbers of this embedding. -/
def to_float_safe (v : JVal) : ℚ :=
  match v with
  | .jnull => 0
  | .jnum n => if n.fracDigits.isEmpty then n.toRat else pyRound2 n.toRat
  | .jbool b => if b then 1 else 0
  | .jstr s =>
    match sanitizeStr s with
    | some q => pyRound2 q
    | none => 0
  | _ => 0

/-- `to_float_safe` applied to a value the orchestrator computed itself
(a Python float): the rounding branch. -/
def to_float_safe_rat (q : ℚ) : ℚ := pyRound2 q

/-- `to_int_safe` (lines 54-80). -/
def to_int_safe (v : JVal) : ℤ :=
  match v with
  | .jnull => 0
  | .jnum n => if n.fracDigits.isEmpty then truncToInt n.toRat else truncToInt n.toRat
  | .jbool b => if b then 1 else 0
  | .jstr s =>
    match sanitizeStr s with
    | some q => truncToInt q
    | none => 0
  | _ => 0

/-! ### The relational-store boundary

The spec (§1, §6) declares the Relational Store an external collaborator
with a `bulkUpsert(entityKind, rows[])` interface.  The embedding keeps
the *call site* concrete: a `Store` carries the set of attribute names
defined on the service object, and calling an undefined name raises
`AttributeError`, exactly as `db_service.bulk_upsert_…(…)` does in
Python. -/

/-- A store object: the method names its class defines. -/
structure Store where
  methods : List String

/-- Attribute lookup followed by the call: a missing method raises
`AttributeError` before anything reaches the database. -/
def Store.call (st : Store) (name : String) : Except PyErr Unit :=
  if name ∈ st.methods then .ok ()
  else .error (.attributeError
    ("'DatabaseService' object has no attribute '" ++ name ++ "'"))

/-- The methods actually defined by `DatabaseService`
(`app/services/common/database_service.py`, lines 16-390). -/
def databaseServiceMethods : List String :=
  ["__init__", "_build_connection_string", "get_connection", "execute_query",
   "execute_query_df", "get_schema_info", "get_sample_data", "test_connection",
   "read_table_data", "read_with_query", "get_table_schema", "get_row_count",
   "read_data_in_chunks", "get_view_data"]

/-- The in-repo `db_service` singleton. -/
def dbStore : Store := ⟨databaseServiceMethods⟩

/-- Modelled from the spec: the Relational Store boundary of §6
(`bulkUpsert(entityKind, rows[])`), which is declared out of scope and
is missing from `DatabaseService` — a store on which the three bulk
upsert methods exist and succeed. -/
def specStore : Store :=
  ⟨databaseServiceMethods ++
    ["bulk_upsert_question_evaluations", "bulk_upsert_pillar_evaluations",
     "bulk_upsert_city_evaluations"]⟩

/-! ### Batch runner (`score_analyzer_service.py`) -/

/-- A row of `vw_CityPillarQuestionEvaluations`.  `NormalizedValue` is
`none` for SQL `NULL` or pandas `NaN` (the code collapses both to 0). -/
structure QuestionRow where
  CityID : Int
  PillarID : Int
  QuestionID : Int
  PillarName : String
  QuestionText : String
  NormalizedValue : Option ℚ
  ScoreProgress : Option ℚ
deriving DecidableEq

/-- A persisted Question-tier evaluation record (lines 253-273). -/
structure QuestionEvalRecord where
  CityID : Int
  PillarID : Int
  QuestionID : Int
  Year : ℤ
  AIScore : ℚ
  AIProgress : ℚ
  EvaluatorProgress : ℚ
  Discrepancy : ℚ
  ConfidenceLevel : JVal
  DataSourcesUsed : ℤ
  EvidenceSummary : JVal
  RedFlags : JVal
  GeographicEquityNote : JVal
  SourceType : JVal
  SourceName : JVal
  SourceURL : JVal
  SourceDataYear : ℤ
  SourceDataExtract : JVal
  SourceTrustLevel : ℤ

/-- Per-question body of `analyze_PillarQuestions` (lines 234-288):
resolve the NULL/NaN evaluator value, call the Question orchestrator
with `round(normalizedValue * 4.0)` as evaluator score, and shape a
record on success; a failed orchestrator run is logged and skipped.
The surrounding `try/except` catches nothing further because the
orchestrator never raises and every shaped field is
validator-guaranteed. -/
def processQuestionRow (engineOf : QuestionRow → Nat → Except PyErr (List Char))
    (nowYear : Int) (row : QuestionRow) : Option QuestionEvalRecord :=
  let normalizedValue : ℚ := (row.NormalizedValue).getD 0
  match research_and_score_question (engineOf row) row.QuestionText
      row.ScoreProgress (some (qofInt (roundHalfEven (qmul normalizedValue 4)))) nowYear with
  | .failure _ => none
  | .success r =>
    some {
      CityID := row.CityID
      PillarID := row.PillarID
      QuestionID := row.QuestionID
      Year := r.year
      AIScore := to_float_safe r.ai_score
      AIProgress := to_float_safe r.ai_progress
      EvaluatorProgress := to_float_safe_rat (qmul normalizedValue 100)
      Discrepancy := to_float_safe_rat r.discrepancy
      ConfidenceLevel := r.confidence_level
      DataSourcesUsed := to_int_safe r.data_sources_count
      EvidenceSummary := r.evidence_summary
      RedFlags := r.red_flag
      GeographicEquityNote := r.geographic_equity_note
      SourceType := r.source_type
      SourceName := r.source_name
      SourceURL := r.source_url
      SourceDataYear := to_int_safe r.source_data_year
      SourceDataExtract := r.source_data_extract
      SourceTrustLevel := to_int_safe r.source_trust_level }

/-- First-occurrence deduplication, as
`df["PillarID"].unique().tolist()`. -/
def uniqueAux (seen : List Int) : List Int → List Int
  | [] => []
  | x :: rest =>
    if x ∈ seen then uniqueAux seen rest
    else x :: uniqueAux (x :: seen) rest

/-- First-occurrence deduplication (see `uniqueAux`). -/
def uniqueInts (l : List Int) : List Int :=
  uniqueAux [] l

/-- Trace of one batch-runner invocation with record type `ρ`:
the arguments of every store call attempted, the arguments of the calls
that succeeded, the `db_logger_service` messages, and the return value
(`error` models an exception escaping the method). -/
structure BatchTrace (ρ : Type) where
  flushes : List ρ
  persisted : List ρ
  logs : List String
  result : Except PyErr Bool
deriving Repr

/-- The per-pillar body of `analyze_PillarQuestions`: build the
pillar's `questionList`, and — if it is nonempty — make the
`bulk_upsert_question_evaluations` call inside the per-pillar `try`
(whose `except` logs and continues).  The accumulator triples are
(flush arguments, persisted arguments, logs). -/
def questionPillarStep (st : Store)
    (engineOf : QuestionRow → Nat → Except PyErr (List Char))
    (nowYear : Int) (rows : List QuestionRow)
    (acc : List (List QuestionEvalRecord) × List (List QuestionEvalRecord) × List String)
    (pid : Int) :
    List (List QuestionEvalRecord) × List (List QuestionEvalRecord) × List String :=
  let pillarRows := rows.filter (·.PillarID = pid)
  let questionList := pillarRows.filterMap (processQuestionRow engineOf nowYear)
  if questionList.isEmpty then acc
  else
    match st.call "bulk_upsert_question_evaluations" with
    | .ok _ => (acc.1 ++ [questionList], acc.2.1 ++ [questionList], acc.2.2)
    | .error e =>
      (acc.1 ++ [questionList], acc.2.1,
       acc.2.2 ++ ["Error analyzing pillar: " ++ e.msg])

/-- `analyze_PillarQuestions` (lines 208-310).  Rows are grouped by
`PillarID`; each pillar accumulates its successful records in a fresh
`questionList` and flushes it — if nonempty — through one
`bulk_upsert_question_evaluations` call inside the per-pillar `try`,
whose `except` logs and continues with the next pillar. -/
def analyze_PillarQuestions (st : Store)
    (engineOf : QuestionRow → Nat → Except PyErr (List Char))
    (nowYear : Int) (rows : List QuestionRow) : BatchTrace (List QuestionEvalRecord) :=
  if rows.isEmpty then
    ⟨[], [], ["No pillar questions found"], .ok false⟩
  else
    let pids := uniqueInts (rows.map (·.PillarID))
    let final := pids.foldl (questionPillarStep st engineOf nowYear rows) ([], [], [])
    ⟨final.1, final.2.1, final.2.2, .ok true⟩

/-- A row of `vw_AiCityPillarEvaluation`. -/
structure PillarRow where
  CityID : Int
  PillarID : Int
  PillarName : String
  QuestionWithScores : String
  EvaluatorProgress : Option ℚ
  AIScore : Option ℚ
deriving DecidableEq

/-- A persisted Pillar-tier evaluation record (lines 361-375). -/
structure PillarEvalRecord where
  CityID : Int
  PillarID : Int
  Year : ℤ
  AIScore : ℚ
  AIProgress : ℚ
  EvaluatorProgress : ℚ
  Discrepancy : ℚ
  ConfidenceLevel : JVal
  EvidenceSummary : JVal
  RedFlags : JVal
  GeographicEquityNote : JVal
  InstitutionalAssessment : JVal
  DataGapAnalysis : JVal

/-- A flattened source-citation record (lines 349-359). -/
structure PillarSourceRecord where
  CityID : Int
  DataYear : ℤ
  PillarID : Int
  SourceType : JVal
  SourceName : JVal
  SourceURL : JVal
  DataExtract : JVal
  TrustLevel : ℤ

/-- Shape one entry of `ai_data["sources"]` (lines 348-359): a non-dict
entry raises `TypeError`, a dict without one of the indexed keys raises
`KeyError`; both escape to the per-row handler. -/
def shapeSource (row : PillarRow) (year : ℤ) (src : JVal) :
    Except PyErr PillarSourceRecord :=
  match src with
  | .jobj ms =>
    match olookup "source_type".data ms, olookup "source_name".data ms,
          olookup "source_url".data ms, olookup "data_extract".data ms,
          olookup "trust_level".data ms with
    | some ty, some nm, some url, some ex, some tl =>
      .ok { CityID := row.CityID, DataYear := year, PillarID := row.PillarID,
            SourceType := ty, SourceName := nm, SourceURL := url,
            DataExtract := ex, TrustLevel := to_int_safe tl }
    | _, _, _, _, _ => .error (.keyError "missing source key")
  | _ => .error (.typeError "string indices must be integers")

/-- Shape the sources of a pillar run left to right, keeping the records
appended before a failing entry (the Python loop mutates the shared
`pillarSourceList`, so a mid-loop exception leaves the earlier entries
behind). -/
def shapeSources (row : PillarRow) (year : ℤ) :
    List JVal → List PillarSourceRecord × Option PyErr
  | [] => ([], none)
  | src :: rest =>
    match shapeSource row year src with
    | .error e => ([], some e)
    | .ok r =>
      let p := shapeSources row year rest
      (r :: p.1, p.2)

/-- Per-row body of `analyze_cityPillar` (lines 334-390): run the Pillar
orchestrator, flatten its sources, shape the pillar record.  Returns the
source records that were appended plus the pillar record if everything
succeeded; `none` for a logged-and-skipped failure. -/
def processPillarRow (engineOf : PillarRow → Nat → Except PyErr (List Char))
    (nowYear : JNum) (yearParam : Int) (row : PillarRow) :
    List PillarSourceRecord × Option PillarEvalRecord :=
  match research_and_score_pillar (engineOf row) nowYear row.PillarID
      row.PillarName row.EvaluatorProgress yearParam with
  | .failure _ _ => ([], none)
  | .success r =>
    let year := (r.year : ℤ)
    let p := shapeSources row year (match r.sources with
      | .jarr xs => xs.toList
      | _ => [])
    match p.2 with
    | some _ => (p.1, none)
    | none =>
      (p.1, some {
        CityID := row.CityID
        PillarID := row.PillarID
        Year := year
        AIScore := to_float_safe r.ai_score
        AIProgress := to_float_safe r.ai_progress
        EvaluatorProgress := (match row.EvaluatorProgress with
          | some q => to_float_safe_rat q
          | none => 0)
        Discrepancy := to_float_safe_rat r.discrepancy
        ConfidenceLevel := r.confidence_level
        EvidenceSummary := r.evidence_summary
        RedFlags := r.red_flag
        GeographicEquityNote := r.geographic_equity_note
        InstitutionalAssessment := r.institutional_assessment
        DataGapAnalysis := r.data_gap_analysis })

/-- The per-row body of `analyze_cityPillar`: accumulate the pillar
record and the flattened source records of one row, logging and
skipping failures.  The accumulator is (pillarList, pillarSourceList,
logs). -/
def pillarRowStep (engineOf : PillarRow → Nat → Except PyErr (List Char))
    (nowYear : JNum) (yearParam : Int)
    (acc : List PillarEvalRecord × List PillarSourceRecord × List String)
    (row : PillarRow) :
    List PillarEvalRecord × List PillarSourceRecord × List String :=
  let p := processPillarRow engineOf nowYear yearParam row
  match p.2 with
  | some rec => (acc.1 ++ [rec], acc.2.1 ++ p.1, acc.2.2)
  | none => (acc.1, acc.2.1 ++ p.1,
      acc.2.2 ++ ["AI analysis failed or errored for a pillar"])

/-- Trace of `analyze_cityPillar`: both parallel buffers, the single
flush (attempted/persisted), logs and the result (`error` models the
`raise` of the outer handler). -/
structure CityPillarTrace where
  pillarList : List PillarEvalRecord
  pillarSourceList : List PillarSourceRecord
  flushes : List (List PillarEvalRecord × List PillarSourceRecord)
  persisted : List (List PillarEvalRecord × List PillarSourceRecord)
  logs : List String
  result : Except PyErr Bool

/-- `analyze_cityPillar` (lines 312-404).  Every row is processed inside
its own `try` (a failure is logged and skipped); the two buffers are
flushed together by one `bulk_upsert_pillar_evaluations` call *outside*
the per-row `try`; an exception there is logged by the outer handler and
re-raised. -/
def analyze_cityPillar (st : Store)
    (engineOf : PillarRow → Nat → Except PyErr (List Char))
    (nowYear : JNum) (yearParam : Int) (rows : List PillarRow) : CityPillarTrace :=
  if rows.isEmpty then
    ⟨[], [], [], [], ["No pillar evaluations found"], .ok false⟩
  else
    let final := rows.foldl (pillarRowStep engineOf nowYear yearParam) ([], [], [])
    let pillarList := final.1
    let pillarSourceList := final.2.1
    let logs := final.2.2
    if pillarList.isEmpty then
      ⟨pillarList, pillarSourceList, [], [], logs, .ok false⟩
    else
      match st.call "bulk_upsert_pillar_evaluations" with
      | .ok _ =>
        ⟨pillarList, pillarSourceList, [(pillarList, pillarSourceList)],
         [(pillarList, pillarSourceList)], logs, .ok true⟩
      | .error e =>
        ⟨pillarList, pillarSourceList, [(pillarList, pillarSourceList)], [],
         logs ++ ["Error in analyze_cityPillar: " ++ e.msg], .error e⟩

/-- A row of `vw_CityEvaluations`. -/
structure CityRow where
  CityID : Int
  EvaluatorProgress : Option ℚ
  AIScore : Option ℚ
  PillarWithScores : String
deriving DecidableEq

/-- A persisted City-tier evaluation record (lines 438-453). -/
structure CityEvalRecord where
  CityID : Int
  Year : ℤ
  AIScore : ℚ
  AIProgress : ℚ
  EvaluatorProgress : ℚ
  Discrepancy : ℚ
  ConfidenceLevel : JVal
  EvidenceSummary : JVal
  CrossPillarPatterns : JVal
  InstitutionalCapacity : JVal
  EquityAssessment : JVal
  SustainabilityOutlook : JVal
  StrategicRecommendations : JVal
  DataTransparencyNote : JVal

/-- Per-row body of `analyze_city` (lines 426-467). -/
def processCityRow (engineOf : CityRow → Nat → Except PyErr (List Char))
    (cityName : String) (yearParam : Int) (row : CityRow) : Option CityEvalRecord :=
  match research_and_score_city (engineOf row) cityName row.EvaluatorProgress yearParam with
  | .failure _ => none
  | .success r =>
    some {
      CityID := row.CityID
      Year := (r.year : ℤ)
      AIScore := to_float_safe r.ai_score
      AIProgress := to_float_safe r.ai_progress
      EvaluatorProgress := (match row.EvaluatorProgress with
        | some q => to_float_safe_rat q
        | none => 0)
      Discrepancy := to_float_safe_rat r.discrepancy
      ConfidenceLevel := r.confidence_level
      EvidenceSummary := r.evidence_summary
      CrossPillarPatterns := r.cross_pillar_patterns
      InstitutionalCapacity := r.institutional_capacity
      EquityAssessment := r.equity_assessment
      SustainabilityOutlook := r.sustainability_outlook
      StrategicRecommendations := r.strategic_recommendation
      DataTransparencyNote := r.data_transparency_note }

/-- `analyze_city` (lines 406-481): buffer successful city records, one
`bulk_upsert_city_evaluations` flush outside the per-row `try`; a flush
exception is logged by the outer handler and re-raised. -/
def analyze_city (st : Store)
    (engineOf : CityRow → Nat → Except PyErr (List Char))
    (cityName : String) (yearParam : Int) (rows : List CityRow) :
    BatchTrace (List CityEvalRecord) :=
  if rows.isEmpty then
    ⟨[], [], ["No city evaluations found"], .ok false⟩
  else
    let cityList := rows.filterMap (processCityRow engineOf cityName yearParam)
    if cityList.isEmpty then ⟨[], [], [], .ok false⟩
    else
      match st.call "bulk_upsert_city_evaluations" with
      | .ok _ => ⟨[cityList], [cityList], [], .ok true⟩
      | .error e =>
        ⟨[cityList], [], ["Error in analyze_city: " ++ e.msg], .error e⟩

/-- One city with the pre-joined view rows and engine behaviors its three
tiers will consume. -/
structure CityWork where
  cityName : String
  questionRows : List QuestionRow
  questionEngine : QuestionRow → Nat → Except PyErr (List Char)
  pillarRows : List PillarRow
  pillarEngine : PillarRow → Nat → Except PyErr (List Char)
  cityRows : List CityRow
  cityEngine : CityRow → Nat → Except PyErr (List Char)

/-- What one full batch run persisted, per tier. -/
structure FullBatchTrace where
  questionPersisted : List (List QuestionEvalRecord)
  pillarPersisted : List (List PillarEvalRecord × List PillarSourceRecord)
  cityPersisted : List (List CityEvalRecord)
  result : Except PyErr Bool

/-- The per-city body of `analyze_all_cities_questions`: run the three
tiers in order inside the per-city `try`; a tier that raises aborts the
remaining tiers of that city only. -/
def cityWorkStep (st : Store) (nowYear : JNum) (yearParam : Int)
    (acc : List (List QuestionEvalRecord) ×
      List (List PillarEvalRecord × List PillarSourceRecord) × List (List CityEvalRecord))
    (c : CityWork) :
    List (List QuestionEvalRecord) ×
      List (List PillarEvalRecord × List PillarSourceRecord) × List (List CityEvalRecord) :=
  let tq := analyze_PillarQuestions st c.questionEngine yearParam c.questionRows
  match tq.result with
  | .error _ => (acc.1 ++ tq.persisted, acc.2.1, acc.2.2)
  | .ok _ =>
    let tp := analyze_cityPillar st c.pillarEngine nowYear yearParam c.pillarRows
    match tp.result with
    | .error _ => (acc.1 ++ tq.persisted, acc.2.1 ++ tp.persisted, acc.2.2)
    | .ok _ =>
      let tc := analyze_city st c.cityEngine c.cityName yearParam c.cityRows
      (acc.1 ++ tq.persisted, acc.2.1 ++ tp.persisted, acc.2.2 ++ tc.persisted)

/-- `analyze_all_cities_questions` (lines 82-122): for each city run the
three tiers in order inside a per-city `try` whose `except` logs and
continues with the next city; an exception from any tier aborts the rest
of that city only.  Returns `True`. -/
def analyze_all_cities_questions (st : Store) (nowYear : JNum) (yearParam : Int)
    (cities : List CityWork) : FullBatchTrace :=
  let final := cities.foldl (cityWorkStep st nowYear yearParam) ([], [], [])
  ⟨final.1, final.2.1, final.2.2, .ok true⟩

/-! ### Characterization helpers for the validator theorems -/

/-- Do all range checks of the Question validator pass? -/
def rangesOkQ (data : JObj) : Bool :=
  (rangeCheck "ai_score" 0 4 "0-4" (getf "ai_score" data)).isOk &&
  (rangeCheck "ai_progress" 0 100 "0-100" (getf "ai_progress" data)).isOk &&
  (rangeCheck "source_trust_level" 1 7 "1-7" (getf "source_trust_level" data)).isOk

/-- Do both range checks of the Pillar/City validators pass?  (These two
tiers check only `ai_score` and `ai_progress`.) -/
def rangesOkPC (data : JObj) : Bool :=
  (rangeCheck "ai_score" 0 4 "0-4" (getf "ai_score" data)).isOk &&
  (rangeCheck "ai_progress" 0 100 "0-100" (getf "ai_progress" data)).isOk

/-! ### Concrete test vectors for the scenario/counterexample theorems -/

/-- A schema-valid Question-tier payload with `ai_score` 3.0 and
`ai_progress` 75.0. -/
def qGoodPayload : String :=
  "\x7b\"ai_score\": 3.0, \"ai_progress\": 75.0, \"confidence_level\": \"High\", \"evidence_summary\": \"s\", \"data_sources_count\": 2, \"source_type\": \"Government\", \"source_name\": \"n\", \"source_url\": \"u\", \"source_data_year\": 2024, \"source_trust_level\": 6, \"source_data_extract\": \"e\"\x7d"

/-- The same payload but fenced and with the out-of-range `ai_score`
4.5 of the spec's retry scenario. -/
def qBadPayload : String :=
  "```json\n\x7b\"ai_score\": 4.5, \"ai_progress\": 75.0, \"confidence_level\": \"High\", \"evidence_summary\": \"s\", \"data_sources_count\": 2, \"source_type\": \"Government\", \"source_name\": \"n\", \"source_url\": \"u\", \"source_data_year\": 2024, \"source_trust_level\": 6, \"source_data_extract\": \"e\"\x7d\n```"

/-- Engine of the retry scenario: out-of-range payload on attempt 0, the
valid payload on attempt 1. -/
def c1Engine : Nat → Except PyErr (List Char) :=
  fun n => if n = 0 then .ok qBadPayload.data else .ok qGoodPayload.data

/-- The parsed attempt-2 payload (the validator returns it unchanged:
its confidence level is recognized). -/
def c1Analysis : JObj :=
  match jsonLoads qGoodPayload.data with
  | some (.jobj ms) => ms
  | _ => .onil

/-- An engine whose every attempt yields the valid payload. -/
def cGoodEngine : Nat → Except PyErr (List Char) :=
  fun _ => .ok qGoodPayload.data

/-- A schema-valid Pillar-tier payload with one source of trust level 6. -/
def pGoodPayload : String :=
  "\x7b\"ai_score\": 3.0, \"ai_progress\": 75.0, \"confidence_level\": \"High\", \"evidence_summary\": \"s\", \"sources\": [\x7b\"source_type\": \"Government\", \"source_name\": \"n\", \"source_url\": \"u\", \"data_year\": 2024, \"trust_level\": 6, \"data_extract\": \"e\"\x7d]\x7d"

/-- Pillar row `i` of the fault-isolation scenario. -/
def c2Row (i : Int) : PillarRow :=
  ⟨1, i, "Pillar", "ctx", some 60, some 3⟩

/-- Engine of the fault-isolation scenario: pillar 2's invocation raises
a transport error, pillars 1 and 3 return the valid payload. -/
def c2Engine : PillarRow → Nat → Except PyErr (List Char) :=
  fun r _ =>
    if r.PillarID = 2 then .error (.engineError "transport failure")
    else .ok pGoodPayload.data

/-- `datetime.now().year` as a decoded number, for placeholder years. -/
def y2025 : JNum := ⟨false, [2, 0, 2, 5], []⟩

/-- A Pillar-tier payload whose only source carries the out-of-range
trust level 99 (and which nevertheless validates). -/
def pTrust99Payload : JObj :=
  match jsonLoads ("\x7b\"ai_score\": 3.0, \"ai_progress\": 75.0, \"confidence_level\": \"High\", \"evidence_summary\": \"s\", \"sources\": [\x7b\"source_type\": \"Government\", \"source_name\": \"n\", \"source_url\": \"u\", \"data_year\": 2024, \"trust_level\": 99, \"data_extract\": \"e\"\x7d]\x7d").data with
  | some (.jobj ms) => ms
  | _ => .onil

/-- A Pillar-tier payload from which `sources` is absent entirely. -/
def pNoSourcesPayload : JObj :=
  match jsonLoads ("\x7b\"ai_score\": 3.0, \"ai_progress\": 75.0, \"confidence_level\": \"High\", \"evidence_summary\": \"s\"\x7d").data with
  | some (.jobj ms) => ms
  | _ => .onil

/-- A City-tier payload whose confidence level is the unrecognized
string `Sky`. -/
def cSkyPayload : JObj :=
  match jsonLoads ("\x7b\"ai_score\": 3.0, \"ai_progress\": 75.0, \"confidence_level\": \"Sky\", \"evidence_summary\": \"s\"\x7d").data with
  | some (.jobj ms) => ms
  | _ => .onil

/-- The decoded single source of `pTrust99Payload`. -/
def trust99Src : JObj :=
  .ocons "source_type".data (.jstr "Government".data)
    (.ocons "source_name".data (.jstr "n".data)
    (.ocons "source_url".data (.jstr "u".data)
    (.ocons "data_year".data (.jnum ⟨false, [2, 0, 2, 4], []⟩)
    (.ocons "trust_level".data (.jnum ⟨false, [9, 9], []⟩)
    (.ocons "data_extract".data (.jstr "e".data) .onil)))))

/-- A Pillar-tier payload whose `sources` is present but empty. -/
def pEmptySourcesPayload : JObj :=
  match jsonLoads ("\x7b\"ai_score\": 3.0, \"ai_progress\": 75.0, \"confidence_level\": \"High\", \"evidence_summary\": \"s\", \"sources\": []\x7d").data with
  | some (.jobj ms) => ms
  | _ => .onil

/-- A Question-tier payload whose confidence level is the unrecognized
string `Sky`. -/
def qSkyPayload : JObj :=
  match jsonLoads ("\x7b\"ai_score\": 3.0, \"ai_progress\": 75.0, \"confidence_level\": \"Sky\", \"evidence_summary\": \"s\", \"data_sources_count\": 2, \"source_type\": \"Government\", \"source_name\": \"n\", \"source_url\": \"u\", \"source_data_year\": 2024, \"source_trust_level\": 6, \"source_data_extract\": \"e\"\x7d").data with
  | some (.jobj ms) => ms
  | _ => .onil

/-- Question row `i` (one pillar, evaluator normalized value 0.6). -/
def c9Row (i : Int) : QuestionRow :=
  ⟨1, 7, i, "Pillar", "Q", some (mkRat 6 10), some 60⟩

/-- Eleven question rows of the same pillar. -/
def c9Rows : List QuestionRow :=
  (List.range 11).map (fun i => c9Row i)

/-- Engine answering every question with the valid payload. -/
def c9Engine : QuestionRow → Nat → Except PyErr (List Char) :=
  fun _ _ => .ok qGoodPayload.data


/-- The serialized continuation of an array after one element: what
`parseArrRest` consumes (closing bracket included). -/
def serArrTail (ec : Bool) : JArr → List Char
  | .anil => [']']
  | .acons h t => ',' :: serVal ec h ++ serArrTail ec t

/-- The serialized continuation of an object after one member: what
`parseObjRest` consumes (closing brace included). -/
def serObjTail (ec : Bool) : JObj → List Char
  | .onil => ['}']
  | .ocons k v t => ',' :: serStr ec k ++ ':' :: serVal ec v ++ serObjTail ec t

mutual
/-- Fuel sufficient for `parseVal` on the serialization of a value. -/
def pfuel : JVal → Nat
  | .jnull => 1
  | .jbool _ => 1
  | .jnum _ => 1
  | .jstr _ => 1
  | .jarr xs => pfuelA xs
  | .jobj ms => pfuelO ms

/-- Fuel sufficient for `parseArrRest` on an array continuation. -/
def pfuelA : JArr → Nat
  | .anil => 1
  | .acons h t => pfuel h + pfuelA t + 1

/-- Fuel sufficient for `parseObjRest` on an object continuation. -/
def pfuelO : JObj → Nat
  | .onil => 1
  | .ocons k v t => pfuel v + pfuelO t + 1
end

/-- Does the input continue with a separator (or end)?  Exactly the
contexts in which a serialized value is cut off inside a document. -/
def sepStart : List Char → Bool
  | [] => true
  | c :: _ => c = ',' || c = '}' || c = ']'

/-- Does the input not continue with a digit? -/
def noDigStart : List Char → Bool
  | [] => true
  | c :: _ => !isDig c

/-- An object whose first string value ends in a backslash and whose
second contains a raw newline: after the escaped backslash pair the
scan's `prev` is a backslash, so the closing quote is not recognised as
a string boundary and the in-string parity derails for the rest of the
text. -/
def c8BadVal : JVal :=
  .jobj (.ocons "a".data (.jstr "x\\".data)
    (.ocons "b".data (.jstr "l1\nl2".data) .onil))

/-- An object with a raw newline inside a string value and no
backslash-ending content. -/
def c8GoodVal : JVal :=
  .jobj (.ocons "b".data (.jstr "l1\nl2".data) .onil)


/-! ## Theorems

First the bridge lemmas identifying the kernel-reducible rational
helpers with the ordinary field operations of `ℚ`, then general helper
lemmas, then one theorem per claim (with its witness or counterexample).
-/

theorem rat_mul_den (a : ℚ) : (a : ℚ) * (a.den : ℚ) = (a.num : ℚ) := by
  have ha : (a.den : ℚ) ≠ 0 := by exact_mod_cast a.den_nz
  rw [eq_comm, ← div_eq_iff ha]
  exact Rat.num_div_den a

theorem qsub_eq (a b : ℚ) : qsub a b = a - b := by
  unfold qsub
  rw [Rat.mkRat_eq_div]
  have ha : (a.den : ℚ) ≠ 0 := by exact_mod_cast a.den_nz
  have hb : (b.den : ℚ) ≠ 0 := by exact_mod_cast b.den_nz
  rw [div_eq_iff (by push_cast; exact mul_ne_zero ha hb)]
  push_cast
  rw [← rat_mul_den a, ← rat_mul_den b]
  ring

theorem qadd_eq (a b : ℚ) : qadd a b = a + b := by
  unfold qadd
  rw [Rat.mkRat_eq_div]
  have ha : (a.den : ℚ) ≠ 0 := by exact_mod_cast a.den_nz
  have hb : (b.den : ℚ) ≠ 0 := by exact_mod_cast b.den_nz
  rw [div_eq_iff (by push_cast; exact mul_ne_zero ha hb)]
  push_cast
  rw [← rat_mul_den a, ← rat_mul_den b]
  ring

theorem qmul_eq (a b : ℚ) : qmul a b = a * b := by
  unfold qmul
  rw [Rat.mkRat_eq_div]
  have ha : (a.den : ℚ) ≠ 0 := by exact_mod_cast a.den_nz
  have hb : (b.den : ℚ) ≠ 0 := by exact_mod_cast b.den_nz
  rw [div_eq_iff (by push_cast; exact mul_ne_zero ha hb)]
  push_cast
  rw [← rat_mul_den a, ← rat_mul_den b]
  ring

theorem qneg_eq (a : ℚ) : qneg a = -a := by
  unfold qneg
  rw [Rat.mkRat_eq_div]
  have ha : (a.den : ℚ) ≠ 0 := by exact_mod_cast a.den_nz
  rw [div_eq_iff ha]
  push_cast
  rw [← rat_mul_den a]
  ring

theorem qofInt_eq (i : ℤ) : qofInt i = (i : ℚ) := by
  unfold qofInt
  rw [Rat.mkRat_eq_div]
  simp

theorem qdiv_eq (a b : ℚ) : qdiv a b = a / b := by
  unfold qdiv
  rcases lt_trichotomy b.num 0 with h | h | h
  · have hb0 : b ≠ 0 := fun hc => by simp [hc] at h
    rw [if_pos h, Rat.mkRat_eq_div]
    have ha : (a.den : ℚ) ≠ 0 := by exact_mod_cast a.den_nz
    have hd : ((a.den * b.num.natAbs : ℕ) : ℚ) ≠ 0 := by
      push_cast
      exact mul_ne_zero ha (by
        simp only [ne_eq, Nat.cast_eq_zero, Int.natAbs_eq_zero]
        exact h.ne)
    rw [div_eq_iff hd]
    have hnaq : ((b.num.natAbs : ℕ) : ℚ) = -(b.num : ℚ) := by
      have h1 : |b.num| = -b.num := abs_of_neg h
      rw [Int.cast_natAbs, h1]
      push_cast
      ring
    push_cast [hnaq]
    field_simp
    rw [← rat_mul_den a, ← rat_mul_den b]
    ring
  · have hb0 : b = 0 := by
      have := (Rat.num_eq_zero (q := b)).mp h
      exact this
    subst hb0
    simp
  · have hb0 : b ≠ 0 := fun hc => by simp [hc] at h
    rw [if_neg (not_lt.mpr h.le), Rat.mkRat_eq_div]
    have ha : (a.den : ℚ) ≠ 0 := by exact_mod_cast a.den_nz
    have hd : ((a.den * b.num.natAbs : ℕ) : ℚ) ≠ 0 := by
      push_cast
      exact mul_ne_zero ha (by
        simp only [ne_eq, Nat.cast_eq_zero, Int.natAbs_eq_zero]
        exact h.ne')
    rw [div_eq_iff hd]
    have hnaq : ((b.num.natAbs : ℕ) : ℚ) = (b.num : ℚ) := by
      have h1 : |b.num| = b.num := abs_of_pos h
      rw [Int.cast_natAbs, h1]
    push_cast [hnaq]
    field_simp
    rw [← rat_mul_den a, ← rat_mul_den b]
    ring

theorem qabs_eq (a : ℚ) : qabs a = |a| := by
  unfold qabs
  rcases lt_or_ge a 0 with h | h
  · rw [if_pos h, qneg_eq, abs_of_neg h]
  · rw [if_neg (not_lt.mpr h), abs_of_nonneg h]

theorem qfloor_eq (a : ℚ) : qfloor a = ⌊a⌋ := by
  unfold qfloor
  exact Rat.floor_def.symm


theorem runRetryLoop_succ (step : Nat → Except PyErr α) (attempt remaining : Nat) :
    runRetryLoop step attempt (remaining + 1) =
      match step attempt with
      | .ok a => ⟨.ok a, 1, 0⟩
      | .error e =>
        if e.retryable ∧ remaining > 0 then
          let t := runRetryLoop step (attempt + 1) remaining
          ⟨t.result, t.invocations + 1, t.delays + 1⟩
        else ⟨.error e, 1, 0⟩ := rfl

theorem retry_loop_spec :
    ∀ (α : Type) (step : Nat → Except PyErr α),
      (runWithRetries step).invocations ≤ 3 ∧
      (runWithRetries step).delays = (runWithRetries step).invocations - 1 ∧
      (∀ j, j + 1 < (runWithRetries step).invocations →
        ∃ e, step j = .error e ∧ e.retryable = true) ∧
      (∀ a, (runWithRetries step).result = .ok a →
        step ((runWithRetries step).invocations - 1) = .ok a) ∧
      (∀ e, (runWithRetries step).result = .error e →
        step ((runWithRetries step).invocations - 1) = .error e ∧
          (e.retryable = true → (runWithRetries step).invocations = 3)) := by
  intro α step
  have h3 : runWithRetries step = runRetryLoop step 0 3 := rfl
  cases h0 : step 0 with
  | ok a0 =>
    have ht : runWithRetries step = ⟨.ok a0, 1, 0⟩ := by
      rw [h3, show (3 : Nat) = 2 + 1 from rfl, runRetryLoop_succ, h0]
    rw [ht]
    refine ⟨by norm_num, rfl, ?_, ?_, ?_⟩
    · intro j hj; dsimp only at hj; omega
    · intro a ha
      dsimp only at ha ⊢
      cases ha
      simpa using h0
    · intro e he; dsimp only at he; simp at he
  | error e0 =>
    by_cases hr0 : e0.retryable = true
    · cases h1 : step 1 with
      | ok a1 =>
        have ht : runWithRetries step = ⟨.ok a1, 2, 1⟩ := by
          rw [h3, show (3 : Nat) = 2 + 1 from rfl, runRetryLoop_succ, h0]
          dsimp only
          rw [if_pos (⟨hr0, by norm_num⟩ : e0.retryable = true ∧ (2 : Nat) > 0)]
          rw [show (2 : Nat) = 1 + 1 from rfl, runRetryLoop_succ, h1]
        rw [ht]
        refine ⟨by norm_num, rfl, ?_, ?_, ?_⟩
        · intro j hj
          dsimp only at hj
          have hj' : j = 0 := by omega
          subst hj'
          exact ⟨e0, h0, hr0⟩
        · intro a ha
          dsimp only at ha ⊢
          cases ha
          simpa using h1
        · intro e he; dsimp only at he; simp at he
      | error e1 =>
        by_cases hr1 : e1.retryable = true
        · cases h2 : step 2 with
          | ok a2 =>
            have ht : runWithRetries step = ⟨.ok a2, 3, 2⟩ := by
              rw [h3, show (3 : Nat) = 2 + 1 from rfl, runRetryLoop_succ, h0]
              dsimp only
              rw [if_pos (⟨hr0, by norm_num⟩ : e0.retryable = true ∧ (2 : Nat) > 0)]
              rw [show (2 : Nat) = 1 + 1 from rfl, runRetryLoop_succ, h1]
              dsimp only
              rw [if_pos (⟨hr1, by norm_num⟩ : e1.retryable = true ∧ (1 : Nat) > 0)]
              rw [show (1 : Nat) = 0 + 1 from rfl, runRetryLoop_succ, h2]
            rw [ht]
            refine ⟨by norm_num, rfl, ?_, ?_, ?_⟩
            · intro j hj
              dsimp only at hj
              have hj' : j = 0 ∨ j = 1 := by omega
              rcases hj' with rfl | rfl
              · exact ⟨e0, h0, hr0⟩
              · exact ⟨e1, h1, hr1⟩
            · intro a ha
              dsimp only at ha ⊢
              cases ha
              simpa using h2
            · intro e he; dsimp only at he; simp at he
          | error e2 =>
            have ht : runWithRetries step = ⟨.error e2, 3, 2⟩ := by
              rw [h3, show (3 : Nat) = 2 + 1 from rfl, runRetryLoop_succ, h0]
              dsimp only
              rw [if_pos (⟨hr0, by norm_num⟩ : e0.retryable = true ∧ (2 : Nat) > 0)]
              rw [show (2 : Nat) = 1 + 1 from rfl, runRetryLoop_succ, h1]
              dsimp only
              rw [if_pos (⟨hr1, by norm_num⟩ : e1.retryable = true ∧ (1 : Nat) > 0)]
              rw [show (1 : Nat) = 0 + 1 from rfl, runRetryLoop_succ, h2]
              dsimp only
              rw [if_neg (by simp : ¬(e2.retryable = true ∧ (0 : Nat) > 0))]
            rw [ht]
            refine ⟨by norm_num, rfl, ?_, ?_, ?_⟩
            · intro j hj
              dsimp only at hj
              have hj' : j = 0 ∨ j = 1 := by omega
              rcases hj' with rfl | rfl
              · exact ⟨e0, h0, hr0⟩
              · exact ⟨e1, h1, hr1⟩
            · intro a ha; dsimp only at ha; simp at ha
            · intro e he
              dsimp only at he ⊢
              cases he
              exact ⟨by simpa using h2, fun _ => rfl⟩
        · have ht : runWithRetries step = ⟨.error e1, 2, 1⟩ := by
            rw [h3, show (3 : Nat) = 2 + 1 from rfl, runRetryLoop_succ, h0]
            dsimp only
            rw [if_pos (⟨hr0, by norm_num⟩ : e0.retryable = true ∧ (2 : Nat) > 0)]
            rw [show (2 : Nat) = 1 + 1 from rfl, runRetryLoop_succ, h1]
            dsimp only
            rw [if_neg (fun hc => hr1 hc.1)]
          rw [ht]
          refine ⟨by norm_num, rfl, ?_, ?_, ?_⟩
          · intro j hj
            dsimp only at hj
            have hj' : j = 0 := by omega
            subst hj'
            exact ⟨e0, h0, hr0⟩
          · intro a ha; dsimp only at ha; simp at ha
          · intro e he
            dsimp only at he ⊢
            cases he
            exact ⟨by simpa using h1, fun hc => absurd hc hr1⟩
    · have ht : runWithRetries step = ⟨.error e0, 1, 0⟩ := by
        rw [h3, show (3 : Nat) = 2 + 1 from rfl, runRetryLoop_succ, h0]
        dsimp only
        rw [if_neg (fun hc => hr0 hc.1)]
      rw [ht]
      refine ⟨by norm_num, rfl, ?_, ?_, ?_⟩
      · intro j hj; dsimp only at hj; omega
      · intro a ha; dsimp only at ha; simp at ha
      · intro e he
        dsimp only at he ⊢
        cases he
        exact ⟨by simpa using h0, fun hc => absurd hc hr0⟩


theorem vq_isOk (data : JObj) :
    (validate_question_response data).isOk =
      ((firstMissing questionRequired data).isNone && rangesOkQ data) := by
  unfold validate_question_response rangesOkQ
  cases hm : firstMissing questionRequired data with
  | some f => simp [Except.isOk, Except.toBool]
  | none =>
    simp only [Option.isNone_none, Bool.true_and]
    cases h1 : rangeCheck "ai_score" 0 4 "0-4" (getf "ai_score" data) with
    | error e => simp [Bind.bind, Except.bind, Except.isOk, Except.toBool]
    | ok u =>
      cases u
      simp only [Bind.bind, Except.bind]
      cases h2 : rangeCheck "ai_progress" 0 100 "0-100" (getf "ai_progress" data) with
      | error e => simp [Except.bind, Except.isOk, Except.toBool]
      | ok u =>
        cases u
        simp only [Except.bind]
        cases h3 : rangeCheck "source_trust_level" 1 7 "1-7" (getf "source_trust_level" data) with
        | error e => simp [Except.bind, Except.isOk, Except.toBool]
        | ok u =>
          cases u
          simp only [Except.bind]
          by_cases hc : confidenceOk (getf "confidence_level" data) = true
          · simp [hc, Except.isOk, Except.toBool]
          · simp [hc, Except.isOk, Except.toBool]


/-- An `Except _ Unit` is `isOk` exactly when it is `ok ()`. -/
theorem isOk_iff_unit (x : Except PyErr Unit) : x.isOk = true ↔ x = .ok () := by
  cases x with
  | ok u => cases u; simp [Except.isOk, Except.toBool]
  | error e => simp [Except.isOk, Except.toBool]

/-- Pillar-validator success as a boolean: presence of the required
fields plus the two range checks (nothing else can fail). -/
theorem vp_isOk (y : JNum) (data : JObj) :
    (validate_pillar_response y data).isOk =
      ((firstMissing pillarRequired data).isNone && rangesOkPC data) := by
  unfold validate_pillar_response rangesOkPC
  cases hm : firstMissing pillarRequired data with
  | some f => simp [Except.isOk, Except.toBool]
  | none =>
    simp only [Option.isNone_none, Bool.true_and]
    cases h1 : rangeCheck "ai_score" 0 4 "0-4" (getf "ai_score" data) with
    | error e => simp [Bind.bind, Except.bind, Except.isOk, Except.toBool]
    | ok u =>
      cases u
      simp only [Bind.bind, Except.bind]
      cases h2 : rangeCheck "ai_progress" 0 100 "0-100" (getf "ai_progress" data) with
      | error e => simp [Except.bind, Except.isOk, Except.toBool]
      | ok u =>
        cases u
        simp only [Except.bind]
        by_cases hs : nonEmptyList (getf "sources" data) = true
        · simp [hs, Except.isOk, Except.toBool]
        · simp [hs, Except.isOk, Except.toBool]

/-- City-validator success as a boolean. -/
theorem vc_isOk (data : JObj) :
    (validate_city_response data).isOk =
      ((firstMissing cityRequired data).isNone && rangesOkPC data) := by
  unfold validate_city_response rangesOkPC
  cases hm : firstMissing cityRequired data with
  | some f => simp [Except.isOk, Except.toBool]
  | none =>
    simp only [Option.isNone_none, Bool.true_and]
    cases h1 : rangeCheck "ai_score" 0 4 "0-4" (getf "ai_score" data) with
    | error e => simp [Bind.bind, Except.bind, Except.isOk, Except.toBool]
    | ok u =>
      cases u
      simp only [Bind.bind, Except.bind]
      cases h2 : rangeCheck "ai_progress" 0 100 "0-100" (getf "ai_progress" data) with
      | error e => simp [Except.bind, Except.isOk, Except.toBool]
      | ok u =>
        cases u
        simp [Except.bind, Except.isOk, Except.toBool]

/-- A missing required field makes the Question validator fail with the
message that names it. -/
theorem vq_missing (data : JObj) (f : String)
    (h : firstMissing questionRequired data = some f) :
    validate_question_response data =
      .error (.valueError ("Missing required field: " ++ f)) := by
  unfold validate_question_response
  rw [h]

theorem vp_missing (y : JNum) (data : JObj) (f : String)
    (h : firstMissing pillarRequired data = some f) :
    validate_pillar_response y data =
      .error (.valueError ("Missing required field: " ++ f)) := by
  unfold validate_pillar_response
  rw [h]

theorem vc_missing (data : JObj) (f : String)
    (h : firstMissing cityRequired data = some f) :
    validate_city_response data =
      .error (.valueError ("Missing required field: " ++ f)) := by
  unfold validate_city_response
  rw [h]

/-- Question validator: an `ai_score` range failure is returned as is. -/
theorem vq_range_score (data : JObj) (e : PyErr)
    (hm : firstMissing questionRequired data = none)
    (h : rangeCheck "ai_score" 0 4 "0-4" (getf "ai_score" data) = .error e) :
    validate_question_response data = .error e := by
  unfold validate_question_response
  rw [hm, h]
  rfl

theorem vq_range_progress (data : JObj) (e : PyErr)
    (hm : firstMissing questionRequired data = none)
    (h1 : rangeCheck "ai_score" 0 4 "0-4" (getf "ai_score" data) = .ok ())
    (h : rangeCheck "ai_progress" 0 100 "0-100" (getf "ai_progress" data) = .error e) :
    validate_question_response data = .error e := by
  unfold validate_question_response
  rw [hm, h1, h]
  rfl

theorem vq_range_trust (data : JObj) (e : PyErr)
    (hm : firstMissing questionRequired data = none)
    (h1 : rangeCheck "ai_score" 0 4 "0-4" (getf "ai_score" data) = .ok ())
    (h2 : rangeCheck "ai_progress" 0 100 "0-100" (getf "ai_progress" data) = .ok ())
    (h : rangeCheck "source_trust_level" 1 7 "1-7" (getf "source_trust_level" data) = .error e) :
    validate_question_response data = .error e := by
  unfold validate_question_response
  rw [hm, h1, h2, h]
  rfl

theorem vp_range_score (y : JNum) (data : JObj) (e : PyErr)
    (hm : firstMissing pillarRequired data = none)
    (h : rangeCheck "ai_score" 0 4 "0-4" (getf "ai_score" data) = .error e) :
    validate_pillar_response y data = .error e := by
  unfold validate_pillar_response
  rw [hm, h]
  rfl

theorem vp_range_progress (y : JNum) (data : JObj) (e : PyErr)
    (hm : firstMissing pillarRequired data = none)
    (h1 : rangeCheck "ai_score" 0 4 "0-4" (getf "ai_score" data) = .ok ())
    (h : rangeCheck "ai_progress" 0 100 "0-100" (getf "ai_progress" data) = .error e) :
    validate_pillar_response y data = .error e := by
  unfold validate_pillar_response
  rw [hm, h1, h]
  rfl

theorem vc_range_score (data : JObj) (e : PyErr)
    (hm : firstMissing cityRequired data = none)
    (h : rangeCheck "ai_score" 0 4 "0-4" (getf "ai_score" data) = .error e) :
    validate_city_response data = .error e := by
  unfold validate_city_response
  rw [hm, h]
  rfl

theorem vc_range_progress (data : JObj) (e : PyErr)
    (hm : firstMissing cityRequired data = none)
    (h1 : rangeCheck "ai_score" 0 4 "0-4" (getf "ai_score" data) = .ok ())
    (h : rangeCheck "ai_progress" 0 100 "0-100" (getf "ai_progress" data) = .error e) :
    validate_city_response data = .error e := by
  unfold validate_city_response
  rw [hm, h1, h]
  rfl


/-- `olookup` after updating a different key is unchanged. -/
theorem olookup_oupdate_ne (k k' : List Char) (nv : JVal) (h : k' ≠ k) :
    ∀ data : JObj, olookup k (oupdate k' nv data) = olookup k data
  | .onil => rfl
  | .ocons k0 v0 t => by
    have ih := olookup_oupdate_ne k k' nv h t
    show olookup k (.ocons k0 (if k0 = k' then nv else v0) (oupdate k' nv t)) = _
    unfold olookup
    rw [ih]
    cases holt : olookup k t with
    | some r => rfl
    | none =>
      by_cases hk : k0 = k
      · rw [if_pos hk, if_pos hk, if_neg (fun hc : k0 = k' => h (hc ▸ hk))]
      · rw [if_neg hk, if_neg hk]

/-- Updating values never materializes an absent key. -/
theorem olookup_oupdate_none (k k' : List Char) (nv : JVal) :
    ∀ data : JObj, olookup k data = none →
      olookup k (oupdate k' nv data) = none
  | .onil => fun _ => rfl
  | .ocons k0 v0 t => by
    intro h
    unfold olookup at h
    have hcases : olookup k t = none ∧ (k0 = k → False) := by
      cases holt : olookup k t with
      | some r => rw [holt] at h; exact absurd h (by simp)
      | none =>
        rw [holt] at h
        refine ⟨rfl, fun hk => ?_⟩
        rw [if_pos hk] at h
        simp at h
    show olookup k (.ocons k0 (if k0 = k' then nv else v0) (oupdate k' nv t)) = none
    unfold olookup
    rw [olookup_oupdate_none k k' nv t hcases.1, if_neg (fun hk => hcases.2 hk)]

/-- `olookup` of an updated key: the new value whenever the key was
present. -/
theorem olookup_oupdate_self (k : List Char) (nv : JVal) :
    ∀ data : JObj, hasKey k data = true →
      olookup k (oupdate k nv data) = some nv
  | .onil => by intro h; simp [hasKey, olookup, Option.isSome] at h
  | .ocons k0 v0 t => by
    intro hk
    show olookup k (.ocons k0 (if k0 = k then nv else v0) (oupdate k nv t)) = _
    unfold olookup
    by_cases ht : hasKey k t = true
    · rw [olookup_oupdate_self k nv t ht]
    · have htn : olookup k t = none := by
        unfold hasKey at ht
        cases holt : olookup k t with
        | some r => rw [holt] at ht; simp [Option.isSome] at ht
        | none => rfl
      have h0 : k0 = k := by
        unfold hasKey olookup at hk
        rw [htn] at hk
        by_cases h0 : k0 = k
        · exact h0
        · rw [if_neg h0] at hk; simp [Option.isSome] at hk
      rw [olookup_oupdate_none k k nv t htn, if_pos h0, if_pos h0]

/-- Fields listed in a fully present requirement set are present. -/
theorem firstMissing_none_hasKey (fields : List String) (data : JObj) (f : String)
    (h : firstMissing fields data = none) (hf : f ∈ fields) :
    hasKey f.data data = true := by
  unfold firstMissing at h
  have := List.find?_eq_none.mp h f hf
  simpa using this


/-- Decompose a successful Question validation: field presence and range
checks passed, and the payload is returned either unchanged (confidence
recognized) or with the confidence coerced. -/
theorem vq_ok_cases (data d' : JObj)
    (h : validate_question_response data = .ok d') :
    firstMissing questionRequired data = none ∧ rangesOkQ data = true ∧
    ((confidenceOk (getf "confidence_level" data) = true ∧ d' = data) ∨
     (confidenceOk (getf "confidence_level" data) = false ∧
       d' = oupdate "confidence_level".data (.jstr "Medium".data) data)) := by
  unfold validate_question_response at h
  cases hm : firstMissing questionRequired data with
  | some f => rw [hm] at h; exact absurd h (by simp)
  | none =>
    rw [hm] at h
    cases h1 : rangeCheck "ai_score" 0 4 "0-4" (getf "ai_score" data) with
    | error e => rw [h1] at h; exact absurd h (by simp [Bind.bind, Except.bind])
    | ok u =>
      cases u
      rw [h1] at h
      simp only [Bind.bind, Except.bind] at h
      cases h2 : rangeCheck "ai_progress" 0 100 "0-100" (getf "ai_progress" data) with
      | error e => rw [h2] at h; exact absurd h (by simp [Except.bind])
      | ok u =>
        cases u
        rw [h2] at h
        simp only [Except.bind] at h
        cases h3 : rangeCheck "source_trust_level" 1 7 "1-7" (getf "source_trust_level" data) with
        | error e => rw [h3] at h; exact absurd h (by simp [Except.bind])
        | ok u =>
          cases u
          rw [h3] at h
          simp only [Except.bind] at h
          refine ⟨rfl, by simp [rangesOkQ, h1, h2, h3, Except.isOk, Except.toBool], ?_⟩
          by_cases hc : confidenceOk (getf "confidence_level" data) = true
          · rw [if_pos hc] at h
            exact Or.inl ⟨hc, (by injection h with h'; exact h'.symm)⟩
          · rw [if_neg hc] at h
            exact Or.inr ⟨by simpa using hc, (by injection h with h'; exact h'.symm)⟩

/-- Decompose a successful Pillar validation. -/
theorem vp_ok_cases (y : JNum) (data d' : JObj)
    (h : validate_pillar_response y data = .ok d') :
    firstMissing pillarRequired data = none ∧ rangesOkPC data = true ∧
    ((nonEmptyList (getf "sources" data) = true ∧ d' = data) ∨
     (nonEmptyList (getf "sources" data) = false ∧
       d' = oupdate "sources".data (placeholderSources y) data)) := by
  unfold validate_pillar_response at h
  cases hm : firstMissing pillarRequired data with
  | some f => rw [hm] at h; exact absurd h (by simp)
  | none =>
    rw [hm] at h
    cases h1 : rangeCheck "ai_score" 0 4 "0-4" (getf "ai_score" data) with
    | error e => rw [h1] at h; exact absurd h (by simp [Bind.bind, Except.bind])
    | ok u =>
      cases u
      rw [h1] at h
      simp only [Bind.bind, Except.bind] at h
      cases h2 : rangeCheck "ai_progress" 0 100 "0-100" (getf "ai_progress" data) with
      | error e => rw [h2] at h; exact absurd h (by simp [Except.bind])
      | ok u =>
        cases u
        rw [h2] at h
        simp only [Except.bind] at h
        refine ⟨rfl, by simp [rangesOkPC, h1, h2, Except.isOk, Except.toBool], ?_⟩
        by_cases hs : nonEmptyList (getf "sources" data) = true
        · rw [if_pos hs] at h
          exact Or.inl ⟨hs, (by injection h with h'; exact h'.symm)⟩
        · rw [if_neg hs] at h
          exact Or.inr ⟨by simpa using hs, (by injection h with h'; exact h'.symm)⟩

/-- A successful City validation returns the payload unchanged. -/
theorem vc_ok_inv (data d' : JObj)
    (h : validate_city_response data = .ok d') : d' = data := by
  unfold validate_city_response at h
  cases hm : firstMissing cityRequired data with
  | some f => rw [hm] at h; exact absurd h (by simp)
  | none =>
    rw [hm] at h
    cases h1 : rangeCheck "ai_score" 0 4 "0-4" (getf "ai_score" data) with
    | error e => rw [h1] at h; exact absurd h (by simp [Bind.bind, Except.bind])
    | ok u =>
      cases u
      rw [h1] at h
      simp only [Bind.bind, Except.bind] at h
      cases h2 : rangeCheck "ai_progress" 0 100 "0-100" (getf "ai_progress" data) with
      | error e => rw [h2] at h; exact absurd h (by simp [Except.bind])
      | ok u =>
        cases u
        rw [h2] at h
        simp only [Except.bind] at h
        injection h with h'
        exact h'.symm

/-- Forward direction: under presence and ranges, an unrecognized
confidence is coerced to Medium. -/
theorem vq_coerce (data : JObj)
    (hm : firstMissing questionRequired data = none)
    (hr : rangesOkQ data = true)
    (hc : confidenceOk (getf "confidence_level" data) = false) :
    validate_question_response data =
      .ok (oupdate "confidence_level".data (.jstr "Medium".data) data) := by
  unfold rangesOkQ at hr
  simp only [Bool.and_eq_true] at hr
  obtain ⟨⟨r1, r2⟩, r3⟩ := hr
  unfold validate_question_response
  rw [hm, (isOk_iff_unit _).mp r1, (isOk_iff_unit _).mp r2, (isOk_iff_unit _).mp r3]
  simp only [Bind.bind, Except.bind]
  rw [if_neg (by simp [hc])]

/-- Forward direction: a recognized confidence passes through. -/
theorem vq_keep (data : JObj)
    (hm : firstMissing questionRequired data = none)
    (hr : rangesOkQ data = true)
    (hc : confidenceOk (getf "confidence_level" data) = true) :
    validate_question_response data = .ok data := by
  unfold rangesOkQ at hr
  simp only [Bool.and_eq_true] at hr
  obtain ⟨⟨r1, r2⟩, r3⟩ := hr
  unfold validate_question_response
  rw [hm, (isOk_iff_unit _).mp r1, (isOk_iff_unit _).mp r2, (isOk_iff_unit _).mp r3]
  simp only [Bind.bind, Except.bind]
  rw [if_pos hc]

/-- Forward direction: a missing/non-list/empty `sources` that is
nevertheless present is replaced by the placeholder. -/
theorem vp_placeholder (y : JNum) (data : JObj)
    (hm : firstMissing pillarRequired data = none)
    (hr : rangesOkPC data = true)
    (hs : nonEmptyList (getf "sources" data) = false) :
    validate_pillar_response y data =
      .ok (oupdate "sources".data (placeholderSources y) data) := by
  unfold rangesOkPC at hr
  simp only [Bool.and_eq_true] at hr
  obtain ⟨r1, r2⟩ := hr
  unfold validate_pillar_response
  rw [hm, (isOk_iff_unit _).mp r1, (isOk_iff_unit _).mp r2]
  simp only [Bind.bind, Except.bind]
  rw [if_neg (by simp [hs])]

/-- Forward direction: a nonempty `sources` list passes through. -/
theorem vp_keep (y : JNum) (data : JObj)
    (hm : firstMissing pillarRequired data = none)
    (hr : rangesOkPC data = true)
    (hs : nonEmptyList (getf "sources" data) = true) :
    validate_pillar_response y data = .ok data := by
  unfold rangesOkPC at hr
  simp only [Bool.and_eq_true] at hr
  obtain ⟨r1, r2⟩ := hr
  unfold validate_pillar_response
  rw [hm, (isOk_iff_unit _).mp r1, (isOk_iff_unit _).mp r2]
  simp only [Bind.bind, Except.bind]
  rw [if_pos hs]

/-- C1: for every tier (Question, Pillar, City), the retry loop makes at
most 3 attempts; a `json.JSONDecodeError`/`ValueError` (JSON-decode or
schema-violation) failure on an attempt before the last triggers one
fixed `asyncio.sleep(1)` delay and a fresh engine invocation, while any
other exception ends the loop immediately without a further attempt;
after 3 consecutive retryable failures the last error is surfaced by the
orchestrator as `{"success": False, "error": str(e)}`.  On the concrete
scenario — an out-of-range `ai_score` 4.5 on attempt 1 and a valid
payload on attempt 2 — the loop returns the attempt-2 result after
exactly one retry and one delay. -/
theorem c1_retry_controller :
    (∀ (α : Type) (step : Nat → Except PyErr α),
      (runWithRetries step).invocations ≤ 3 ∧
      (runWithRetries step).delays = (runWithRetries step).invocations - 1 ∧
      (∀ j, j + 1 < (runWithRetries step).invocations →
        ∃ e, step j = .error e ∧ e.retryable = true) ∧
      (∀ a, (runWithRetries step).result = .ok a →
        step ((runWithRetries step).invocations - 1) = .ok a) ∧
      (∀ e, (runWithRetries step).result = .error e →
        step ((runWithRetries step).invocations - 1) = .error e ∧
          (e.retryable = true → (runWithRetries step).invocations = 3))) ∧
    (∀ engine qt sp ev yr e,
      (runWithRetries (questionAttempt engine)).result = .error e →
      research_and_score_question engine qt sp ev yr = .failure e.msg) ∧
    (∀ engine ny pid pn ev yr e,
      (runWithRetries (pillarAttempt ny engine)).result = .error e →
      research_and_score_pillar engine ny pid pn ev yr = .failure e.msg pn) ∧
    (∀ engine cn ev yr e,
      (runWithRetries (cityAttempt engine)).result = .error e →
      research_and_score_city engine cn ev yr = .failure e.msg) ∧
    (runWithRetries (questionAttempt c1Engine)).result = .ok c1Analysis ∧
    (runWithRetries (questionAttempt c1Engine)).invocations = 2 ∧
    (runWithRetries (questionAttempt c1Engine)).delays = 1 ∧
    research_and_score_question c1Engine "Q" (some 60) (some 2) 2025 =
      .success ⟨"Q", 2025, .jnum ⟨false, [3], [0]⟩, .jnum ⟨false, [7, 5], [0]⟩, 25,
        .jstr "High".data, .jnum ⟨false, [2], []⟩, .jstr "s".data, .jstr [], .jstr [],
        .jstr "Government".data, .jstr "n".data, .jstr "u".data,
        .jnum ⟨false, [2, 0, 2, 4], []⟩, .jstr "e".data, .jnum ⟨false, [6], []⟩⟩ := by
  refine ⟨retry_loop_spec, ?_, ?_, ?_, rfl, rfl, rfl, rfl⟩
  · intro engine qt sp ev yr e h
    unfold research_and_score_question
    rw [h]
  · intro engine ny pid pn ev yr e h
    unfold research_and_score_pillar
    rw [h]
  · intro engine cn ev yr e h
    unfold research_and_score_city
    rw [h]

/-- Witness for C1: the scenario engine discharges the hypotheses of the
general retry characterization at a concrete input — attempt 1 of the
retry scenario fails with exactly the out-of-range `ai_score`
schema violation, and that failure is retryable. -/
theorem c1_retry_controller_witness :
    questionAttempt c1Engine 0 =
      .error (.valueError "ai_score must be 0-4, got 4.5") ∧
    PyErr.retryable (.valueError "ai_score must be 0-4, got 4.5") = true := by
  obtain ⟨e, he, hr⟩ :=
    (c1_retry_controller.1 JObj (questionAttempt c1Engine)).2.2.1 0 (by decide)
  have hc : questionAttempt c1Engine 0 =
      .error (.valueError "ai_score must be 0-4, got 4.5") := rfl
  rw [hc] at he
  injection he with h2
  subst h2
  exact ⟨hc, hr⟩


def qGoodRecord : QuestionSuccess :=
  ⟨"Q", 2025, .jnum ⟨false, [3], [0]⟩, .jnum ⟨false, [7, 5], [0]⟩, 25,
    .jstr "High".data, .jnum ⟨false, [2], []⟩, .jstr "s".data, .jstr [], .jstr [],
    .jstr "Government".data, .jstr "n".data, .jstr "u".data,
    .jnum ⟨false, [2, 0, 2, 4], []⟩, .jstr "e".data, .jnum ⟨false, [6], []⟩⟩

theorem nonEmptyList_iff (v : JVal) :
    nonEmptyList v = true ↔ ∃ hd tl, v = .jarr (.acons hd tl) := by
  constructor
  · intro h
    match v, h with
    | .jarr (.acons hd tl), _ => exact ⟨hd, tl, rfl⟩
  · rintro ⟨hd, tl, rfl⟩
    rfl

theorem c3_discrepancy :
    (∀ ai ev, calculate_discrepancy ai (some ev) = |ai - ev|) ∧
    (∀ ai, calculate_discrepancy ai none = ai) ∧
    calculate_discrepancy 75 (some 60) = 15 ∧
    calculate_discrepancy 40 none = 40 ∧
    (∀ engine ny pid pn ev yr r,
      research_and_score_pillar engine ny pid pn ev yr = .success r →
      ∃ ap, pyNumVal r.ai_progress = some ap ∧
        r.discrepancy = calculate_discrepancy ap ev) ∧
    (∀ engine cn ev yr r,
      research_and_score_city engine cn ev yr = .success r →
      ∃ ap, pyNumVal r.ai_progress = some ap ∧
        r.discrepancy = calculate_discrepancy ap ev) ∧
    (∀ engine qt sp ev yr r,
      research_and_score_question engine qt sp ev yr = .success r →
      ∃ ap, pyNumVal r.ai_progress = some ap ∧
        r.discrepancy = (match ev with
          | some es => |ap - es / 4 * 100|
          | none => ap)) := by
  refine ⟨?_, fun ai => rfl, ?_, rfl, ?_, ?_, ?_⟩
  · intro ai ev
    show qabs (qsub ai ev) = _
    rw [qabs_eq, qsub_eq]
  · show qabs (qsub 75 60) = _
    rw [qabs_eq, qsub_eq]
    norm_num
  · intro engine ny pid pn ev yr r h
    unfold research_and_score_pillar at h
    cases hm : (runWithRetries (pillarAttempt ny engine)).result with
    | error e => rw [hm] at h; dsimp only at h; exact absurd h (by simp)
    | ok analysis =>
      rw [hm] at h
      dsimp only at h
      cases hp : pyNumVal (getf "ai_progress" analysis) with
      | none => rw [hp] at h; dsimp only at h; exact absurd h (by simp)
      | some ap =>
        rw [hp] at h
        dsimp only at h
        injection h with h'
        subst h'
        exact ⟨ap, hp, rfl⟩
  · intro engine cn ev yr r h
    unfold research_and_score_city at h
    cases hm : (runWithRetries (cityAttempt engine)).result with
    | error e => rw [hm] at h; dsimp only at h; exact absurd h (by simp)
    | ok analysis =>
      rw [hm] at h
      dsimp only at h
      cases hp : pyNumVal (getf "ai_progress" analysis) with
      | none => rw [hp] at h; dsimp only at h; exact absurd h (by simp)
      | some ap =>
        rw [hp] at h
        dsimp only at h
        cases hsrc : olookup "source".data analysis with
        | none => rw [hsrc] at h; dsimp only at h; exact absurd h (by simp)
        | some src =>
          rw [hsrc] at h
          dsimp only at h
          injection h with h'
          subst h'
          exact ⟨ap, hp, rfl⟩
  · intro engine qt sp ev yr r h
    unfold research_and_score_question at h
    cases hm : (runWithRetries (questionAttempt engine)).result with
    | error e => rw [hm] at h; dsimp only at h; exact absurd h (by simp)
    | ok analysis =>
      rw [hm] at h
      dsimp only at h
      cases hp : pyNumVal (getf "ai_progress" analysis) with
      | none => rw [hp] at h; dsimp only at h; exact absurd h (by simp)
      | some ap =>
        rw [hp] at h
        dsimp only at h
        injection h with h'
        subst h'
        refine ⟨ap, hp, ?_⟩
        cases ev with
        | none => rfl
        | some es =>
          show qabs (qsub ap (qmul (qdiv es 4) 100)) = _
          rw [qabs_eq, qsub_eq, qmul_eq, qdiv_eq]

theorem c3_counterexample :
    research_and_score_question cGoodEngine "Q" (some 60) (some 2) 2025 =
      .success qGoodRecord ∧
    qGoodRecord.ai_progress = .jnum ⟨false, [7, 5], [0]⟩ ∧
    pyNumVal (.jnum ⟨false, [7, 5], [0]⟩) = some 75 ∧
    qGoodRecord.discrepancy = 25 ∧
    (25 : ℚ) ≠ |(75 : ℚ) - 60| := by
  refine ⟨rfl, rfl, by decide, rfl, ?_⟩
  rw [show |(75 : ℚ) - 60| = 15 by norm_num]
  norm_num

theorem c3_discrepancy_witness :
    pyNumVal (JVal.jnum ⟨false, [7, 5], [0]⟩) = some 75 ∧
    (25 : ℚ) = |(75 : ℚ) - 2 / 4 * 100| := by
  obtain ⟨ap, hp, hd⟩ := c3_discrepancy.2.2.2.2.2.2 cGoodEngine "Q" (some 60) (some 2) 2025
    qGoodRecord rfl
  have h75 : pyNumVal (JVal.jnum ⟨false, [7, 5], [0]⟩) = some (75 : ℚ) := by decide
  have hap : ap = 75 := by
    have h2 : some ap = some (75 : ℚ) := (hp.symm.trans h75 :)
    exact Option.some.inj h2
  refine ⟨h75, ?_⟩
  have hd' : (25 : ℚ) = |ap - 2 / 4 * 100| := hd
  rw [hap] at hd'
  exact hd'


/-- C4 (amended): when `sources` is *present* but not a list or empty
(and the other checks pass), the Pillar validator substitutes the
one-element placeholder (`source_type="Unknown"`, `trust_level=1`,
`data_extract="Insufficient data available"`); a present nonempty list
passes through; and every successfully validated payload carries a
nonempty `sources` list.  When `sources` is absent entirely, however,
validation fails with the missing-field error (see the
counterexample). -/
theorem c4_sources_placeholder :
    (∀ y data, firstMissing pillarRequired data = none → rangesOkPC data = true →
      nonEmptyList (getf "sources" data) = false →
      validate_pillar_response y data =
        .ok (oupdate "sources".data (placeholderSources y) data)) ∧
    (∀ y data, firstMissing pillarRequired data = none → rangesOkPC data = true →
      nonEmptyList (getf "sources" data) = true →
      validate_pillar_response y data = .ok data) ∧
    (∀ y, placeholderSources y = .jarr (.acons (.jobj
      (.ocons "source_type".data (.jstr "Unknown".data)
      (.ocons "source_name".data (.jstr "Data not available".data)
      (.ocons "source_url".data (.jstr "Not available".data)
      (.ocons "data_year".data (.jnum y)
      (.ocons "trust_level".data (.jnum ⟨false, [1], []⟩)
      (.ocons "data_extract".data (.jstr "Insufficient data available".data)
        .onil))))))) .anil)) ∧
    (∀ y data d', validate_pillar_response y data = .ok d' →
      ∃ hd tl, olookup "sources".data d' = some (.jarr (.acons hd tl))) := by
  refine ⟨vp_placeholder, vp_keep, fun y => rfl, ?_⟩
  intro y data d' h
  obtain ⟨hm, _, hcase⟩ := vp_ok_cases y data d' h
  rcases hcase with ⟨hs, hdd⟩ | ⟨_, hdd⟩
  · rw [hdd]
    obtain ⟨hd, tl, hv⟩ := (nonEmptyList_iff _).mp hs
    cases ho : olookup "sources".data data with
    | none =>
      unfold getf at hv
      rw [ho] at hv
      exact absurd hv (by simp)
    | some v =>
      unfold getf at hv
      rw [ho] at hv
      simp only [Option.getD] at hv
      exact ⟨hd, tl, congrArg some hv⟩
  · have hl : olookup "sources".data
        (oupdate "sources".data (placeholderSources y) data) =
        some (placeholderSources y) :=
      olookup_oupdate_self _ _ data
        (firstMissing_none_hasKey pillarRequired data "sources" hm (by decide))
    rw [hdd, hl]
    exact ⟨_, _, rfl⟩

/-- Counterexample to C4 as stated: a payload from which `sources` is
*missing* does not get the placeholder — the required-field loop rejects
it first. -/
theorem c4_counterexample :
    hasKey "sources".data pNoSourcesPayload = false ∧
    validate_pillar_response y2025 pNoSourcesPayload =
      .error (.valueError ("Missing required field: " ++ "sources")) := ⟨rfl, rfl⟩

/-- Witness for C4: the empty-`sources` payload gets the placeholder. -/
theorem c4_sources_placeholder_witness :
    validate_pillar_response y2025 pEmptySourcesPayload =
      .ok (oupdate "sources".data (placeholderSources y2025) pEmptySourcesPayload) :=
  c4_sources_placeholder.1 y2025 pEmptySourcesPayload rfl rfl rfl

/-- C5 (amended): only the Question validator coerces an unrecognized
`confidence_level` to `"Medium"`; the Pillar validator passes the
confidence value through unchanged and the City validator returns the
payload verbatim.  None of the three rejects a payload over its
confidence value (their success depends only on field presence and the
numeric ranges). -/
theorem c5_confidence_coercion :
    (∀ data, firstMissing questionRequired data = none → rangesOkQ data = true →
      confidenceOk (getf "confidence_level" data) = false →
      validate_question_response data =
        .ok (oupdate "confidence_level".data (.jstr "Medium".data) data)) ∧
    (∀ data, firstMissing questionRequired data = none → rangesOkQ data = true →
      confidenceOk (getf "confidence_level" data) = true →
      validate_question_response data = .ok data) ∧
    (∀ y data d', validate_pillar_response y data = .ok d' →
      olookup "confidence_level".data d' = olookup "confidence_level".data data) ∧
    (∀ data d', validate_city_response data = .ok d' → d' = data) := by
  refine ⟨vq_coerce, vq_keep, ?_, vc_ok_inv⟩
  intro y data d' h
  obtain ⟨_, _, hcase⟩ := vp_ok_cases y data d' h
  rcases hcase with ⟨_, hdd⟩ | ⟨_, hdd⟩
  · rw [hdd]
  · rw [hdd]
    exact olookup_oupdate_ne _ _ _ (by decide) data

/-- Counterexample to C5 as stated: the City validator accepts the
unrecognized confidence value `"Sky"` and returns it unchanged instead
of coercing it to `"Medium"`. -/
theorem c5_counterexample :
    validate_city_response cSkyPayload = .ok cSkyPayload ∧
    olookup "confidence_level".data cSkyPayload = some (.jstr "Sky".data) ∧
    confidenceOk (.jstr "Sky".data) = false ∧
    (JVal.jstr "Sky".data = JVal.jstr "Medium".data → False) :=
  ⟨rfl, rfl, rfl, fun h => by injection h with h'; exact absurd h' (by decide)⟩

/-- Witness for C5: the Question validator coerces `"Sky"` to
`"Medium"` on a concrete payload. -/
theorem c5_confidence_coercion_witness :
    validate_question_response qSkyPayload =
      .ok (oupdate "confidence_level".data (.jstr "Medium".data) qSkyPayload) :=
  c5_confidence_coercion.1 qSkyPayload rfl rfl rfl

/-- C6 (amended): each tier validator succeeds exactly when every
required field of its tier is present and its range checks pass; a
missing field fails with the `ValueError` naming that field, and a range
failure returns the `ValueError`/`TypeError` produced by the failing
check (whose message names the field).  The Question tier range-checks
`ai_score`, `ai_progress` and `source_trust_level`; the Pillar and City
tiers check only `ai_score` and `ai_progress` — in particular the
`trust_level` values inside Pillar `sources` entries are not checked
(see the counterexample). -/
theorem c6_schema_validation :
    (∀ data, (validate_question_response data).isOk =
      ((firstMissing questionRequired data).isNone && rangesOkQ data)) ∧
    (∀ y data, (validate_pillar_response y data).isOk =
      ((firstMissing pillarRequired data).isNone && rangesOkPC data)) ∧
    (∀ data, (validate_city_response data).isOk =
      ((firstMissing cityRequired data).isNone && rangesOkPC data)) ∧
    (∀ data f, firstMissing questionRequired data = some f →
      validate_question_response data =
        .error (.valueError ("Missing required field: " ++ f))) ∧
    (∀ y data f, firstMissing pillarRequired data = some f →
      validate_pillar_response y data =
        .error (.valueError ("Missing required field: " ++ f))) ∧
    (∀ data f, firstMissing cityRequired data = some f →
      validate_city_response data =
        .error (.valueError ("Missing required field: " ++ f))) ∧
    (∀ data e, firstMissing questionRequired data = none →
      rangeCheck "ai_score" 0 4 "0-4" (getf "ai_score" data) = .error e →
      validate_question_response data = .error e) ∧
    (∀ data e, firstMissing questionRequired data = none →
      rangeCheck "ai_score" 0 4 "0-4" (getf "ai_score" data) = .ok () →
      rangeCheck "ai_progress" 0 100 "0-100" (getf "ai_progress" data) = .error e →
      validate_question_response data = .error e) ∧
    (∀ data e, firstMissing questionRequired data = none →
      rangeCheck "ai_score" 0 4 "0-4" (getf "ai_score" data) = .ok () →
      rangeCheck "ai_progress" 0 100 "0-100" (getf "ai_progress" data) = .ok () →
      rangeCheck "source_trust_level" 1 7 "1-7" (getf "source_trust_level" data) = .error e →
      validate_question_response data = .error e) ∧
    (∀ y data e, firstMissing pillarRequired data = none →
      rangeCheck "ai_score" 0 4 "0-4" (getf "ai_score" data) = .error e →
      validate_pillar_response y data = .error e) ∧
    (∀ y data e, firstMissing pillarRequired data = none →
      rangeCheck "ai_score" 0 4 "0-4" (getf "ai_score" data) = .ok () →
      rangeCheck "ai_progress" 0 100 "0-100" (getf "ai_progress" data) = .error e →
      validate_pillar_response y data = .error e) ∧
    (∀ data e, firstMissing cityRequired data = none →
      rangeCheck "ai_score" 0 4 "0-4" (getf "ai_score" data) = .error e →
      validate_city_response data = .error e) ∧
    (∀ data e, firstMissing cityRequired data = none →
      rangeCheck "ai_score" 0 4 "0-4" (getf "ai_score" data) = .ok () →
      rangeCheck "ai_progress" 0 100 "0-100" (getf "ai_progress" data) = .error e →
      validate_city_response data = .error e) ∧
    (∀ f lo hi rs v e, rangeCheck f lo hi rs v = .error e →
      (∃ q, pyNumVal v = some q ∧ ¬(lo ≤ q ∧ q ≤ hi) ∧
        e = .valueError (f ++ " must be " ++ rs ++ ", got " ++ pyShow v)) ∨
      (pyNumVal v = none ∧ e = .typeError "'<=' not supported between instances")) := by
  refine ⟨vq_isOk, vp_isOk, vc_isOk, vq_missing, vp_missing, vc_missing,
    vq_range_score, vq_range_progress, vq_range_trust,
    vp_range_score, vp_range_progress, vc_range_score, vc_range_progress, ?_⟩
  intro f lo hi rs v e h
  unfold rangeCheck at h
  cases hn : pyNumVal v with
  | none =>
    rw [hn] at h
    dsimp only at h
    injection h with h'
    exact Or.inr ⟨rfl, h'.symm⟩
  | some q =>
    rw [hn] at h
    dsimp only at h
    by_cases hq : lo ≤ q ∧ q ≤ hi
    · rw [if_pos hq] at h; exact absurd h (by simp)
    · rw [if_neg hq] at h
      injection h with h'
      exact Or.inl ⟨q, rfl, hq, h'.symm⟩

/-- Counterexample to C6 as stated: a Pillar payload whose only source
carries `trust_level` 99 — outside `[1, 7]` — still validates. -/
theorem c6_counterexample :
    validate_pillar_response y2025 pTrust99Payload = .ok pTrust99Payload ∧
    getf "sources" pTrust99Payload = .jarr (.acons (.jobj trust99Src) .anil) ∧
    olookup "trust_level".data trust99Src = some (.jnum ⟨false, [9, 9], []⟩) ∧
    ¬(JNum.toRat ⟨false, [9, 9], []⟩ ≤ 7) := by
  refine ⟨rfl, rfl, rfl, by decide⟩

/-- Witness for C6: the empty payload is rejected with the error naming
its first missing required field. -/
theorem c6_schema_validation_witness :
    validate_question_response .onil =
      .error (.valueError ("Missing required field: " ++ "ai_score")) :=
  c6_schema_validation.2.2.2.1 .onil "ai_score" rfl

/-- The pillar-row fold accumulates exactly the records of the rows
whose processing succeeds, appended in order. -/
theorem pillarRowStep_fold (engineOf : PillarRow → Nat → Except PyErr (List Char))
    (ny : JNum) (yp : Int) :
    ∀ (rows : List PillarRow) acc,
      (rows.foldl (pillarRowStep engineOf ny yp) acc).1 =
        acc.1 ++ rows.filterMap (fun row => (processPillarRow engineOf ny yp row).2)
  | [], acc => by simp
  | row :: rest, acc => by
    rw [List.foldl_cons, pillarRowStep_fold engineOf ny yp rest]
    unfold pillarRowStep
    cases hp : (processPillarRow engineOf ny yp row).2 with
    | some rec => simp [List.filterMap_cons, hp]
    | none => simp [List.filterMap_cons, hp]

/-- The question-pillar fold: one flush argument per pillar with a
nonempty record list, in pillar order; persisted and logs depend on the
store call. -/
theorem questionPillarStep_fold_flushes (st : Store)
    (engineOf : QuestionRow → Nat → Except PyErr (List Char))
    (ny : Int) (rows : List QuestionRow) :
    ∀ (pids : List Int) acc,
      (pids.foldl (questionPillarStep st engineOf ny rows) acc).1 =
        acc.1 ++ pids.filterMap (fun pid =>
          let ql := (rows.filter (·.PillarID = pid)).filterMap (processQuestionRow engineOf ny)
          if ql.isEmpty then none else some ql)
  | [], acc => by simp
  | pid :: rest, acc => by
    rw [List.foldl_cons, questionPillarStep_fold_flushes st engineOf ny rows rest]
    unfold questionPillarStep
    by_cases hql : ((rows.filter (·.PillarID = pid)).filterMap (processQuestionRow engineOf ny)).isEmpty = true
    · simp [List.filterMap_cons, hql]
    · cases hc : st.call "bulk_upsert_question_evaluations" with
      | ok u => cases u; simp [List.filterMap_cons, hql, hc]
      | error e => simp [List.filterMap_cons, hql, hc]

/-- With a store on which the question flush raises, nothing is ever
persisted by the question-pillar fold. -/
theorem questionPillarStep_fold_persisted_err (st : Store)
    (engineOf : QuestionRow → Nat → Except PyErr (List Char))
    (ny : Int) (rows : List QuestionRow) (e0 : PyErr)
    (hst : st.call "bulk_upsert_question_evaluations" = .error e0) :
    ∀ (pids : List Int) acc,
      (pids.foldl (questionPillarStep st engineOf ny rows) acc).2.1 = acc.2.1
  | [], acc => rfl
  | pid :: rest, acc => by
    rw [List.foldl_cons,
      questionPillarStep_fold_persisted_err st engineOf ny rows e0 hst rest]
    unfold questionPillarStep
    by_cases hql : ((rows.filter (·.PillarID = pid)).filterMap (processQuestionRow engineOf ny)).isEmpty = true
    · simp [hql]
    · simp [hql, hst]

/-- C2 (Relational Store `bulkUpsert` modelled from the spec, §6): any
exception while researching one pillar — including engine/transport
failures — is absorbed: the Pillar orchestrator always returns a success
or failure value (never raises), the batch runner's `pillarList` is
exactly the per-row successes independent of sibling failures, and on
the concrete 3-pillar scenario with a transport error at pillar 2 the
records for pillars 1 and 3 are produced, pillar 2 is absent, and the
run returns `True`. -/
theorem c2_fault_isolation :
    (∀ engine ny pid pn ev yr,
      (∃ r, research_and_score_pillar engine ny pid pn ev yr = PillarRun.success r) ∨
      (∃ msg, research_and_score_pillar engine ny pid pn ev yr = PillarRun.failure msg pn)) ∧
    (∀ st engineOf ny yp rows, rows ≠ [] →
      (analyze_cityPillar st engineOf ny yp rows).pillarList =
        rows.filterMap (fun row => (processPillarRow engineOf ny yp row).2)) ∧
    (analyze_cityPillar specStore c2Engine y2025 2025 [c2Row 1, c2Row 2, c2Row 3]).pillarList.map
      (fun r => r.PillarID) = [1, 3] ∧
    (2 : Int) ∉ (analyze_cityPillar specStore c2Engine y2025 2025
      [c2Row 1, c2Row 2, c2Row 3]).pillarList.map (fun r => r.PillarID) ∧
    (analyze_cityPillar specStore c2Engine y2025 2025 [c2Row 1, c2Row 2, c2Row 3]).pillarSourceList.map
      (fun r => r.PillarID) = [1, 3] ∧
    (analyze_cityPillar specStore c2Engine y2025 2025 [c2Row 1, c2Row 2, c2Row 3]).result =
      .ok true ∧
    research_and_score_pillar (c2Engine (c2Row 2)) y2025 2 "Pillar" (some 60) 2025 =
      .failure "transport failure" "Pillar" := by
  refine ⟨?_, ?_, rfl, by decide, rfl, rfl, rfl⟩
  · intro engine ny pid pn ev yr
    unfold research_and_score_pillar
    cases hm : (runWithRetries (pillarAttempt ny engine)).result with
    | error e => exact Or.inr ⟨e.msg, rfl⟩
    | ok analysis =>
      dsimp only
      cases hp : pyNumVal (getf "ai_progress" analysis) with
      | none => exact Or.inr ⟨"bad operand type for abs()", rfl⟩
      | some ap => exact Or.inl ⟨_, rfl⟩
  · intro st engineOf ny yp rows hne
    unfold analyze_cityPillar
    rw [if_neg (by simpa using hne)]
    dsimp only
    split
    · rw [pillarRowStep_fold engineOf ny yp rows ([], [], [])]
      simp
    · split
      · rw [pillarRowStep_fold engineOf ny yp rows ([], [], [])]
        simp
      · rw [pillarRowStep_fold engineOf ny yp rows ([], [], [])]
        simp

/-- Witness for C2: the isolation characterization applied to a
single-row batch. -/
theorem c2_fault_isolation_witness :
    (analyze_cityPillar specStore c2Engine y2025 2025 [c2Row 1]).pillarList =
      [c2Row 1].filterMap (fun row => (processPillarRow c2Engine y2025 2025 row).2) :=
  c2_fault_isolation.2.1 specStore c2Engine y2025 2025 [c2Row 1] (List.cons_ne_nil _ _)

/-- C9 (amended; store `bulkUpsert` boundary modelled from the spec):
at the Question tier the buffer is per pillar — each pillar's successful
records are flushed through exactly one bulk-upsert call at that
pillar's boundary, holding all of that pillar's records regardless of
their number (there is no 5-10 record chunk size); at the Pillar tier
the pillar rows and flattened source rows are collected into two
parallel buffers flushed together as one store call. -/
theorem c9_chunked_flush :
    (∀ st engineOf ny rows, rows ≠ [] →
      (analyze_PillarQuestions st engineOf ny rows).flushes =
        (uniqueInts (rows.map (fun r => r.PillarID))).filterMap (fun pid =>
          let ql := (rows.filter (fun r => r.PillarID = pid)).filterMap
            (processQuestionRow engineOf ny)
          if ql.isEmpty then none else some ql)) ∧
    (∀ st engineOf ny yp rows,
      (analyze_cityPillar st engineOf ny yp rows).flushes =
        (if (analyze_cityPillar st engineOf ny yp rows).pillarList.isEmpty then []
         else [((analyze_cityPillar st engineOf ny yp rows).pillarList,
                (analyze_cityPillar st engineOf ny yp rows).pillarSourceList)])) := by
  constructor
  · intro st engineOf ny rows hne
    unfold analyze_PillarQuestions
    rw [if_neg (by simpa using hne)]
    dsimp only
    rw [questionPillarStep_fold_flushes st engineOf ny rows _ ([], [], [])]
    simp
  · intro st engineOf ny yp rows
    unfold analyze_cityPillar
    by_cases hne : rows.isEmpty = true
    · rw [if_pos hne]; rfl
    · rw [if_neg hne]
      dsimp only
      split
      · rename_i hempty
        simp [hempty]
      · rename_i hempty
        split
        · simp [hempty]
        · simp [hempty]

/-- Counterexample to C9 as stated: eleven successful question records
of one pillar are accumulated and flushed in a single bulk-upsert call
of eleven records — more than one 5-10 chunk, with no intermediate
flush. -/
theorem c9_counterexample :
    (analyze_PillarQuestions specStore c9Engine 2025 c9Rows).flushes.length = 1 ∧
    ((analyze_PillarQuestions specStore c9Engine 2025 c9Rows).flushes.headD []).length = 11 ∧
    10 < 11 := by
  refine ⟨rfl, rfl, ?_⟩
  omega

/-- Witness for C9: the per-pillar flush characterization applied to the
eleven-row batch. -/
theorem c9_chunked_flush_witness :
    (analyze_PillarQuestions specStore c9Engine 2025 c9Rows).flushes =
      (uniqueInts (c9Rows.map (fun r => r.PillarID))).filterMap (fun pid =>
        let ql := (c9Rows.filter (fun r => r.PillarID = pid)).filterMap
          (processQuestionRow c9Engine 2025)
        if ql.isEmpty then none else some ql) :=
  c9_chunked_flush.1 specStore c9Engine 2025 c9Rows (by simp [c9Rows]; exact ⟨0, by omega⟩)

/-- With the in-repo `db_service`, the question-tier batch never
persists anything: the per-pillar flush raises `AttributeError`, which
the per-pillar handler logs before continuing. -/
theorem analyze_PillarQuestions_dbStore_persisted
    (engineOf : QuestionRow → Nat → Except PyErr (List Char))
    (ny : Int) (rows : List QuestionRow) :
    (analyze_PillarQuestions dbStore engineOf ny rows).persisted = [] := by
  unfold analyze_PillarQuestions
  by_cases hr : rows.isEmpty = true
  · rw [if_pos hr]
  · rw [if_neg hr]
    exact questionPillarStep_fold_persisted_err dbStore engineOf ny rows
      (.attributeError "'DatabaseService' object has no attribute 'bulk_upsert_question_evaluations'")
      rfl _ ([], [], [])

/-- With the in-repo `db_service`, the pillar-tier batch never persists
anything: the single flush outside the per-row `try` raises
`AttributeError`. -/
theorem analyze_cityPillar_dbStore_persisted
    (engineOf : PillarRow → Nat → Except PyErr (List Char))
    (ny : JNum) (yp : Int) (rows : List PillarRow) :
    (analyze_cityPillar dbStore engineOf ny yp rows).persisted = [] := by
  unfold analyze_cityPillar
  by_cases hr : rows.isEmpty = true
  · rw [if_pos hr]
  · rw [if_neg hr]
    dsimp only
    split
    · rfl
    · rfl

/-- With the in-repo `db_service`, the city-tier batch never persists
anything. -/
theorem analyze_city_dbStore_persisted
    (engineOf : CityRow → Nat → Except PyErr (List Char))
    (cn : String) (yp : Int) (rows : List CityRow) :
    (analyze_city dbStore engineOf cn yp rows).persisted = [] := by
  unfold analyze_city
  by_cases hr : rows.isEmpty = true
  · rw [if_pos hr]
  · rw [if_neg hr]
    dsimp only
    split
    · rfl
    · rfl

/-- With the in-repo `db_service`, the per-city fold of the full batch
run is the identity on all three persisted accumulators. -/
theorem cityWorkStep_fold_dbStore (ny : JNum) (yp : Int) :
    ∀ (cities : List CityWork)
      (acc : List (List QuestionEvalRecord) ×
        List (List PillarEvalRecord × List PillarSourceRecord) × List (List CityEvalRecord)),
      cities.foldl (cityWorkStep dbStore ny yp) acc = acc
  | [], _ => rfl
  | c :: rest, acc => by
    rw [List.foldl_cons, cityWorkStep_fold_dbStore ny yp rest]
    unfold cityWorkStep
    dsimp only
    rw [analyze_PillarQuestions_dbStore_persisted, analyze_cityPillar_dbStore_persisted,
      analyze_city_dbStore_persisted]
    simp only [List.append_nil]
    cases (analyze_PillarQuestions dbStore c.questionEngine yp c.questionRows).result with
    | error e => rfl
    | ok b =>
      cases (analyze_cityPillar dbStore c.pillarEngine ny yp c.pillarRows).result with
      | error e => rfl
      | ok b2 => rfl

/-- C10: none of `bulk_upsert_question_evaluations`,
`bulk_upsert_pillar_evaluations`, `bulk_upsert_city_evaluations` is a
method of `DatabaseService`, so every flush attempt on the in-repo
singleton raises `AttributeError`; at the Question tier the per-pillar
handler catches and logs it and the method still returns `True`; at the
Pillar tier the error escapes the tier method (logged and re-raised by
its outer handler) and is caught by the per-city handler of the batch
runner; consequently a full batch run persists nothing at any tier and
still reports overall success `True`. -/
theorem c10_missing_bulk_upsert :
    ("bulk_upsert_question_evaluations" ∉ databaseServiceMethods ∧
     "bulk_upsert_pillar_evaluations" ∉ databaseServiceMethods ∧
     "bulk_upsert_city_evaluations" ∉ databaseServiceMethods) ∧
    (∀ n : String,
      (n = "bulk_upsert_question_evaluations" ∨ n = "bulk_upsert_pillar_evaluations" ∨
       n = "bulk_upsert_city_evaluations") →
      dbStore.call n = .error (.attributeError
        ("'DatabaseService' object has no attribute '" ++ n ++ "'"))) ∧
    (∀ engineOf ny rows,
      (analyze_PillarQuestions dbStore engineOf ny rows).persisted = [] ∧
      ∃ b, (analyze_PillarQuestions dbStore engineOf ny rows).result = .ok b) ∧
    (∀ engineOf ny yp rows,
      (analyze_cityPillar dbStore engineOf ny yp rows).persisted = [] ∧
      ((analyze_cityPillar dbStore engineOf ny yp rows).pillarList ≠ [] →
        (analyze_cityPillar dbStore engineOf ny yp rows).result =
          .error (.attributeError
            "'DatabaseService' object has no attribute 'bulk_upsert_pillar_evaluations'") ∧
        "Error in analyze_cityPillar: 'DatabaseService' object has no attribute 'bulk_upsert_pillar_evaluations'"
          ∈ (analyze_cityPillar dbStore engineOf ny yp rows).logs)) ∧
    (∀ engineOf cn yp rows,
      (analyze_city dbStore engineOf cn yp rows).persisted = []) ∧
    (∀ ny yp cities,
      (analyze_all_cities_questions dbStore ny yp cities).questionPersisted = [] ∧
      (analyze_all_cities_questions dbStore ny yp cities).pillarPersisted = [] ∧
      (analyze_all_cities_questions dbStore ny yp cities).cityPersisted = [] ∧
      (analyze_all_cities_questions dbStore ny yp cities).result = .ok true) := by
  refine ⟨⟨by decide, by decide, by decide⟩, ?_, ?_, ?_, ?_, ?_⟩
  · intro n hn
    rcases hn with rfl | rfl | rfl <;> rfl
  · intro engineOf ny rows
    refine ⟨analyze_PillarQuestions_dbStore_persisted engineOf ny rows, ?_⟩
    unfold analyze_PillarQuestions
    by_cases hr : rows.isEmpty = true
    · rw [if_pos hr]; exact ⟨false, rfl⟩
    · rw [if_neg hr]; exact ⟨true, rfl⟩
  · intro engineOf ny yp rows
    refine ⟨analyze_cityPillar_dbStore_persisted engineOf ny yp rows, ?_⟩
    intro hne
    unfold analyze_cityPillar at hne ⊢
    by_cases hr : rows.isEmpty = true
    · rw [if_pos hr] at hne
      exact absurd rfl hne
    · rw [if_neg hr] at hne ⊢
      dsimp only at hne ⊢
      split at hne
      · rename_i hempty
        dsimp only at hne
        exact absurd (List.isEmpty_iff.mp hempty) hne
      · rename_i hempty
        rw [if_neg hempty,
          show dbStore.call "bulk_upsert_pillar_evaluations" = .error (.attributeError
            "'DatabaseService' object has no attribute 'bulk_upsert_pillar_evaluations'") from rfl]
        dsimp only
        refine ⟨rfl, ?_⟩
        exact List.mem_append_right _ (List.mem_singleton_self _)
  · intro engineOf cn yp rows
    exact analyze_city_dbStore_persisted engineOf cn yp rows
  · intro ny yp cities
    unfold analyze_all_cities_questions
    rw [cityWorkStep_fold_dbStore ny yp cities ([], [], [])]
    exact ⟨rfl, rfl, rfl, rfl⟩

/-- Witness for C10: the attribute lookup for the pillar flush on the
in-repo singleton raises `AttributeError`. -/
theorem c10_missing_bulk_upsert_witness :
    dbStore.call "bulk_upsert_pillar_evaluations" = .error (.attributeError
      ("'DatabaseService' object has no attribute '" ++ "bulk_upsert_pillar_evaluations" ++ "'")) :=
  c10_missing_bulk_upsert.2.1 "bulk_upsert_pillar_evaluations" (Or.inr (Or.inl rfl))

/-- `dropWhile` skips a prefix every element of which satisfies the
predicate. -/
theorem dropWhile_append_of_all (p : Char → Bool) :
    ∀ (ws t : List Char), (∀ c ∈ ws, p c = true) →
      List.dropWhile p (ws ++ t) = List.dropWhile p t
  | [], t, _ => rfl
  | c :: ws, t, h => by
    rw [List.cons_append, List.dropWhile_cons, if_pos (h c (List.mem_cons_self c ws))]
    exact dropWhile_append_of_all p ws t (fun c hc => h c (List.mem_cons_of_mem _ hc))

/-- `str.strip()` ignores fully-whitespace padding on both sides. -/
theorem pyStrip_pad (ws s ws' : List Char)
    (h : ∀ c ∈ ws, isPySpace c = true) (h' : ∀ c ∈ ws', isPySpace c = true) :
    pyStrip (ws ++ s ++ ws') = pyStrip s := by
  unfold pyStrip
  rw [List.append_assoc, dropWhile_append_of_all isPySpace ws (s ++ ws') h]
  rw [List.dropWhile_append]
  by_cases he : (List.dropWhile isPySpace s).isEmpty = true
  · rw [if_pos he]
    rw [List.isEmpty_iff.mp he]
    have hnil : List.dropWhile isPySpace ws' = [] := by
      rw [List.dropWhile_eq_nil_iff]
      exact h'
    rw [hnil]
  · rw [if_neg he, List.reverse_append,
      dropWhile_append_of_all isPySpace ws'.reverse _
        (fun c hc => h' c (List.mem_reverse.mp hc))]

/-- `split('```', 2)[1]` keeps exactly the text before the closing
marker when that text contains no backtick. -/
theorem takeToFence_append :
    ∀ (inner t : List Char), '`' ∉ inner →
      takeToFence (inner ++ '`' :: '`' :: '`' :: t) = inner
  | [], t, _ => rfl
  | c :: inner, t, h => by
    have hc : ¬ c = '`' := fun hce => h (hce ▸ List.mem_cons_self c inner)
    rw [List.cons_append]
    unfold takeToFence
    have hf : startsFence (c :: (inner ++ '`' :: '`' :: '`' :: t)) = false := by
      unfold startsFence
      split
      · rename_i heq
        injection heq with h1 h2
        exact absurd h1 hc
      · rfl
    rw [hf]
    simp only [Bool.false_eq_true, if_false]
    exact congrArg (c :: ·) (takeToFence_append inner t
      (fun hm => h (List.mem_cons_of_mem _ hm)))

/-- `str.find`: the first occurrence after a prefix free of the
character. -/
theorem pyFind_append (c : Char) :
    ∀ (pre tl post : List Char), c ∉ pre →
      pyFind c (pre ++ (c :: tl) ++ post) = some pre.length
  | [], tl, post, _ => by simp [pyFind]
  | x :: pre, tl, post, h => by
    have hx : ¬ x = c := fun hxe => h (hxe ▸ List.mem_cons_self x pre)
    rw [List.cons_append, List.cons_append]
    unfold pyFind
    rw [if_neg hx]
    rw [show pre ++ (c :: tl) ++ post = pre ++ (c :: tl) ++ post from rfl,
      pyFind_append c pre tl post (fun hm => h (List.mem_cons_of_mem _ hm))]
    rfl

/-- `str.rfind`: the last occurrence before a suffix free of the
character. -/
theorem pyRFind_append (pre js post w : List Char)
    (h : '}' ∉ post) (hj : js.reverse = '}' :: w) :
    pyRFind '}' (pre ++ js ++ post) = some (pre.length + js.length - 1) := by
  have hrev : (pre ++ js ++ post).reverse = post.reverse ++ ('}' :: w) ++ pre.reverse := by
    rw [List.reverse_append, List.reverse_append, hj]
    simp
  have hpost : '}' ∉ post.reverse := fun hm => h (List.mem_reverse.mp hm)
  have hlen : js.length = w.length + 1 := by
    have := congrArg List.length hj
    simpa using this
  unfold pyRFind
  rw [hrev, pyFind_append '}' post.reverse w pre.reverse hpost]
  simp only [Option.map_some', List.length_append, List.length_reverse, Option.some.injEq]
  omega



/-- C7 (amended): `_clean_json_response` trims whitespace (fully-white
padding never changes the outcome); a leading fence with an optional
`json` tag is stripped up to the closing marker; from the remaining
text it takes the inclusive substring from the first `\x7b` to the last
`\x7d` and then applies the character replacements of lines 507-513
(stray-pattern replace, dash/ellipsis normalisation, control-character
removal) before parsing; it fails when no `\x7b` or no `\x7d` is found.
Round-trip recovery of an embedded object therefore holds only when the
leading prose contains no `\x7b`, the trailing prose contains no
`\x7d`, and the object text is a fixed point of those replacements —
not for arbitrary prose. -/
theorem c7_extraction :
    (∀ ws s ws', (∀ c ∈ ws, isPySpace c = true) → (∀ c ∈ ws', isPySpace c = true) →
      pyStrip (ws ++ s ++ ws') = pyStrip s ∧
      clean_json_response (ws ++ s ++ ws') = clean_json_response s) ∧
    (∀ inner t, '`' ∉ inner →
      fenceStrip (['`', '`', '`', 'j', 's', 'o', 'n'] ++ inner ++ '`' :: '`' :: '`' :: t) =
        pyStrip inner ∧
      (∀ r, inner = '{' :: r →
        fenceStrip (['`', '`', '`'] ++ inner ++ '`' :: '`' :: '`' :: t) = pyStrip inner)) ∧
    (∀ s pre js post,
      (if startsFence (pyStrip s) then fenceStrip (pyStrip s) else pyStrip s) =
        pre ++ js ++ post →
      '{' ∉ pre → '}' ∉ post →
      js.head? = some '{' → js.getLast? = some '}' →
      strayReplace js = js →
      js.flatMap normChar = js →
      js.filter (fun c => !isStrippedCtl c) = js →
      (jsonLoads js).isSome = true →
      clean_json_response s = .ok js) ∧
    (∀ s,
      (pyFind '{' (if startsFence (pyStrip s) then fenceStrip (pyStrip s) else pyStrip s) =
         none ∨
       pyRFind '}' (if startsFence (pyStrip s) then fenceStrip (pyStrip s) else pyStrip s) =
         none) →
      clean_json_response s = .error (.valueError "No valid JSON object found in response")) := by
  refine ⟨?_, ?_, ?_, ?_⟩
  · intro ws s ws' h h'
    have hp := pyStrip_pad ws s ws' h h'
    refine ⟨hp, ?_⟩
    unfold clean_json_response
    rw [hp]
  · intro inner t hbt
    have hmem : '`' ∉ 'j' :: 's' :: 'o' :: 'n' :: inner := by
      intro hm
      simp only [List.mem_cons] at hm
      rcases hm with h | h | h | h | h
      · exact absurd h (by decide)
      · exact absurd h (by decide)
      · exact absurd h (by decide)
      · exact absurd h (by decide)
      · exact hbt h
    constructor
    · unfold fenceStrip
      have h2 := takeToFence_append ('j' :: 's' :: 'o' :: 'n' :: inner) t hmem
      rw [show takeToFence
          ((['`', '`', '`', 'j', 's', 'o', 'n'] ++ inner ++ '`' :: '`' :: '`' :: t).drop 3) =
          'j' :: 's' :: 'o' :: 'n' :: inner from h2]
      rfl
    · intro r hinner
      subst hinner
      unfold fenceStrip
      have h2 := takeToFence_append ('{' :: r) t hbt
      rw [show takeToFence
          ((['`', '`', '`'] ++ ('{' :: r) ++ '`' :: '`' :: '`' :: t).drop 3) =
          '{' :: r from h2]
      rfl
  · intro s pre js post hr hpre hpost hhead hlast hstray hnorm hfilter hload
    cases js with
    | nil => exact absurd hhead (by simp)
    | cons j0 jtl =>
      have hj0 : j0 = '{' := by simpa using hhead
      subst hj0
      obtain ⟨w, hw⟩ : ∃ w, ('{' :: jtl).reverse = '}' :: w := by
        cases hjr : ('{' :: jtl).reverse with
        | nil => exact absurd hjr (by simp)
        | cons a w =>
          have ha : ('{' :: jtl).getLast? = some a := by
            rw [← List.head?_reverse, hjr]
            rfl
          rw [hlast] at ha
          have ha2 : a = '}' := by
            injection ha with haa
            exact haa.symm
          exact ⟨w, by rw [ha2]⟩
      unfold clean_json_response
      dsimp only
      rw [hr, pyFind_append '{' pre jtl post hpre,
        pyRFind_append pre ('{' :: jtl) post w hpost hw]
      dsimp only
      rw [show pre.length + ('{' :: jtl : List Char).length - 1 + 1 - pre.length =
          ('{' :: jtl : List Char).length from by simp only [List.length_cons]; omega]
      rw [List.append_assoc, List.drop_left, List.take_left]
      rw [hstray, hnorm, hfilter]
      obtain ⟨v, hv⟩ := Option.isSome_iff_exists.mp hload
      rw [hv]
  · intro s hcase
    unfold clean_json_response
    dsimp only
    rcases hcase with hn | hn
    · rw [hn]
    · cases hf : pyFind '{'
        (if startsFence (pyStrip s) then fenceStrip (pyStrip s) else pyStrip s) with
      | none => rfl
      | some i => rw [hn]

/-- Counterexample to C7 as stated: a schema-valid payload followed by
trailing prose that contains a closing brace — the extracted substring
runs to the prose's brace, parsing fails, and cleaning raises instead
of recovering the embedded object. -/
theorem c7_counterexample :
    (jsonLoads qGoodPayload.data).isSome = true ∧
    clean_json_response (qGoodPayload.data ++ (" tail\x7d").data) =
      .error (.valueError "Could not parse JSON") := ⟨rfl, rfl⟩

/-- Witness for C7: the recovery characterization applied to a concrete
object embedded in brace-free prose. -/
theorem c7_extraction_witness :
    clean_json_response ("Here: \x7b\"a\": 1\x7d done.").data =
      .ok ("\x7b\"a\": 1\x7d").data :=
  c7_extraction.2.2.1 ("Here: \x7b\"a\": 1\x7d done.").data
    ("Here: ").data ("\x7b\"a\": 1\x7d").data (" done.").data
    rfl (by decide) (by decide) rfl rfl rfl rfl rfl rfl

/-- An array body plus its closing bracket splits as first element plus
continuation. -/
theorem serArrTail_eq (ec : Bool) :
    ∀ (h : JVal) (t : JArr),
      serArrBody ec (.acons h t) ++ [']'] = serVal ec h ++ serArrTail ec t
  | _, .anil => rfl
  | h, .acons h' t' => by
    have ih := serArrTail_eq ec h' t'
    simp only [serArrBody, serArrTail]
    rw [List.append_assoc, List.cons_append, ih]
    simp

/-- An object body plus its closing brace splits as first member plus
continuation. -/
theorem serObjTail_eq (ec : Bool) :
    ∀ (k : List Char) (v : JVal) (t : JObj),
      serObjBody ec (.ocons k v t) ++ ['}'] =
        serStr ec k ++ ':' :: serVal ec v ++ serObjTail ec t
  | k, v, .onil => by
    simp only [serObjBody, serObjTail]
  | k, v, .ocons k' v' t' => by
    have ih := serObjTail_eq ec k' v' t'
    simp only [serObjBody, serObjTail]
    rw [List.append_assoc, List.cons_append, List.append_assoc, List.cons_append, ih]
    simp

/-- Skipping whitespace is the identity on inputs that do not start
with whitespace. -/
theorem skipWs_cons (c : Char) (tl : List Char) (h : isJsonWs c = false) :
    skipWs (c :: tl) = c :: tl := by
  unfold skipWs
  rw [List.dropWhile_cons, h]
  rfl

/-- A plain (unescaped, printable) character prepends to a parsed
string body. -/
theorem parseStr_plain (c : Char) (tl : List Char)
    (h1 : ¬ c = '"') (h2 : ¬ c = '\\') (h3 : 0x20 ≤ c.toNat) :
    parseStr (c :: tl) = (parseStr tl).map (fun p => (c :: p.1, p.2)) := by
  conv_lhs => unfold parseStr
  split
  · rename_i heq
    exact absurd heq (by simp)
  · rename_i rest heq
    injection heq with ha _
    exact absurd ha h1
  · rename_i a b cc d rest3 heq
    injection heq with ha _
    exact absurd ha h2
  · rename_i e rest2 heq
    injection heq with ha _
    exact absurd ha h2
  · rename_i heq
    injection heq with ha _
    exact absurd ha h2
  · rename_i c' rest heq
    injection heq with ha hb
    subst ha
    subst hb
    rw [if_neg (by omega)]



/-- Parsing inverts canonical string-body serialization, consuming the
closing quote. -/
theorem parseStr_ser :
    ∀ (s rest : List Char),
      s.all (fun c => decide (0x20 ≤ c.toNat) || c = '\n' || c = '\t' || c = '\r' ||
        c = '\x08' || c = '\x0c') = true →
      parseStr (serStrBody true s ++ '"' :: rest) = some (s, rest)
  | [], rest, _ => rfl
  | c :: s', rest, h => by
    simp only [List.all_cons, Bool.and_eq_true] at h
    obtain ⟨hc, hs⟩ := h
    have ih := parseStr_ser s' rest hs
    show parseStr ((escapeChar true c ++ serStrBody true s') ++ '"' :: rest) = _
    rw [List.append_assoc]
    by_cases h1 : c = '"'
    · subst h1
      rw [show escapeChar true '"' = ['\\', '"'] from rfl, List.cons_append, List.cons_append,
        List.nil_append,
        show parseStr ('\\' :: '"' :: (serStrBody true s' ++ '"' :: rest)) =
          (parseStr (serStrBody true s' ++ '"' :: rest)).map (fun p => ('"' :: p.1, p.2))
          from rfl, ih]
      rfl
    · by_cases h2 : c = '\\'
      · subst h2
        rw [show escapeChar true '\\' = ['\\', '\\'] from rfl, List.cons_append, List.cons_append,
          List.nil_append,
          show parseStr ('\\' :: '\\' :: (serStrBody true s' ++ '"' :: rest)) =
            (parseStr (serStrBody true s' ++ '"' :: rest)).map (fun p => ('\\' :: p.1, p.2))
            from rfl, ih]
        rfl
      · by_cases h3 : c = '\n'
        · subst h3
          rw [show escapeChar true '\n' = ['\\', 'n'] from rfl, List.cons_append, List.cons_append,
            List.nil_append,
            show parseStr ('\\' :: 'n' :: (serStrBody true s' ++ '"' :: rest)) =
              (parseStr (serStrBody true s' ++ '"' :: rest)).map (fun p => ('\n' :: p.1, p.2))
              from rfl, ih]
          rfl
        · by_cases h4 : c = '\t'
          · subst h4
            rw [show escapeChar true '\t' = ['\\', 't'] from rfl, List.cons_append,
              List.cons_append, List.nil_append,
              show parseStr ('\\' :: 't' :: (serStrBody true s' ++ '"' :: rest)) =
                (parseStr (serStrBody true s' ++ '"' :: rest)).map (fun p => ('\t' :: p.1, p.2))
                from rfl, ih]
            rfl
          · by_cases h5 : c = '\r'
            · subst h5
              rw [show escapeChar true '\r' = ['\\', 'r'] from rfl, List.cons_append,
                List.cons_append, List.nil_append,
                show parseStr ('\\' :: 'r' :: (serStrBody true s' ++ '"' :: rest)) =
                  (parseStr (serStrBody true s' ++ '"' :: rest)).map (fun p => ('\r' :: p.1, p.2))
                  from rfl, ih]
              rfl
            · by_cases h6 : c = '\x08'
              · subst h6
                rw [show escapeChar true '\x08' = ['\\', 'b'] from rfl, List.cons_append,
                  List.cons_append, List.nil_append,
                  show parseStr ('\\' :: 'b' :: (serStrBody true s' ++ '"' :: rest)) =
                    (parseStr (serStrBody true s' ++ '"' :: rest)).map
                      (fun p => ('\x08' :: p.1, p.2))
                    from rfl, ih]
                rfl
              · by_cases h7 : c = '\x0c'
                · subst h7
                  rw [show escapeChar true '\x0c' = ['\\', 'f'] from rfl, List.cons_append,
                    List.cons_append, List.nil_append,
                    show parseStr ('\\' :: 'f' :: (serStrBody true s' ++ '"' :: rest)) =
                      (parseStr (serStrBody true s' ++ '"' :: rest)).map
                        (fun p => ('\x0c' :: p.1, p.2))
                      from rfl, ih]
                  rfl
                · have hge : 0x20 ≤ c.toNat := by
                    rcases Bool.or_eq_true_iff.mp hc with h | h
                    · rcases Bool.or_eq_true_iff.mp h with h | h
                      · rcases Bool.or_eq_true_iff.mp h with h | h
                        · rcases Bool.or_eq_true_iff.mp h with h | h
                          · rcases Bool.or_eq_true_iff.mp h with h | h
                            · exact of_decide_eq_true h
                            · exact absurd (by simpa using h) h3
                          · exact absurd (by simpa using h) h4
                        · exact absurd (by simpa using h) h5
                      · exact absurd (by simpa using h) h6
                    · exact absurd (by simpa using h) h7
                  have hesc : escapeChar true c = [c] := by
                    unfold escapeChar
                    rw [if_neg h1, if_neg h2, if_neg h3, if_neg h4, if_neg h5, if_neg h6,
                      if_neg h7]
                  rw [hesc, List.cons_append, List.nil_append,
                    parseStr_plain c _ h1 h2 hge, ih]
                  rfl




/-- The character facts about ASCII digit serialization used by the
round-trip proofs. -/
theorem digitChar_props (d : Nat) (h : d < 10) :
    isDig (digitChar d) = true ∧ digVal (digitChar d) = d ∧
    (digitChar d = '0' ↔ d = 0) ∧ isJsonWs (digitChar d) = false ∧
    digitChar d ≠ '"' ∧ digitChar d ≠ '\\' ∧ digitChar d ≠ '{' ∧ digitChar d ≠ '[' ∧
    digitChar d ≠ 't' ∧ digitChar d ≠ 'f' ∧ digitChar d ≠ 'n' ∧ digitChar d ≠ '-' ∧
    digitChar d ≠ '.' ∧ digitChar d ≠ ']' ∧ digitChar d ≠ '}' := by
  interval_cases d <;> decide

/-- A maximal digit run stops exactly at the first non-digit. -/
theorem spanDigits_ser :
    ∀ (ds : List Nat) (X : List Char),
      ds.all (fun x => decide (x < 10)) = true → noDigStart X = true →
      spanDigits (ds.map digitChar ++ X) = (ds, X)
  | [], X, _, hX => by
    cases X with
    | nil => rfl
    | cons c tl =>
      have hc : isDig c = false := by simpa [noDigStart] using hX
      rw [List.map_nil, List.nil_append]
      unfold spanDigits
      rw [hc]
      rfl
  | d :: ds', X, h, hX => by
    simp only [List.all_cons, Bool.and_eq_true, decide_eq_true_eq] at h
    obtain ⟨hd, hds⟩ := h
    have ih := spanDigits_ser ds' X (by simpa using hds) hX
    have hp := digitChar_props d hd
    rw [List.map_cons, List.cons_append]
    unfold spanDigits
    rw [hp.1, ih, hp.2.1]
    rfl

/-- Parsing the integer part inverts its serialization when the digits
are well formed (no leading zero) and a non-digit follows. -/
theorem parseIntDigits_ser (d : Nat) (ds : List Nat) (X : List Char)
    (hd : d < 10) (hz : d ≠ 0 ∨ ds = []) (hds : ds.all (fun x => decide (x < 10)) = true)
    (hX : noDigStart X = true) :
    parseIntDigits ((d :: ds).map digitChar ++ X) = some (d :: ds, X) := by
  have hp := digitChar_props d hd
  rw [List.map_cons, List.cons_append]
  simp only [parseIntDigits]
  rcases hz with hz | hz
  · rw [if_neg (fun hh => hz (hp.2.2.1.mp hh)), hp.1, if_pos rfl,
      spanDigits_ser ds X hds hX, hp.2.1]
  · subst hz
    by_cases h0 : d = 0
    · subst h0
      rw [if_pos (hp.2.2.1.mpr rfl)]
      simp
    · rw [if_neg (fun hh => h0 (hp.2.2.1.mp hh)), hp.1, if_pos rfl, hp.2.1,
        spanDigits_ser [] X rfl hX]



/-- A separator context starts with no digit. -/
theorem sepStart_noDig (X : List Char) (h : sepStart X = true) : noDigStart X = true := by
  cases X with
  | nil => rfl
  | cons c tl =>
    have hc : (c = ',' ∨ c = '}') ∨ c = ']' := by simpa [sepStart] using h
    rcases hc with (rfl | rfl) | rfl <;> rfl

/-- A separator context starts with no dot. -/
theorem sepStart_noDot (X : List Char) (h : sepStart X = true) : X.head? ≠ some '.' := by
  cases X with
  | nil => simp
  | cons c tl =>
    have hc : (c = ',' ∨ c = '}') ∨ c = ']' := by simpa [sepStart] using h
    rcases hc with (rfl | rfl) | rfl <;> simp

/-- Parsing an unsigned number body inverts its serialization. -/
theorem parseNumBody_ser (n : JNum) (X : List Char) (hw : wfNum n = true)
    (hX : sepStart X = true) :
    parseNumBody ((n.intDigits.map digitChar ++
      (if n.fracDigits.isEmpty then [] else '.' :: n.fracDigits.map digitChar)) ++ X) =
      some (⟨false, n.intDigits, n.fracDigits⟩, X) := by
  obtain ⟨neg, ids, fds⟩ := n
  dsimp only at hw ⊢
  unfold wfNum at hw
  dsimp only at hw
  simp only [Bool.and_eq_true] at hw
  obtain ⟨hw1, hwf⟩ := hw
  cases ids with
  | nil => exact absurd hw1 (by decide)
  | cons d ds =>
    simp only [Bool.and_eq_true, Bool.or_eq_true, decide_eq_true_eq] at hw1
    obtain ⟨⟨hd, hz'⟩, hds⟩ := hw1
    have hz : d ≠ 0 ∨ ds = [] := by
      rcases hz' with h | h
      · exact Or.inl h
      · exact Or.inr (List.isEmpty_iff.mp h)
    unfold parseNumBody
    rw [List.append_assoc]
    cases fds with
    | nil =>
      rw [show (if (List.isEmpty [] : Bool) = true then ([] : List Char)
          else '.' :: List.map digitChar []) = [] from rfl, List.nil_append]
      rw [parseIntDigits_ser d ds X hd hz (by simpa using hds) (sepStart_noDig X hX)]
      simp only [Option.bind_eq_bind, Option.some_bind]
      cases X with
      | nil => rfl
      | cons c tl =>
        have hc : (c = ',' ∨ c = '}') ∨ c = ']' := by simpa [sepStart] using hX
        rcases hc with (rfl | rfl) | rfl <;> rfl
    | cons f fs =>
      rw [show (if (List.isEmpty (f :: fs) : Bool) = true then ([] : List Char)
          else '.' :: List.map digitChar (f :: fs)) =
          '.' :: List.map digitChar (f :: fs) from rfl]
      rw [List.cons_append,
        parseIntDigits_ser d ds ('.' :: (List.map digitChar (f :: fs) ++ X)) hd hz
          (by simpa using hds) rfl]
      simp only [Option.bind_eq_bind, Option.some_bind]
      rw [spanDigits_ser (f :: fs) X (by simpa using hwf) (sepStart_noDig X hX)]



/-- `parseNumber` without a leading minus is `parseNumBody`. -/
theorem parseNumber_not_neg (c : Char) (tl : List Char) (h : ¬ c = '-') :
    parseNumber (c :: tl) = parseNumBody (c :: tl) := by
  conv_lhs => unfold parseNumber
  split
  · rename_i rest heq
    injection heq with ha _
    exact absurd ha h
  · rfl

/-- Parsing a number inverts its serialization under a separator
context. -/
theorem parseNumber_ser (n : JNum) (X : List Char) (hw : wfNum n = true)
    (hX : sepStart X = true) :
    parseNumber (serNum n ++ X) = some (n, X) := by
  obtain ⟨neg, ids, fds⟩ := n
  cases neg with
  | true =>
    show parseNumber ((['-'] ++ _ ++ _) ++ X) = _
    rw [List.append_assoc, List.append_assoc]
    rw [show ((['-'] : List Char) ++ (List.map digitChar ids ++
        ((if (fds.isEmpty : Bool) = true then ([] : List Char)
          else '.' :: List.map digitChar fds) ++ X))) =
        '-' :: (List.map digitChar ids ++
        ((if (fds.isEmpty : Bool) = true then ([] : List Char)
          else '.' :: List.map digitChar fds) ++ X)) from rfl]
    rw [show parseNumber ('-' :: (List.map digitChar ids ++
        ((if (fds.isEmpty : Bool) = true then ([] : List Char)
          else '.' :: List.map digitChar fds) ++ X))) =
        (parseNumBody (List.map digitChar ids ++
          ((if (fds.isEmpty : Bool) = true then ([] : List Char)
            else '.' :: List.map digitChar fds) ++ X))).map
          (fun p => (⟨true, p.1.intDigits, p.1.fracDigits⟩, p.2)) from rfl]
    rw [← List.append_assoc]
    rw [parseNumBody_ser ⟨true, ids, fds⟩ X hw hX]
    rfl
  | false =>
    have hids : ids ≠ [] := by
      intro hnil
      subst hnil
      unfold wfNum at hw
      simp at hw
    cases ids with
    | nil => exact absurd rfl hids
    | cons d ds =>
      have hd : d < 10 := by
        unfold wfNum at hw
        simp only [Bool.and_eq_true, decide_eq_true_eq] at hw
        exact hw.1.1.1
      show parseNumber ((([] : List Char) ++ _ ++ _) ++ X) = _
      rw [List.nil_append, List.append_assoc, List.map_cons, List.cons_append]
      rw [parseNumber_not_neg _ _ ((digitChar_props d hd).2.2.2.2.2.2.2.2.2.2.2.1)]
      rw [← List.cons_append, ← List.map_cons, ← List.append_assoc]
      rw [parseNumBody_ser ⟨false, d :: ds, fds⟩ X hw hX]



/-- Every fuel bound is at least one. -/
theorem pfuelA_pos (xs : JArr) : 1 ≤ pfuelA xs := by
  cases xs with
  | anil => exact le_refl 1
  | acons h t => show 1 ≤ pfuel h + pfuelA t + 1; omega

/-- Every fuel bound is at least one. -/
theorem pfuelO_pos (ms : JObj) : 1 ≤ pfuelO ms := by
  cases ms with
  | onil => exact le_refl 1
  | ocons k v t => show 1 ≤ pfuel v + pfuelO t + 1; omega

/-- Every fuel bound is at least one. -/
theorem pfuel_pos (v : JVal) : 1 ≤ pfuel v := by
  cases v with
  | jnull => exact le_refl 1
  | jbool b => exact le_refl 1
  | jnum n => exact le_refl 1
  | jstr s => exact le_refl 1
  | jarr xs => exact pfuelA_pos xs
  | jobj ms => exact pfuelO_pos ms

/-- An array continuation starts with a separator. -/
theorem serArrTail_sep (t : JArr) (rest : List Char) :
    sepStart (serArrTail true t ++ rest) = true := by
  cases t <;> rfl

/-- An object continuation starts with a separator. -/
theorem serObjTail_sep (t : JObj) (rest : List Char) :
    sepStart (serObjTail true t ++ rest) = true := by
  cases t <;> rfl

/-- The serialization of a well-formed value starts with a
distinguishing non-whitespace character. -/
theorem serVal_head (v : JVal) (hw : wfVal v = true) :
    ∃ c tl, serVal true v = c :: tl ∧ isJsonWs c = false ∧ c ≠ ']' ∧ c ≠ '}' := by
  cases v with
  | jnull => exact ⟨'n', _, rfl, rfl, by decide, by decide⟩
  | jbool b => cases b with
    | true => exact ⟨'t', _, rfl, rfl, by decide, by decide⟩
    | false => exact ⟨'f', _, rfl, rfl, by decide, by decide⟩
  | jnum n =>
    obtain ⟨neg, ids, fds⟩ := n
    cases neg with
    | true => exact ⟨'-', _, rfl, rfl, by decide, by decide⟩
    | false =>
      cases ids with
      | nil =>
        unfold wfVal wfNum at hw
        simp at hw
      | cons d ds =>
        have hd : d < 10 := by
          unfold wfVal wfNum at hw
          simp only [Bool.and_eq_true, decide_eq_true_eq] at hw
          exact hw.1.1.1
        have hp := digitChar_props d hd
        exact ⟨digitChar d, _, rfl, hp.2.2.2.1, hp.2.2.2.2.2.2.2.2.2.2.2.2.2.1,
          hp.2.2.2.2.2.2.2.2.2.2.2.2.2.2⟩
  | jstr s => exact ⟨'"', _, rfl, rfl, by decide, by decide⟩
  | jarr xs => exact ⟨'[', _, rfl, rfl, by decide, by decide⟩
  | jobj ms => exact ⟨'{', _, rfl, rfl, by decide, by decide⟩

/-- `parseVal` on a non-structural head falls through to the number
branch. -/
theorem parseVal_succ_other (f : Nat) (c : Char) (tl : List Char)
    (hws : isJsonWs c = false) (h1 : ¬ c = '{') (h2 : ¬ c = '[') (h3 : ¬ c = '"')
    (h4 : ¬ c = 't') (h5 : ¬ c = 'f') (h6 : ¬ c = 'n') :
    parseVal (f + 1) (c :: tl) =
      (parseNumber (c :: tl)).map (fun p => (.jnum p.1, p.2)) := by
  unfold parseVal
  rw [skipWs_cons c tl hws]
  dsimp only
  rw [if_neg h1, if_neg h2, if_neg h3, if_neg h4, if_neg h5, if_neg h6]

/-- `parseVal` on a quote parses a string literal. -/
theorem parseVal_succ_str (f : Nat) (tl : List Char) :
    parseVal (f + 1) ('"' :: tl) =
      (parseStr tl).map (fun p => (.jstr p.1, p.2)) := by
  unfold parseVal
  rw [skipWs_cons '"' tl rfl]
  dsimp only
  rw [if_neg (by decide), if_neg (by decide), if_pos rfl]



/-- The serialization of a well-formed number starts with a character
that `parseVal` routes to the number branch. -/
theorem serNum_head (n : JNum) (hw : wfNum n = true) :
    ∃ c tl, serNum n = c :: tl ∧ isJsonWs c = false ∧ ¬c = '{' ∧ ¬c = '[' ∧ ¬c = '"' ∧
      ¬c = 't' ∧ ¬c = 'f' ∧ ¬c = 'n' := by
  obtain ⟨neg, ids, fds⟩ := n
  cases neg with
  | true =>
    exact ⟨'-', _, rfl, rfl, by decide, by decide, by decide, by decide, by decide, by decide⟩
  | false =>
    cases ids with
    | nil =>
      unfold wfNum at hw
      simp at hw
    | cons d ds =>
      have hd : d < 10 := by
        unfold wfNum at hw
        simp only [Bool.and_eq_true, decide_eq_true_eq] at hw
        exact hw.1.1.1
      have hp := digitChar_props d hd
      exact ⟨digitChar d, _, rfl, hp.2.2.2.1, hp.2.2.2.2.2.2.1, hp.2.2.2.2.2.2.2.1,
        hp.2.2.2.2.1, hp.2.2.2.2.2.2.2.2.1, hp.2.2.2.2.2.2.2.2.2.1,
        hp.2.2.2.2.2.2.2.2.2.2.1⟩

mutual

/-- Parsing inverts canonical serialization: values. -/
theorem parseVal_ser :
    ∀ (v : JVal) (fuel : Nat) (rest : List Char),
      wfVal v = true → sepStart rest = true → pfuel v ≤ fuel →
      parseVal fuel (serVal true v ++ rest) = some (v, rest)
  | .jnull, fuel, rest, _, _, hf => by
    obtain ⟨f, rfl⟩ : ∃ f, fuel = f + 1 := ⟨fuel - 1, by have := pfuel_pos .jnull; omega⟩
    rfl
  | .jbool true, fuel, rest, _, _, hf => by
    obtain ⟨f, rfl⟩ : ∃ f, fuel = f + 1 :=
      ⟨fuel - 1, by have := pfuel_pos (.jbool true); omega⟩
    rfl
  | .jbool false, fuel, rest, _, _, hf => by
    obtain ⟨f, rfl⟩ : ∃ f, fuel = f + 1 :=
      ⟨fuel - 1, by have := pfuel_pos (.jbool false); omega⟩
    rfl
  | .jnum n, fuel, rest, hw, hr, hf => by
    obtain ⟨f, rfl⟩ : ∃ f, fuel = f + 1 :=
      ⟨fuel - 1, by have := pfuel_pos (.jnum n); omega⟩
    have hwn : wfNum n = true := hw
    obtain ⟨c, tl, hc, hws, h1, h2, h3, h4, h5, h6⟩ := serNum_head n hwn
    rw [show serVal true (.jnum n) = serNum n from rfl, hc, List.cons_append,
      parseVal_succ_other f c _ hws h1 h2 h3 h4 h5 h6,
      ← List.cons_append, ← hc, parseNumber_ser n rest hwn hr]
    rfl
  | .jstr s, fuel, rest, hw, hr, hf => by
    obtain ⟨f, rfl⟩ : ∃ f, fuel = f + 1 :=
      ⟨fuel - 1, by have := pfuel_pos (.jstr s); omega⟩
    have hws : wfStr s = true := hw
    unfold wfStr at hws
    simp only [Bool.and_eq_true] at hws
    obtain ⟨hall, _⟩ := hws
    rw [show serVal true (.jstr s) ++ rest =
        '"' :: (serStrBody true s ++ '"' :: rest) from by simp [serVal, serStr],
      parseVal_succ_str f _, parseStr_ser s rest hall]
    rfl
  | .jarr .anil, fuel, rest, _, _, hf => by
    obtain ⟨f, rfl⟩ : ∃ f, fuel = f + 1 :=
      ⟨fuel - 1, by have := pfuel_pos (.jarr .anil); omega⟩
    rfl
  | .jarr (.acons h t), fuel, rest, hw, hr, hf => by
    obtain ⟨f, rfl⟩ : ∃ f, fuel = f + 1 :=
      ⟨fuel - 1, by have := pfuel_pos (.jarr (.acons h t)); omega⟩
    have hwa : (wfVal h && wfArr t) = true := hw
    rw [Bool.and_eq_true] at hwa
    obtain ⟨hwh, hwt⟩ := hwa
    rw [show pfuel (.jarr (.acons h t)) = pfuel h + pfuelA t + 1 from rfl] at hf
    have key : serVal true (.jarr (.acons h t)) ++ rest =
        '[' :: (serVal true h ++ (serArrTail true t ++ rest)) := by
      rw [show serVal true (.jarr (.acons h t)) =
          ('[' :: serArrBody true (.acons h t)) ++ [']'] from rfl,
        List.append_assoc, List.cons_append, ← List.append_assoc,
        serArrTail_eq true h t, List.append_assoc]
    rw [key]
    unfold parseVal
    rw [skipWs_cons '[' _ rfl]
    dsimp only
    rw [if_neg (by decide), if_pos rfl]
    obtain ⟨ch, ctl, hch, hchw, hchr, _⟩ := serVal_head h hwh
    rw [hch, List.cons_append, skipWs_cons ch _ hchw]
    split
    · rename_i r heq
      injection heq with ha _
      exact absurd ha hchr
    · rw [← List.cons_append, ← hch,
        parseVal_ser h f (serArrTail true t ++ rest) hwh (serArrTail_sep t rest) (by omega)]
      simp only [Option.bind_eq_bind, Option.some_bind]
      rw [parseArrRest_ser t f rest hwt hr (by omega)]
      rfl
  | .jobj .onil, fuel, rest, _, _, hf => by
    obtain ⟨f, rfl⟩ : ∃ f, fuel = f + 1 :=
      ⟨fuel - 1, by have := pfuel_pos (.jobj .onil); omega⟩
    rfl
  | .jobj (.ocons k v t), fuel, rest, hw, hr, hf => by
    obtain ⟨f, rfl⟩ : ∃ f, fuel = f + 1 :=
      ⟨fuel - 1, by have := pfuel_pos (.jobj (.ocons k v t)); omega⟩
    have hwo : (wfStr k && wfVal v && wfObj t) = true := hw
    simp only [Bool.and_eq_true] at hwo
    obtain ⟨⟨hwk, hwv⟩, hwt⟩ := hwo
    have hallk : k.all (fun c => decide (0x20 ≤ c.toNat) || c = '\n' || c = '\t' ||
        c = '\r' || c = '\x08' || c = '\x0c') = true := by
      unfold wfStr at hwk
      exact ((Bool.and_eq_true _ _).mp hwk).1
    rw [show pfuel (.jobj (.ocons k v t)) = pfuel v + pfuelO t + 1 from rfl] at hf
    have key : serVal true (.jobj (.ocons k v t)) ++ rest =
        '{' :: '"' :: (serStrBody true k ++
          '"' :: ':' :: (serVal true v ++ (serObjTail true t ++ rest))) := by
      rw [show serVal true (.jobj (.ocons k v t)) =
          ('{' :: serObjBody true (.ocons k v t)) ++ ['}'] from rfl,
        List.append_assoc, List.cons_append, ← List.append_assoc,
        serObjTail_eq true k v t]
      simp [serStr]
    rw [key]
    unfold parseVal
    rw [skipWs_cons '{' _ rfl]
    dsimp only
    rw [if_pos rfl, skipWs_cons '"' _ rfl]
    split
    · rename_i r heq
      injection heq with ha _
      exact absurd ha (by decide)
    · rename_i r heq
      injection heq with _ hb
      subst hb
      rw [parseStr_ser k (':' :: (serVal true v ++ (serObjTail true t ++ rest))) hallk]
      simp only [Option.bind_eq_bind, Option.some_bind]
      rw [skipWs_cons ':' _ rfl]
      split
      · rename_i r3 heq2
        injection heq2 with _ hb2
        subst hb2
        rw [parseVal_ser v f (serObjTail true t ++ rest) hwv (serObjTail_sep t rest) (by omega)]
        simp only [Option.bind_eq_bind, Option.some_bind]
        rw [parseObjRest_ser t f rest hwt hr (by omega)]
        rfl
      · rename_i hne
        exact absurd rfl (hne _)
    · rename_i hne1 hne2
      exact absurd rfl (hne2 _)

/-- Parsing inverts canonical serialization: array continuations. -/
theorem parseArrRest_ser :
    ∀ (xs : JArr) (fuel : Nat) (rest : List Char),
      wfArr xs = true → sepStart rest = true → pfuelA xs ≤ fuel →
      parseArrRest fuel (serArrTail true xs ++ rest) = some (xs, rest)
  | .anil, fuel, rest, _, _, hf => by
    obtain ⟨f, rfl⟩ : ∃ f, fuel = f + 1 := ⟨fuel - 1, by have := pfuelA_pos .anil; omega⟩
    rfl
  | .acons h t, fuel, rest, hw, hr, hf => by
    obtain ⟨f, rfl⟩ : ∃ f, fuel = f + 1 :=
      ⟨fuel - 1, by have := pfuelA_pos (.acons h t); omega⟩
    have hwa : (wfVal h && wfArr t) = true := hw
    rw [Bool.and_eq_true] at hwa
    obtain ⟨hwh, hwt⟩ := hwa
    rw [show pfuelA (.acons h t) = pfuel h + pfuelA t + 1 from rfl] at hf
    have key : serArrTail true (.acons h t) ++ rest =
        ',' :: (serVal true h ++ (serArrTail true t ++ rest)) := by
      simp [serArrTail]
    rw [key]
    unfold parseArrRest
    rw [skipWs_cons ',' _ rfl]
    split
    · rename_i r heq
      injection heq with ha _
      exact absurd ha (by decide)
    · rename_i r heq
      injection heq with _ hb
      subst hb
      rw [parseVal_ser h f (serArrTail true t ++ rest) hwh (serArrTail_sep t rest) (by omega)]
      simp only [Option.bind_eq_bind, Option.some_bind]
      rw [parseArrRest_ser t f rest hwt hr (by omega)]
      rfl
    · rename_i hne1 hne2
      exact absurd rfl (hne2 _)

/-- Parsing inverts canonical serialization: object continuations. -/
theorem parseObjRest_ser :
    ∀ (ms : JObj) (fuel : Nat) (rest : List Char),
      wfObj ms = true → sepStart rest = true → pfuelO ms ≤ fuel →
      parseObjRest fuel (serObjTail true ms ++ rest) = some (ms, rest)
  | .onil, fuel, rest, _, _, hf => by
    obtain ⟨f, rfl⟩ : ∃ f, fuel = f + 1 := ⟨fuel - 1, by have := pfuelO_pos .onil; omega⟩
    rfl
  | .ocons k v t, fuel, rest, hw, hr, hf => by
    obtain ⟨f, rfl⟩ : ∃ f, fuel = f + 1 :=
      ⟨fuel - 1, by have := pfuelO_pos (.ocons k v t); omega⟩
    have hwo : (wfStr k && wfVal v && wfObj t) = true := hw
    simp only [Bool.and_eq_true] at hwo
    obtain ⟨⟨hwk, hwv⟩, hwt⟩ := hwo
    have hallk : k.all (fun c => decide (0x20 ≤ c.toNat) || c = '\n' || c = '\t' ||
        c = '\r' || c = '\x08' || c = '\x0c') = true := by
      unfold wfStr at hwk
      exact ((Bool.and_eq_true _ _).mp hwk).1
    rw [show pfuelO (.ocons k v t) = pfuel v + pfuelO t + 1 from rfl] at hf
    have key : serObjTail true (.ocons k v t) ++ rest =
        ',' :: '"' :: (serStrBody true k ++
          '"' :: ':' :: (serVal true v ++ (serObjTail true t ++ rest))) := by
      simp [serObjTail, serStr]
    rw [key]
    unfold parseObjRest
    rw [skipWs_cons ',' _ rfl]
    split
    · rename_i r heq
      injection heq with ha _
      exact absurd ha (by decide)
    · rename_i r heq
      injection heq with _ hb
      subst hb
      rw [skipWs_cons '"' _ rfl]
      split
      · rename_i r1 heq1
        injection heq1 with _ hb1
        subst hb1
        rw [parseStr_ser k (':' :: (serVal true v ++ (serObjTail true t ++ rest))) hallk]
        simp only [Option.bind_eq_bind, Option.some_bind]
        rw [skipWs_cons ':' _ rfl]
        split
        · rename_i r3 heq3
          injection heq3 with _ hb3
          subst hb3
          rw [parseVal_ser v f (serObjTail true t ++ rest) hwv (serObjTail_sep t rest)
            (by omega)]
          simp only [Option.bind_eq_bind, Option.some_bind]
          rw [parseObjRest_ser t f rest hwt hr (by omega)]
          rfl
        · rename_i hne
          exact absurd rfl (hne _)
      · rename_i hne
        exact absurd rfl (hne _)
    · rename_i hne1 hne2
      exact absurd rfl (hne2 _)

end



mutual

/-- The fuel bound is at most the serialized length: values. -/
theorem pfuel_le :
    ∀ (v : JVal), wfVal v = true → pfuel v ≤ (serVal true v).length
  | .jnull, _ => by decide
  | .jbool true, _ => by decide
  | .jbool false, _ => by decide
  | .jnum n, hw => by
    obtain ⟨neg, ids, fds⟩ := n
    cases ids with
    | nil =>
      unfold wfVal wfNum at hw
      simp at hw
    | cons d ds =>
      show 1 ≤ (serNum ⟨neg, d :: ds, fds⟩).length
      unfold serNum
      simp only [List.length_append, List.length_cons, List.length_map]
      omega
  | .jstr s, _ => by
    show 1 ≤ (serStr true s).length
    unfold serStr
    simp
  | .jarr .anil, _ => by decide
  | .jarr (.acons h t), hw => by
    have hwa : (wfVal h && wfArr t) = true := hw
    rw [Bool.and_eq_true] at hwa
    obtain ⟨hwh, hwt⟩ := hwa
    have ih1 := pfuel_le h hwh
    have ih2 := pfuelA_le t hwt
    show pfuel h + pfuelA t + 1 ≤ (('[' :: serArrBody true (.acons h t)) ++ [']']).length
    have hlen := congrArg List.length (serArrTail_eq true h t)
    simp only [List.length_append, List.length_cons] at hlen ⊢
    omega
  | .jobj .onil, _ => by decide
  | .jobj (.ocons k v t), hw => by
    have hwo : (wfStr k && wfVal v && wfObj t) = true := hw
    simp only [Bool.and_eq_true] at hwo
    obtain ⟨⟨_, hwv⟩, hwt⟩ := hwo
    have ih1 := pfuel_le v hwv
    have ih2 := pfuelO_le t hwt
    show pfuel v + pfuelO t + 1 ≤ (('{' :: serObjBody true (.ocons k v t)) ++ ['}']).length
    have hlen := congrArg List.length (serObjTail_eq true k v t)
    simp only [List.length_append, List.length_cons] at hlen ⊢
    omega

/-- The fuel bound is at most the serialized length: array tails. -/
theorem pfuelA_le :
    ∀ (xs : JArr), wfArr xs = true → pfuelA xs ≤ (serArrTail true xs).length
  | .anil, _ => by decide
  | .acons h t, hw => by
    have hwa : (wfVal h && wfArr t) = true := hw
    rw [Bool.and_eq_true] at hwa
    obtain ⟨hwh, hwt⟩ := hwa
    have ih1 := pfuel_le h hwh
    have ih2 := pfuelA_le t hwt
    show pfuel h + pfuelA t + 1 ≤ (',' :: serVal true h ++ serArrTail true t).length
    simp only [List.cons_append, List.length_cons, List.length_append]
    omega

/-- The fuel bound is at most the serialized length: object tails. -/
theorem pfuelO_le :
    ∀ (ms : JObj), wfObj ms = true → pfuelO ms ≤ (serObjTail true ms).length
  | .onil, _ => by decide
  | .ocons k v t, hw => by
    have hwo : (wfStr k && wfVal v && wfObj t) = true := hw
    simp only [Bool.and_eq_true] at hwo
    obtain ⟨⟨_, hwv⟩, hwt⟩ := hwo
    have ih1 := pfuel_le v hwv
    have ih2 := pfuelO_le t hwt
    show pfuel v + pfuelO t + 1 ≤
      (',' :: serStr true k ++ ':' :: serVal true v ++ serObjTail true t).length
    simp only [List.cons_append, List.length_cons, List.length_append]
    omega

end

/-- `json.loads` inverts canonical serialization. -/
theorem jsonLoads_ser (v : JVal) (hw : wfVal v = true) :
    jsonLoads (serVal true v) = some v := by
  have hp := parseVal_ser v ((serVal true v).length + 1) [] hw rfl
    (le_trans (pfuel_le v hw) (by omega))
  rw [List.append_nil] at hp
  unfold jsonLoads
  rw [hp]
  rfl



/-- Outside a string, a non-quote character is copied verbatim. -/
theorem fixGo_copy (c : Char) (prev : Option Char) (rest : List Char) (hc : ¬ c = '"') :
    fixGo prev false (c :: rest) = c :: fixGo (some c) false rest := by
  conv_lhs => unfold fixGo
  rw [if_neg (fun hh => hc hh.1)]
  rfl

/-- An unescaped quote toggles into a string. -/
theorem fixGo_quote (prev : Option Char) (rest : List Char) (hq : prev ≠ some '\\') :
    fixGo prev false ('"' :: rest) = '"' :: fixGo (some '"') true rest := by
  conv_lhs => unfold fixGo
  rw [if_pos ⟨rfl, hq⟩]
  rfl

/-- A run of quote-free, backslash-free characters is copied verbatim. -/
theorem fixGo_copy_all :
    ∀ (cs : List Char) (prev : Option Char) (tail : List Char),
      (∀ c ∈ cs, ¬ c = '"' ∧ ¬ c = '\\') → prev ≠ some '\\' →
      ∃ p, p ≠ some '\\' ∧
        fixGo prev false (cs ++ tail) = cs ++ fixGo p false tail
  | [], prev, tail, _, hp => ⟨prev, hp, rfl⟩
  | c :: cs', prev, tail, h, _ => by
    have hc := h c (List.mem_cons_self c cs')
    have hp' : some c ≠ some '\\' := by
      intro hh
      injection hh with hh2
      exact hc.2 hh2
    obtain ⟨p, hp2, heq⟩ := fixGo_copy_all cs' (some c) tail
      (fun x hx => h x (List.mem_cons_of_mem _ hx)) hp'
    exact ⟨p, hp2, by rw [List.cons_append, fixGo_copy c prev _ hc.1, heq,
      List.cons_append]⟩

/-- Scanning a raw-serialized string body escapes exactly the raw
newline, tab and carriage-return characters, leaves the rest, and exits
the string at the closing quote -- provided the content does not end in
a backslash. -/
theorem fixGo_body :
    ∀ (s : List Char) (prev : Option Char) (tail : List Char),
      s.all (fun c => decide (0x20 ≤ c.toNat) || c = '\n' || c = '\t' || c = '\r' ||
        c = '\x08' || c = '\x0c') = true →
      s.getLast? ≠ some '\\' →
      (s = [] → prev ≠ some '\\') →
      fixGo prev true (serStrBody false s ++ '"' :: tail) =
        serStrBody true s ++ '"' :: fixGo (some '"') false tail
  | [], prev, tail, _, _, hp => by
    show fixGo prev true ('"' :: tail) = '"' :: fixGo (some '"') false tail
    conv_lhs => unfold fixGo
    rw [if_pos ⟨rfl, hp rfl⟩]
    rfl
  | c :: s', prev, tail, h, hlast, _ => by
    simp only [List.all_cons, Bool.and_eq_true] at h
    obtain ⟨hc, hs⟩ := h
    have hlast' : s'.getLast? ≠ some '\\' := by
      cases s' with
      | nil => simp
      | cons a b =>
        rw [List.getLast?_cons_cons] at hlast
        exact hlast
    by_cases h1 : c = '"'
    · subst h1
      rw [show serStrBody false ('"' :: s') ++ '"' :: tail =
          '\\' :: '"' :: (serStrBody false s' ++ '"' :: tail) from rfl]
      rw [show fixGo prev true ('\\' :: '"' :: (serStrBody false s' ++ '"' :: tail)) =
          '\\' :: '"' :: fixGo (some '"') true (serStrBody false s' ++ '"' :: tail) from rfl]
      rw [fixGo_body s' (some '"') tail hs hlast' (fun _ => by simp)]
      rfl
    · by_cases h2 : c = '\\'
      · subst h2
        have hs'ne : s' ≠ [] := by
          intro hh
          subst hh
          exact hlast rfl
        rw [show serStrBody false ('\\' :: s') ++ '"' :: tail =
            '\\' :: '\\' :: (serStrBody false s' ++ '"' :: tail) from rfl]
        rw [show fixGo prev true ('\\' :: '\\' :: (serStrBody false s' ++ '"' :: tail)) =
            '\\' :: '\\' :: fixGo (some '\\') true (serStrBody false s' ++ '"' :: tail)
            from rfl]
        rw [fixGo_body s' (some '\\') tail hs hlast' (fun hh => absurd hh hs'ne)]
        rfl
      · by_cases h3 : c = '\n'
        · subst h3
          rw [show serStrBody false ('\n' :: s') ++ '"' :: tail =
              '\n' :: (serStrBody false s' ++ '"' :: tail) from rfl]
          conv_lhs => unfold fixGo
          rw [if_neg (fun hh => absurd hh.1 (by decide)), if_pos rfl,
            if_neg (by decide), if_pos rfl]
          rw [fixGo_body s' (some '\n') tail hs hlast' (fun _ => by simp)]
          rfl
        · by_cases h4 : c = '\t'
          · subst h4
            rw [show serStrBody false ('\t' :: s') ++ '"' :: tail =
                '\t' :: (serStrBody false s' ++ '"' :: tail) from rfl]
            conv_lhs => unfold fixGo
            rw [if_neg (fun hh => absurd hh.1 (by decide)), if_pos rfl,
              if_neg (by decide), if_neg (by decide), if_neg (by decide), if_pos rfl]
            rw [fixGo_body s' (some '\t') tail hs hlast' (fun _ => by simp)]
            rfl
          · by_cases h5 : c = '\r'
            · subst h5
              rw [show serStrBody false ('\r' :: s') ++ '"' :: tail =
                  '\r' :: (serStrBody false s' ++ '"' :: tail) from rfl]
              conv_lhs => unfold fixGo
              rw [if_neg (fun hh => absurd hh.1 (by decide)), if_pos rfl,
                if_neg (by decide), if_neg (by decide), if_pos rfl]
              rw [fixGo_body s' (some '\r') tail hs hlast' (fun _ => by simp)]
              rfl
            · by_cases h6 : c = '\x08'
              · subst h6
                rw [show serStrBody false ('\x08' :: s') ++ '"' :: tail =
                    '\\' :: 'b' :: (serStrBody false s' ++ '"' :: tail) from rfl]
                rw [show fixGo prev true ('\\' :: 'b' :: (serStrBody false s' ++ '"' :: tail)) =
                    '\\' :: 'b' :: fixGo (some 'b') true (serStrBody false s' ++ '"' :: tail)
                    from rfl]
                rw [fixGo_body s' (some 'b') tail hs hlast' (fun _ => by simp)]
                rfl
              · by_cases h7 : c = '\x0c'
                · subst h7
                  rw [show serStrBody false ('\x0c' :: s') ++ '"' :: tail =
                      '\\' :: 'f' :: (serStrBody false s' ++ '"' :: tail) from rfl]
                  rw [show fixGo prev true
                      ('\\' :: 'f' :: (serStrBody false s' ++ '"' :: tail)) =
                      '\\' :: 'f' :: fixGo (some 'f') true (serStrBody false s' ++ '"' :: tail)
                      from rfl]
                  rw [fixGo_body s' (some 'f') tail hs hlast' (fun _ => by simp)]
                  rfl
                · have hesc : escapeChar false c = [c] := by
                    unfold escapeChar
                    rw [if_neg h1, if_neg h2, if_neg h3, if_neg h4, if_neg h5, if_neg h6,
                      if_neg h7]
                  have hescT : escapeChar true c = [c] := by
                    unfold escapeChar
                    rw [if_neg h1, if_neg h2, if_neg h3, if_neg h4, if_neg h5, if_neg h6,
                      if_neg h7]
                  have hp' : some c ≠ some '\\' := by
                    intro hh
                    injection hh with hh2
                    exact h2 hh2
                  rw [show serStrBody false (c :: s') ++ '"' :: tail =
                      (escapeChar false c ++ serStrBody false s') ++ '"' :: tail from rfl,
                    hesc, List.cons_append, List.nil_append, List.cons_append]
                  rw [show serStrBody true (c :: s') =
                      escapeChar true c ++ serStrBody true s' from rfl, hescT,
                    List.cons_append, List.nil_append]
                  conv_lhs => unfold fixGo
                  rw [if_neg (fun hh => h1 hh.1), if_pos rfl,
                    if_neg h2, if_neg h3, if_neg h5, if_neg h4]
                  rw [fixGo_body s' (some c) tail hs hlast' (fun _ => hp'),
                    List.cons_append]



/-- No character of a well-formed serialized number is a quote or a
backslash. -/
theorem serNum_chars (n : JNum) (hw : wfNum n = true) :
    ∀ c ∈ serNum n, ¬ c = '"' ∧ ¬ c = '\\' := by
  obtain ⟨neg, ids, fds⟩ := n
  cases ids with
  | nil =>
    unfold wfNum at hw
    simp at hw
  | cons d0 ds =>
    unfold wfNum at hw
    simp only [Bool.and_eq_true, decide_eq_true_eq, List.all_eq_true] at hw
    obtain ⟨⟨⟨hd0, _⟩, hds⟩, hfds⟩ := hw
    intro c hc
    unfold serNum at hc
    simp only [List.mem_append] at hc
    rcases hc with (hc | hc) | hc
    · cases neg with
      | true =>
        simp at hc
        subst hc
        exact ⟨by decide, by decide⟩
      | false =>
        simp at hc
    · simp only [List.mem_map] at hc
      obtain ⟨d, hdmem, rfl⟩ := hc
      have hd : d < 10 := by
        rcases List.mem_cons.mp hdmem with rfl | hmem
        · exact hd0
        · exact hds d hmem
      have hp := digitChar_props d hd
      exact ⟨hp.2.2.2.2.1, hp.2.2.2.2.2.1⟩
    · by_cases hfe : (fds.isEmpty : Bool) = true
      · rw [if_pos hfe] at hc
        cases hc
      · rw [if_neg hfe] at hc
        rcases List.mem_cons.mp hc with rfl | hcm
        · exact ⟨by decide, by decide⟩
        · simp only [List.mem_map] at hcm
          obtain ⟨d, hdmem, rfl⟩ := hcm
          have hp := digitChar_props d (hfds d hdmem)
          exact ⟨hp.2.2.2.2.1, hp.2.2.2.2.2.1⟩

/-- Shape of a serialized string value in context. -/
theorem serStr_shape (ec : Bool) (s X : List Char) :
    serVal ec (.jstr s) ++ X = '"' :: (serStrBody ec s ++ '"' :: X) := by
  simp [serVal, serStr]

/-- Shape of a serialized nonempty array in context. -/
theorem serArr_shape (ec : Bool) (h : JVal) (t : JArr) (X : List Char) :
    serVal ec (.jarr (.acons h t)) ++ X =
      '[' :: (serVal ec h ++ (serArrTail ec t ++ X)) := by
  rw [show serVal ec (.jarr (.acons h t)) =
      ('[' :: serArrBody ec (.acons h t)) ++ [']'] from rfl,
    List.append_assoc, List.cons_append, ← List.append_assoc, serArrTail_eq ec h t,
    List.append_assoc]

/-- Shape of a serialized nonempty object in context. -/
theorem serObj_shape (ec : Bool) (k : List Char) (v : JVal) (t : JObj) (X : List Char) :
    serVal ec (.jobj (.ocons k v t)) ++ X =
      '{' :: '"' :: (serStrBody ec k ++ '"' :: ':' :: (serVal ec v ++ (serObjTail ec t ++ X))) := by
  rw [show serVal ec (.jobj (.ocons k v t)) =
      ('{' :: serObjBody ec (.ocons k v t)) ++ ['}'] from rfl,
    List.append_assoc, List.cons_append, ← List.append_assoc, serObjTail_eq ec k v t]
  simp [serStr]

/-- Shape of a serialized array continuation in context. -/
theorem serArrTail_shape (ec : Bool) (h : JVal) (t : JArr) (X : List Char) :
    serArrTail ec (.acons h t) ++ X = ',' :: (serVal ec h ++ (serArrTail ec t ++ X)) := by
  simp [serArrTail]

/-- Shape of a serialized object continuation in context. -/
theorem serObjTail_shape (ec : Bool) (k : List Char) (v : JVal) (t : JObj) (X : List Char) :
    serObjTail ec (.ocons k v t) ++ X =
      ',' :: '"' :: (serStrBody ec k ++ '"' :: ':' :: (serVal ec v ++ (serObjTail ec t ++ X))) := by
  simp [serObjTail, serStr]

mutual

/-- The repair scan maps a raw serialization to the canonically escaped
one: values. -/
theorem fixGo_val :
    ∀ (v : JVal) (prev : Option Char) (tail : List Char),
      wfVal v = true → prev ≠ some '\\' →
      ∃ p, p ≠ some '\\' ∧
        fixGo prev false (serVal false v ++ tail) = serVal true v ++ fixGo p false tail
  | .jnull, prev, tail, _, hp => fixGo_copy_all ['n', 'u', 'l', 'l'] prev tail (by decide) hp
  | .jbool true, prev, tail, _, hp =>
    fixGo_copy_all ['t', 'r', 'u', 'e'] prev tail (by decide) hp
  | .jbool false, prev, tail, _, hp =>
    fixGo_copy_all ['f', 'a', 'l', 's', 'e'] prev tail (by decide) hp
  | .jnum n, prev, tail, hw, hp => fixGo_copy_all (serNum n) prev tail (serNum_chars n hw) hp
  | .jstr s, prev, tail, hw, hp => by
    have hws : wfStr s = true := hw
    unfold wfStr at hws
    simp only [Bool.and_eq_true, decide_eq_true_eq] at hws
    obtain ⟨hall, hlast⟩ := hws
    refine ⟨some '"', by simp, ?_⟩
    rw [serStr_shape false s tail, fixGo_quote prev _ hp,
      fixGo_body s (some '"') tail hall hlast (fun _ => by simp),
      serStr_shape true s (fixGo (some '"') false tail)]
  | .jarr .anil, prev, tail, _, hp => fixGo_copy_all ['[', ']'] prev tail (by decide) hp
  | .jarr (.acons h t), prev, tail, hw, hp => by
    have hwa : (wfVal h && wfArr t) = true := hw
    rw [Bool.and_eq_true] at hwa
    obtain ⟨hwh, hwt⟩ := hwa
    obtain ⟨p1, hp1, heq1⟩ :=
      fixGo_val h (some '[') (serArrTail false t ++ tail) hwh (by simp)
    obtain ⟨p2, hp2, heq2⟩ := fixGo_arrTail t p1 tail hwt hp1
    refine ⟨p2, hp2, ?_⟩
    rw [serArr_shape false h t tail, fixGo_copy '[' prev _ (by decide), heq1, heq2,
      serArr_shape true h t (fixGo p2 false tail)]
  | .jobj .onil, prev, tail, _, hp => fixGo_copy_all ['{', '}'] prev tail (by decide) hp
  | .jobj (.ocons k v t), prev, tail, hw, hp => by
    have hwo : (wfStr k && wfVal v && wfObj t) = true := hw
    simp only [Bool.and_eq_true] at hwo
    obtain ⟨⟨hwk, hwv⟩, hwt⟩ := hwo
    unfold wfStr at hwk
    simp only [Bool.and_eq_true, decide_eq_true_eq] at hwk
    obtain ⟨hallk, hlastk⟩ := hwk
    obtain ⟨p1, hp1, heq1⟩ :=
      fixGo_val v (some ':') (serObjTail false t ++ tail) hwv (by simp)
    obtain ⟨p2, hp2, heq2⟩ := fixGo_objTail t p1 tail hwt hp1
    refine ⟨p2, hp2, ?_⟩
    rw [serObj_shape false k v t tail, fixGo_copy '{' prev _ (by decide),
      fixGo_quote (some '{') _ (by simp),
      fixGo_body k (some '"') _ hallk hlastk (fun _ => by simp),
      fixGo_copy ':' (some '"') _ (by decide), heq1, heq2,
      serObj_shape true k v t (fixGo p2 false tail)]

/-- The repair scan maps a raw serialization to the canonically escaped
one: array continuations. -/
theorem fixGo_arrTail :
    ∀ (xs : JArr) (prev : Option Char) (tail : List Char),
      wfArr xs = true → prev ≠ some '\\' →
      ∃ p, p ≠ some '\\' ∧
        fixGo prev false (serArrTail false xs ++ tail) =
          serArrTail true xs ++ fixGo p false tail
  | .anil, prev, tail, _, hp => fixGo_copy_all [']'] prev tail (by decide) hp
  | .acons h t, prev, tail, hw, hp => by
    have hwa : (wfVal h && wfArr t) = true := hw
    rw [Bool.and_eq_true] at hwa
    obtain ⟨hwh, hwt⟩ := hwa
    obtain ⟨p1, hp1, heq1⟩ :=
      fixGo_val h (some ',') (serArrTail false t ++ tail) hwh (by simp)
    obtain ⟨p2, hp2, heq2⟩ := fixGo_arrTail t p1 tail hwt hp1
    refine ⟨p2, hp2, ?_⟩
    rw [serArrTail_shape false h t tail, fixGo_copy ',' prev _ (by decide), heq1, heq2,
      serArrTail_shape true h t (fixGo p2 false tail)]

/-- The repair scan maps a raw serialization to the canonically escaped
one: object continuations. -/
theorem fixGo_objTail :
    ∀ (ms : JObj) (prev : Option Char) (tail : List Char),
      wfObj ms = true → prev ≠ some '\\' →
      ∃ p, p ≠ some '\\' ∧
        fixGo prev false (serObjTail false ms ++ tail) =
          serObjTail true ms ++ fixGo p false tail
  | .onil, prev, tail, _, hp => fixGo_copy_all ['}'] prev tail (by decide) hp
  | .ocons k v t, prev, tail, hw, hp => by
    have hwo : (wfStr k && wfVal v && wfObj t) = true := hw
    simp only [Bool.and_eq_true] at hwo
    obtain ⟨⟨hwk, hwv⟩, hwt⟩ := hwo
    unfold wfStr at hwk
    simp only [Bool.and_eq_true, decide_eq_true_eq] at hwk
    obtain ⟨hallk, hlastk⟩ := hwk
    obtain ⟨p1, hp1, heq1⟩ :=
      fixGo_val v (some ':') (serObjTail false t ++ tail) hwv (by simp)
    obtain ⟨p2, hp2, heq2⟩ := fixGo_objTail t p1 tail hwt hp1
    refine ⟨p2, hp2, ?_⟩
    rw [serObjTail_shape false k v t tail, fixGo_copy ',' prev _ (by decide),
      fixGo_quote (some ',') _ (by simp),
      fixGo_body k (some '"') _ hallk hlastk (fun _ => by simp),
      fixGo_copy ':' (some '"') _ (by decide), heq1, heq2,
      serObjTail_shape true k v t (fixGo p2 false tail)]

end

/-- `_fix_json_escaping` maps the raw serialization of a well-formed
document to its canonically escaped serialization. -/
theorem fix_json_escaping_ser (v : JVal) (hw : wfVal v = true) :
    fix_json_escaping (serVal false v) = serVal true v := by
  obtain ⟨p, _, heq⟩ := fixGo_val v none [] hw (by simp)
  unfold fix_json_escaping
  rw [show serVal false v = serVal false v ++ [] from (List.append_nil _).symm, heq,
    show fixGo p false [] = [] from rfl, List.append_nil]

/-- C8 (amended): `_fix_json_escaping` is a pure total scan, and for
every JSON text that is the raw serialization of a well-formed document
(strings made of printable or short-escape characters, no string
content ending in a backslash) with raw newline/tab/carriage-return
characters left unescaped inside string values, repair produces the
canonically escaped text, which parses, and the parsed string values
are byte-identical to the original content — the round-trip law.  The
law does not hold for every such text: a string value ending in a
backslash derails the scan's quote-boundary heuristic
(`c8_counterexample`). -/
theorem c8_repair (v : JVal) (hw : wfVal v = true) :
    fix_json_escaping (serVal false v) = serVal true v ∧
    jsonLoads (fix_json_escaping (serVal false v)) = some v := by
  have h1 := fix_json_escaping_ser v hw
  refine ⟨h1, ?_⟩
  rw [h1]
  exact jsonLoads_ser v hw

/-- Counterexample to C8 as stated: a JSON text whose string values
contain a raw newline but whose first string value ends in a backslash
is returned unchanged by repair, and still does not parse. -/
theorem c8_counterexample :
    '\n' ∈ serVal false c8BadVal ∧
    fix_json_escaping (serVal false c8BadVal) = serVal false c8BadVal ∧
    jsonLoads (fix_json_escaping (serVal false c8BadVal)) = none :=
  ⟨by decide, rfl, rfl⟩

/-- Witness for C8: the round-trip law applied to a document with a raw
newline in a string value. -/
theorem c8_repair_witness :
    fix_json_escaping (serVal false c8GoodVal) = serVal true c8GoodVal ∧
    jsonLoads (fix_json_escaping (serVal false c8GoodVal)) = some c8GoodVal :=
  c8_repair c8GoodVal (by decide)

end VeridianAI
